import Mathlib

/-!
# RBotFirmware: motion orchestration and SandTableScara / MugBot kinematics

A shallow embedding of the parts of the firmware that the specification talks
about: `MotionHelper.cpp` (move splitting, background drain, bounds rejection)
and the coordinate transforms of `RobotSandTableScara.h` and `RobotMugBot.h`.

Conventions of the embedding.

* C `float` / `double` values are exact numbers of an ordered field `K` with a
  floor function.  At `K = ℚ` every definition is executable; the
  trigonometric part of the SandTableScara geometry lives at `K = ℝ`.
  Rounding of floating point arithmetic is modelled where `int32_t` step counts
  enter `float` expressions without any bound on their size: in
  `RobotSandTableScara::correctStepOverflow`, whose arithmetic is that of
  `Binary32` below.
* `int` / `int32_t` values are mathematical integers; a conversion from a
  floating value to `int32_t` truncates toward zero (`toInt32`) and is assumed
  to be in range.  A product formed in `int32_t` wraps around (`wrapInt32`).
* By-reference output parameters become components of the returned value.
-/

namespace RBot

/-! # Part I: the embedding

## Axis values (`AxisValues.h`, used by every source file) -/

/-- Number of axes, `RobotConsts::MAX_AXES`.  The sources address axes 0, 1 and 2
(`actuatorInt32s.set(v0, v1, v2)`, G-code words X, Y, Z). -/
def MAX_AXES : Nat := 3

/-- C conversion of a floating value to `int32_t`: truncation toward zero. -/
def toInt32 {K : Type} [LinearOrderedField K] [FloorRing K] (x : K) : Int :=
  if 0 ≤ x then ⌊x⌋ else ⌈x⌉

/-- The value an `int32_t` operation leaves for the mathematical result `x`:
two's-complement wrap-around into `[-2^31, 2^31)`, as the targets of the firmware
compute it. -/
def wrapInt32 (x : Int) : Int := (x + 2147483648) % 4294967296 - 2147483648

/-- `AxisFloats`: one floating value per axis. -/
structure AxisFloats (K : Type) where
  p0 : K
  p1 : K
  p2 : K
deriving DecidableEq, Repr

/-- `AxisInt32s`: one step count per axis. -/
structure AxisInt32s where
  s0 : Int
  s1 : Int
  s2 : Int
deriving DecidableEq, Repr

namespace AxisFloats

variable {K : Type} [LinearOrderedField K]

/-- `AxisFloats::getVal(axisIdx)`; an index outside the axes reads 0. -/
def getVal (a : AxisFloats K) (axisIdx : Nat) : K :=
  match axisIdx with
  | 0 => a.p0
  | 1 => a.p1
  | 2 => a.p2
  | _ => 0

/-- `AxisFloats::setVal(axisIdx, val)`; an index outside the axes writes nothing. -/
def setVal (a : AxisFloats K) (axisIdx : Nat) (val : K) : AxisFloats K :=
  match axisIdx with
  | 0 => { a with p0 := val }
  | 1 => { a with p1 := val }
  | 2 => { a with p2 := val }
  | _ => a

/-- The cleared value of a default-constructed `AxisFloats`. -/
def zero : AxisFloats K := ⟨0, 0, 0⟩

/-- `operator+`, axis by axis. -/
def add (a b : AxisFloats K) : AxisFloats K := ⟨a.p0 + b.p0, a.p1 + b.p1, a.p2 + b.p2⟩

/-- `operator-`, axis by axis. -/
def sub (a b : AxisFloats K) : AxisFloats K := ⟨a.p0 - b.p0, a.p1 - b.p1, a.p2 - b.p2⟩

/-- `operator*(float)`, axis by axis. -/
def mulScalar (a : AxisFloats K) (f : K) : AxisFloats K := ⟨a.p0 * f, a.p1 * f, a.p2 * f⟩

/-- `operator/(float)`, axis by axis. -/
def divScalar (a : AxisFloats K) (f : K) : AxisFloats K := ⟨a.p0 / f, a.p1 / f, a.p2 / f⟩

end AxisFloats

namespace AxisInt32s

/-- `AxisInt32s::getVal(axisIdx)`; an index outside the axes reads 0. -/
def getVal (a : AxisInt32s) (axisIdx : Nat) : Int :=
  match axisIdx with
  | 0 => a.s0
  | 1 => a.s1
  | 2 => a.s2
  | _ => 0

/-- `AxisInt32s::setVal(axisIdx, val)`; an index outside the axes writes nothing. -/
def setVal (a : AxisInt32s) (axisIdx : Nat) (val : Int) : AxisInt32s :=
  match axisIdx with
  | 0 => { a with s0 := val }
  | 1 => { a with s1 := val }
  | 2 => { a with s2 := val }
  | _ => a

/-- The cleared value. -/
def zero : AxisInt32s := ⟨0, 0, 0⟩

end AxisInt32s

/-- `AxisPosition`: the last commanded position of every axis, in real-world
units (`_axisPositionMM`) and in steps from home (`_stepsFromHome`). -/
structure AxisPosition (K : Type) where
  _axisPositionMM : AxisFloats K
  _stepsFromHome : AxisInt32s
deriving DecidableEq, Repr

/-! ## Axis parameters (`AxesParams.h`) -/

/-- Modelled from the spec: the per-axis calibration record behind the
`AxesParams` accessors the sources call (`AxesParams.h` is not among the source
files).  Section 6 lists it: steps per unit or per rotation, units per rotation,
optional min/max bounds, home offset as value and as step count, and the
primary-axis flag. -/
structure AxisParams (K : Type) where
  stepsPerRot : K
  unitsPerRot : K
  stepsPerUnit : K
  minValValid : Bool
  minVal : K
  maxValValid : Bool
  maxVal : K
  homeOffsetVal : K
  homeOffSteps : Int
  isPrimaryAxis : Bool
deriving DecidableEq, Repr

/-- `AxesParams`: the calibration of the three axes. -/
structure AxesParams (K : Type) where
  ax0 : AxisParams K
  ax1 : AxisParams K
  ax2 : AxisParams K
deriving DecidableEq, Repr

namespace AxesParams

variable {K : Type} [LinearOrderedField K]

/-- The record of one axis, if the index names an axis. -/
def axis? (p : AxesParams K) (axisIdx : Nat) : Option (AxisParams K) :=
  match axisIdx with
  | 0 => some p.ax0
  | 1 => some p.ax1
  | 2 => some p.ax2
  | _ => none

/-- `AxesParams::getStepsPerRot(axisIdx)`. -/
def getStepsPerRot (p : AxesParams K) (axisIdx : Nat) : K :=
  match p.axis? axisIdx with
  | some a => a.stepsPerRot
  | none => 0

/-- `AxesParams::getunitsPerRot(axisIdx)`. -/
def getunitsPerRot (p : AxesParams K) (axisIdx : Nat) : K :=
  match p.axis? axisIdx with
  | some a => a.unitsPerRot
  | none => 0

/-- `AxesParams::getStepsPerUnit(axisIdx)`. -/
def getStepsPerUnit (p : AxesParams K) (axisIdx : Nat) : K :=
  match p.axis? axisIdx with
  | some a => a.stepsPerUnit
  | none => 0

/-- `AxesParams::getHomeOffsetVal(axisIdx)`. -/
def getHomeOffsetVal (p : AxesParams K) (axisIdx : Nat) : K :=
  match p.axis? axisIdx with
  | some a => a.homeOffsetVal
  | none => 0

/-- `AxesParams::gethomeOffSteps(axisIdx)`. -/
def gethomeOffSteps (p : AxesParams K) (axisIdx : Nat) : Int :=
  match p.axis? axisIdx with
  | some a => a.homeOffSteps
  | none => 0

/-- `AxesParams::isPrimaryAxis(axisIdx)`. -/
def isPrimaryAxis (p : AxesParams K) (axisIdx : Nat) : Bool :=
  match p.axis? axisIdx with
  | some a => a.isPrimaryAxis
  | none => false

/-- `AxesParams::getMaxVal(axisIdx, maxVal)`: whether the axis has a valid
maximum, and the maximum (0 when it has none, as the caller initialises it). -/
def getMaxVal (p : AxesParams K) (axisIdx : Nat) : Bool × K :=
  match p.axis? axisIdx with
  | some a => if a.maxValValid then (true, a.maxVal) else (false, 0)
  | none => (false, 0)

/-- Modelled from the spec: the bounds test of one axis value (`AxisParams` is not
among the source files): a value is inside when it respects each bound that is
configured. -/
def axisValInBounds (a : AxisParams K) (v : K) : Bool :=
  (!a.minValValid || decide (a.minVal ≤ v)) && (!a.maxValValid || decide (v ≤ a.maxVal))

/-- Modelled from the spec: `AxesParams::ptInBounds(pt, enforce)` (not among the
source files).  Sections 4.1 and 7: the bounds check fails, without mutating
state, when the target lies outside the configured envelope and out-of-bounds is
not allowed; the allow-out-of-bounds flag overrides it.  `RobotMugBot` passes
`enforce = !allowOutOfBounds`. -/
def ptInBounds (p : AxesParams K) (pt : AxisFloats K) (enforce : Bool) : Bool :=
  !enforce ||
    (axisValInBounds p.ax0 pt.p0 && axisValInBounds p.ax1 pt.p1 && axisValInBounds p.ax2 pt.p2)

end AxesParams

/-! ## Single-precision arithmetic (`float`)

The IEEE 754 binary32 format: 24 significant bits, round to nearest with ties to
even, gradual underflow below `2^-126`.  Values are the rational numbers they
stand for; the overflow to infinity above `2^128` is left out. -/

namespace Binary32

/-- Rounding of a rational to the nearest integer, a tie going to the even one. -/
def roundHalfEven (q : ℚ) : Int :=
  let f : Int := ⌊q⌋
  let r : ℚ := q - f
  if r < 1 / 2 then f
  else if 1 / 2 < r then f + 1
  else if f % 2 = 0 then f else f + 1

/-- The number of binary digits of `n`, counted in at most `fuel` halvings. -/
def bitLength : Nat → Nat → Nat
  | 0, _ => 0
  | fuel + 1, n => if n = 0 then 0 else bitLength fuel (n / 2) + 1

/-- The position of the leading binary digit of `n`: `⌊log₂ n⌋` for `n > 0`. -/
def log2 (n : Nat) : Nat := bitLength n n - 1

/-- The binary exponent of a non-zero rational `x`: the integer `e` with
`2^e ≤ |x| < 2^(e+1)`. -/
def exponent (x : ℚ) : Int :=
  let n : Nat := x.num.natAbs
  let d : Nat := x.den
  let e : Int := (log2 n : Int) - (log2 d : Int)
  if d * 2 ^ log2 n ≤ n * 2 ^ log2 d then e else e - 1

/-- The product `x * 2^p`. -/
def scale (x : ℚ) (p : Int) : ℚ :=
  if 0 ≤ p then x * ((2 ^ p.toNat : Nat) : ℚ) else x / ((2 ^ (-p).toNat : Nat) : ℚ)

/-- The binary32 value nearest to `x`: `x` rounded to a multiple of the unit in the
last place of its binade, ties to even. -/
def round (x : ℚ) : ℚ :=
  if x = 0 then 0
  else
    let p : Int := max (exponent x) (-126) - 23
    scale (roundHalfEven (scale x (-p))) p

/-- Conversion of an `int32_t` to `float`. -/
def ofInt (n : Int) : ℚ := round n

/-- The `float` sum. -/
def add (a b : ℚ) : ℚ := round (a + b)

/-- The `float` difference. -/
def sub (a b : ℚ) : ℚ := round (a - b)

/-- The `float` product. -/
def mul (a b : ℚ) : ℚ := round (a * b)

/-- The `float` quotient, for a non-zero divisor. -/
def div (a b : ℚ) : ℚ := round (a / b)

end Binary32

/-! ## SandTableScara: step arithmetic (`RobotSandTableScara.h`) -/

namespace RobotSandTableScara

/-- The body of the loop of `correctStepOverflow` for one axis: `v` is
`curPos._stepsFromHome.getVal(axisIdx)` and `stepsPerRot` is the `float`
`axesParams.getStepsPerRot(axisIdx)`.  Both `if`s run in sequence, the second on
the value the first one left.  In each expression the `int32_t` operands are
converted to `float`, every operation is a `float` operation, and the result is
converted back to `int32_t`. -/
def correctStepOverflowAxis (stepsPerRot : ℚ) (v : Int) : Int :=
  let v1 : Int :=
    if v < 0 then
      let intProp : Int :=
        toInt32 (Binary32.sub 1 (Binary32.div (Binary32.ofInt v) stepsPerRot))
      toInt32 (Binary32.add (Binary32.ofInt v) (Binary32.mul (Binary32.ofInt intProp) stepsPerRot))
    else v
  if Binary32.ofInt v1 ≥ stepsPerRot then
    let intProp : Int := toInt32 (Binary32.div (Binary32.ofInt v1) stepsPerRot)
    toInt32 (Binary32.sub (Binary32.ofInt v1) (Binary32.mul (Binary32.ofInt intProp) stepsPerRot))
  else v1

/-- `RobotSandTableScara::correctStepOverflow`: the loop runs over axes 0 and 1. -/
def correctStepOverflow (curPos : AxisPosition ℚ) (axesParams : AxesParams ℚ) : AxisPosition ℚ :=
  [0, 1].foldl
    (fun (cp : AxisPosition ℚ) (axisIdx : Nat) =>
      let corrected : Int :=
        correctStepOverflowAxis (axesParams.getStepsPerRot axisIdx)
          (cp._stepsFromHome.getVal axisIdx)
      { cp with _stepsFromHome := cp._stepsFromHome.setVal axisIdx corrected })
    curPos

end RobotSandTableScara

namespace RobotSandTableScara

variable {K : Type} [LinearOrderedField K] [FloorRing K]

/-- `RobotSandTableScara::minStepsForMove`. -/
def minStepsForMove (absStepTarget absCurSteps stepsPerRotation : K) : K :=
  let stepsAbsDiff := |absStepTarget - absCurSteps|
  if stepsAbsDiff > stepsPerRotation / 2 then stepsPerRotation - stepsAbsDiff else stepsAbsDiff

/-- `RobotSandTableScara::absStepForMove`. -/
def absStepForMove (absStepTarget absCurSteps stepsPerRotation : K) : K :=
  if absStepTarget > absCurSteps then
    if |absStepTarget - absCurSteps| > stepsPerRotation / 2 then
      absStepTarget - stepsPerRotation
    else absStepTarget
  else
    if |absStepTarget - absCurSteps| > stepsPerRotation / 2 then
      absStepTarget + stepsPerRotation
    else absStepTarget

end RobotSandTableScara

/-! ## SandTableScara: angles and coordinate transforms (`RobotSandTableScara.h`) -/

namespace RobotSandTableScara

/-- `ROTATION_TYPE`. -/
inductive ROTATION_TYPE where
  | ROTATION_NORMAL
  | ROTATION_OUT_OF_BOUNDS
  | ROTATION_IS_NEAR_CENTRE
deriving DecidableEq, Repr

section Angles

variable {K : Type} [LinearOrderedField K] [FloorRing K]

/-- `wrapDegrees`. -/
def wrapDegrees (angle : K) : K := angle - 360 * ((⌊angle / 360⌋ : Int) : K)

/-- `isApprox(v1, v2, withinRng)`. -/
def isApprox (v1 v2 withinRng : K) : Bool := decide (|v1 - v2| < withinRng)

/-- `RobotSandTableScara::rotationToActuator`: writes `_pt[0]` and `_pt[1]` of
`actuatorCoords`. -/
def rotationToActuator (alpha beta : K) (actuatorCoords : AxisFloats K)
    (axesParams : AxesParams K) : AxisFloats K :=
  -- Axis 0 positive steps clockwise, axis 1 postive steps are anticlockwise
  -- Axis 0 zero steps is at 0 degrees, axis 1 zero steps is at 180 degrees
  let alphaStepTarget := alpha * axesParams.getStepsPerRot 0 / 360
  let actuatorCoords := { actuatorCoords with p0 := alphaStepTarget }
  let betaStepTarget :=
    axesParams.getStepsPerRot 1 - wrapDegrees (beta - 180) * axesParams.getStepsPerRot 1 / 360
  { actuatorCoords with p1 := betaStepTarget }

/-- `RobotSandTableScara::actuatorToRotation`; `rotationDegrees.set(alpha, beta)`
sets the first two axes and clears the third.  The product
`actuatorCoords.getVal(i) * 360` has two integer operands and is formed in
`int32_t` before the division converts it to `float`. -/
def actuatorToRotation (actuatorCoords : AxisInt32s) (axesParams : AxesParams K) : AxisFloats K :=
  let axis0Degrees :=
    wrapDegrees
      (((wrapInt32 (actuatorCoords.getVal 0 * 360) : Int) : K) / axesParams.getStepsPerRot 0)
  let alpha := axis0Degrees
  let axis1Degrees :=
    wrapDegrees
      (540 - ((wrapInt32 (actuatorCoords.getVal 1 * 360) : Int) : K) / axesParams.getStepsPerRot 1)
  let beta := axis1Degrees
  ⟨alpha, beta, 0⟩

end Angles

/-! ### The trigonometric part, over the real numbers -/

/-- C `atan2(y, x)`: the argument of the complex number `x + y i`, in `(-π, π]`. -/
noncomputable def atan2 (y x : ℝ) : ℝ := Complex.arg ⟨x, y⟩

/-- `r2d`. -/
noncomputable def r2d (angleRadians : ℝ) : ℝ := angleRadians * 180 / Real.pi

/-- `d2r`. -/
noncomputable def d2r (angleDegrees : ℝ) : ℝ := angleDegrees * Real.pi / 180

/-- `wrapRadians`. -/
noncomputable def wrapRadians (angle : ℝ) : ℝ :=
  angle - (2 * Real.pi) * ((⌊angle / (2 * Real.pi)⌋ : Int) : ℝ)

/-- `cosineRule`: angle C of a triangle using the cosine rule. -/
noncomputable def cosineRule (a b c : ℝ) : ℝ :=
  let val := (a * a + b * b - c * c) / (2 * a * b)
  let val := if val > 1 then 1 else val
  let val := if val < -1 then -1 else val
  Real.arccos val

/-- `RobotSandTableScara::cartesianToActuator`: the rotation type and the output
actuator coordinates. -/
noncomputable def cartesianToActuator (targetPt : AxisFloats ℝ) (curAxisPositions : AxisPosition ℝ)
    (outActuator : AxisFloats ℝ) (axesParams : AxesParams ℝ) : ROTATION_TYPE × AxisFloats ℝ :=
  -- Calculate arm lengths
  let shoulderElbowMM := axesParams.getunitsPerRot 0 / Real.pi / 2
  let elbowHandMM := axesParams.getunitsPerRot 1 / Real.pi / 2
  -- Check for 0,0 point as this is a special case for this robot
  if isApprox targetPt.p0 0 (1 / 2) && isApprox targetPt.p1 0 (1 / 2) then
    -- Keep the current position for alpha, set beta to alpha+180
    let outActuator := outActuator.setVal 0 ((curAxisPositions._stepsFromHome.getVal 0 : Int) : ℝ)
    let outActuator := outActuator.setVal 1
      (wrapDegrees (((curAxisPositions._stepsFromHome.getVal 1 + 180 : Int) : ℝ)))
    (ROTATION_TYPE.ROTATION_IS_NEAR_CENTRE, outActuator)
  else
    -- Calculate distance from origin to pt
    let thirdSideMM := Real.sqrt (targetPt.p0 ^ 2 + targetPt.p1 ^ 2)
    -- Check validity of position
    let maxVal := axesParams.getMaxVal 0
    let maxValid := maxVal.1
    let maxValForXAxis := maxVal.2
    let posValid : Bool := decide (thirdSideMM ≤ shoulderElbowMM + elbowHandMM)
    let posValid : Bool :=
      if maxValid then posValid && decide (thirdSideMM ≤ maxValForXAxis) else posValid
    -- Calculate angle from North to the point
    let delta1 := atan2 targetPt.p0 targetPt.p1
    let delta1 := if delta1 < 0 then delta1 + Real.pi * 2 else delta1
    -- Calculate angle of triangle opposite elbow-hand side
    let delta2 := cosineRule thirdSideMM shoulderElbowMM elbowHandMM
    -- Calculate angle of triangle opposite third side
    let innerAngleOppThird := cosineRule shoulderElbowMM elbowHandMM thirdSideMM
    -- The two pairs of angles that solve these equations
    let alpha1rads := delta1 - delta2
    let beta1rads := alpha1rads - innerAngleOppThird + Real.pi
    let alpha2rads := delta1 + delta2
    let beta2rads := alpha2rads + innerAngleOppThird - Real.pi
    -- Calculate the alpha and beta angles
    let alpha1 := r2d (wrapRadians (alpha1rads + 2 * Real.pi))
    let beta1 := r2d (wrapRadians (beta1rads + 2 * Real.pi))
    let alpha2 := r2d (wrapRadians (alpha2rads + 2 * Real.pi))
    let beta2 := r2d (wrapRadians (beta2rads + 2 * Real.pi))
    -- Find step possibilities
    let actuator1 := rotationToActuator alpha1 beta1 AxisFloats.zero axesParams
    let actuator2 := rotationToActuator alpha2 beta2 AxisFloats.zero axesParams
    -- Find the option with the minimum steps
    let cur0 : ℝ := ((curAxisPositions._stepsFromHome.getVal 0 : Int) : ℝ)
    let cur1 : ℝ := ((curAxisPositions._stepsFromHome.getVal 1 : Int) : ℝ)
    let stepCount1 :=
      minStepsForMove (actuator1.getVal 0) cur0 (axesParams.getStepsPerRot 0) +
        minStepsForMove (actuator1.getVal 1) cur1 (axesParams.getStepsPerRot 1)
    let stepCount2 :=
      minStepsForMove (actuator2.getVal 0) cur0 (axesParams.getStepsPerRot 0) +
        minStepsForMove (actuator2.getVal 1) cur1 (axesParams.getStepsPerRot 1)
    let outActuator :=
      if stepCount1 < stepCount2 then
        (outActuator.setVal 0
          (absStepForMove (actuator1.getVal 0) cur0 (axesParams.getStepsPerRot 0))).setVal 1
          (absStepForMove (actuator1.getVal 1) cur1 (axesParams.getStepsPerRot 1))
      else
        (outActuator.setVal 0
          (absStepForMove (actuator2.getVal 0) cur0 (axesParams.getStepsPerRot 0))).setVal 1
          (absStepForMove (actuator2.getVal 1) cur1 (axesParams.getStepsPerRot 1))
    if !posValid then (ROTATION_TYPE.ROTATION_OUT_OF_BOUNDS, outActuator)
    else (ROTATION_TYPE.ROTATION_NORMAL, outActuator)

/-- `RobotSandTableScara::ptToActuator`: the result flag and the output actuator
coordinates. -/
noncomputable def ptToActuator (targetPt outActuator : AxisFloats ℝ)
    (curAxisPositions : AxisPosition ℝ) (axesParams : AxesParams ℝ) (allowOutOfBounds : Bool) :
    Bool × AxisFloats ℝ :=
  let rotationResult := cartesianToActuator targetPt curAxisPositions outActuator axesParams
  if rotationResult.1 = ROTATION_TYPE.ROTATION_OUT_OF_BOUNDS ∧ allowOutOfBounds = false then
    (false, rotationResult.2)
  else (true, rotationResult.2)

/-- `RobotSandTableScara::rotationsToPoint`: writes `_pt[0]` and `_pt[1]` of `pt`. -/
noncomputable def rotationsToPoint (rotDegrees pt : AxisFloats ℝ) (axesParams : AxesParams ℝ) :
    AxisFloats ℝ :=
  -- Calculate arm lengths
  let shoulderElbowMM := axesParams.getunitsPerRot 0 / Real.pi / 2
  let elbowHandMM := axesParams.getunitsPerRot 1 / Real.pi / 2
  -- Trig to get elbow location - alpha and beta are clockwise from North
  -- But the home position has the lower arm at 180 degrees
  let alpha := d2r rotDegrees.p0
  let beta := d2r (wrapDegrees (rotDegrees.p1 + 180))
  let x1 := shoulderElbowMM * Real.sin alpha
  let y1 := shoulderElbowMM * Real.cos alpha
  -- Trig to get hand location
  let x2 := x1 + elbowHandMM * Real.sin beta
  let y2 := y1 + elbowHandMM * Real.cos beta
  -- Output
  { pt with p0 := x2, p1 := y2 }

/-- `RobotSandTableScara::actuatorToPt`. -/
noncomputable def actuatorToPt (actuatorPos outPt : AxisFloats ℝ) (_curPos : AxisPosition ℝ)
    (axesParams : AxesParams ℝ) : AxisFloats ℝ :=
  -- Convert to rotations
  let actuatorInt32s : AxisInt32s :=
    ⟨toInt32 (actuatorPos.getVal 0), toInt32 (actuatorPos.getVal 1), toInt32 (actuatorPos.getVal 2)⟩
  let rotDegrees := actuatorToRotation actuatorInt32s axesParams
  -- Convert rotations to point
  rotationsToPoint rotDegrees outPt axesParams

end RobotSandTableScara

/-! ## Command arguments (`RobotCommandArgs.h`) -/

/-- `RobotMoveTypeArg`: the move type a command may state. -/
inductive RobotMoveTypeArg where
  | RobotMoveTypeArg_None
  | RobotMoveTypeArg_Absolute
  | RobotMoveTypeArg_Relative
deriving DecidableEq, Repr

/-- Modelled from the spec: the `RobotCommandArgs` envelope (`RobotCommandArgs.h` is
not among the source files), section 3 "CommandArgs" and section 6: target point
by value with one validity bit per axis, move type, the flags allow-out-of-bounds,
don't-split, step-wise and more-moves-coming, and the status fields that
`getCurStatus` fills in.  Feed rate, extrusion and end-stop fields are not read by
the code embedded here and are left out. -/
structure RobotCommandArgs (K : Type) where
  ptInMM : AxisFloats K
  valid0 : Bool
  valid1 : Bool
  valid2 : Bool
  moveType : RobotMoveTypeArg
  dontSplitMove : Bool
  allowOutOfBounds : Bool
  moreMovesComing : Bool
  stepwise : Bool
  ptInSteps : AxisInt32s
  pause : Bool
  isHoming : Bool
  hasHomed : Bool
  numQueued : Nat
deriving DecidableEq, Repr

namespace RobotCommandArgs

variable {K : Type} [LinearOrderedField K]

/-- `RobotCommandArgs::isValid(axisIdx)`. -/
def isValid (a : RobotCommandArgs K) (axisIdx : Nat) : Bool :=
  match axisIdx with
  | 0 => a.valid0
  | 1 => a.valid1
  | 2 => a.valid2
  | _ => false

/-- `RobotCommandArgs::getPointMM()`. -/
def getPointMM (a : RobotCommandArgs K) : AxisFloats K := a.ptInMM

/-- `RobotCommandArgs::getValMM(axisIdx)`. -/
def getValMM (a : RobotCommandArgs K) (axisIdx : Nat) : K := a.ptInMM.getVal axisIdx

/-- `RobotCommandArgs::setPointMM(pt)`. -/
def setPointMM (a : RobotCommandArgs K) (pt : AxisFloats K) : RobotCommandArgs K :=
  { a with ptInMM := pt }

/-- `RobotCommandArgs::getMoveType()`. -/
def getMoveType (a : RobotCommandArgs K) : RobotMoveTypeArg := a.moveType

/-- `RobotCommandArgs::getDontSplitMove()`. -/
def getDontSplitMove (a : RobotCommandArgs K) : Bool := a.dontSplitMove

/-- `RobotCommandArgs::getAllowOutOfBounds()`. -/
def getAllowOutOfBounds (a : RobotCommandArgs K) : Bool := a.allowOutOfBounds

/-- `RobotCommandArgs::setMoreMovesComing(flag)`. -/
def setMoreMovesComing (a : RobotCommandArgs K) (flag : Bool) : RobotCommandArgs K :=
  { a with moreMovesComing := flag }

/-- `RobotCommandArgs::isStepwise()`. -/
def isStepwise (a : RobotCommandArgs K) : Bool := a.stepwise

end RobotCommandArgs

/-! ## Motion pipeline (`MotionPipeline.h`) -/

/-- Modelled from the spec: `MotionBlock` (not among the source files), section 3:
one planned segment with its start and end actuator coordinates and the
more-moves-coming flag.  Travel distance, speeds and acceleration parameters are
left out: nothing embedded here reads them. -/
structure MotionBlock (K : Type) where
  startActuator : AxisFloats K
  endActuator : AxisFloats K
  moreMovesComing : Bool
deriving DecidableEq, Repr

/-- Modelled from the spec: `MotionPipeline` (not among the source files), section
4.3: a bounded FIFO of motion blocks with a fixed configured capacity.  The head of
the list is the block the actuator executes next. -/
structure MotionPipeline (K : Type) where
  capacity : Nat
  blocks : List (MotionBlock K)
deriving DecidableEq, Repr

namespace MotionPipeline

variable {K : Type}

/-- `count()`. -/
def count (p : MotionPipeline K) : Nat := p.blocks.length

/-- `canAccept()`: count < capacity. -/
def canAccept (p : MotionPipeline K) : Bool := decide (p.count < p.capacity)

/-- `canGet()`: count > 0. -/
def canGet (p : MotionPipeline K) : Bool := decide (0 < p.count)

/-- `clear()`: discards all queued blocks unconditionally. -/
def clear (p : MotionPipeline K) : MotionPipeline K := { p with blocks := [] }

/-- `tryPush`: appends a block at the tail; fails on a full pipeline, leaving it unchanged. -/
def tryPush (p : MotionPipeline K) (b : MotionBlock K) : Bool × MotionPipeline K :=
  if p.canAccept then (true, { p with blocks := p.blocks ++ [b] }) else (false, p)

/-- The real-time consumer retiring the `n` oldest blocks. -/
def retire (p : MotionPipeline K) (n : Nat) : MotionPipeline K :=
  { p with blocks := p.blocks.drop n }

end MotionPipeline

/-! ## MotionHelper (`MotionHelper.cpp`) -/

/-- The collaborators `MotionHelper` calls through function pointers or through
members whose classes are not among the source files.

* `_ptToActuatorFn`, `_correctStepOverflowFn`, `_convertCoordsFn`: the callbacks
  stored by `setTransforms` (`none` is the `NULL` pointer).  `_ptToActuatorFn`
  takes the target point, the initial content of the output coordinates, the
  current axis position, the axes parameters and the allow-out-of-bounds flag,
  and returns its boolean result with the output coordinates.
* `plannerMoveTo`, `plannerMoveToStepwise`: `MotionPlanner::moveTo` and
  `MotionPlanner::moveToStepwise`; they return their result together with the axis
  position and the pipeline they were handed by reference.
* `distanceTo`: `AxisFloats::distanceTo(pt, includeDist)`, the length of the
  straight line between two points over the included axes. -/
structure Collaborators (K : Type) where
  _ptToActuatorFn :
    Option (AxisFloats K → AxisFloats K → AxisPosition K → AxesParams K → Bool → Bool × AxisFloats K)
  _correctStepOverflowFn : Option (AxisPosition K → AxesParams K → AxisPosition K)
  _convertCoordsFn : Option (RobotCommandArgs K → AxesParams K → RobotCommandArgs K)
  plannerMoveTo :
    RobotCommandArgs K → AxisFloats K → AxisPosition K → AxesParams K → MotionPipeline K →
      Bool × AxisPosition K × MotionPipeline K
  plannerMoveToStepwise :
    RobotCommandArgs K → AxisPosition K → AxesParams K → MotionPipeline K →
      Bool × AxisPosition K × MotionPipeline K
  distanceTo : AxisFloats K → AxisFloats K → (Nat → Bool) → K

/-- The member variables of `MotionHelper` that the embedded functions read or
write.  `homingInProgress` stands for `_motionHoming.isHomingInProgress()` and
`totalStepPosition` for the step counters of `_motionActuator`.
`submittedToPlanner` is a ghost record, in call order, of the arguments of every
`addToPlanner` call; no source statement reads it. -/
structure MotionHelper (K : Type) where
  _isPaused : Bool
  _moveRelative : Bool
  _blockDistanceMM : K
  _allowAllOutOfBounds : Bool
  _axesParams : AxesParams K
  _lastCommandedAxisPos : AxisPosition K
  _motionPipeline : MotionPipeline K
  totalStepPosition : AxisInt32s
  homingInProgress : Bool
  _blocksToAddCommandArgs : RobotCommandArgs K
  _blocksToAddStartPos : AxisFloats K
  _blocksToAddDelta : AxisFloats K
  _blocksToAddEndPos : AxisFloats K
  _blocksToAddCurBlock : Int
  _blocksToAddTotal : Int
  submittedToPlanner : List (RobotCommandArgs K)
deriving DecidableEq, Repr

namespace MotionHelper

variable {K : Type} [LinearOrderedField K] [FloorRing K]

/-- The call `_ptToActuatorFn(args.getPointMM(), actuatorCoords, _lastCommandedAxisPos,
_axesParams, allow)` of `addToPlanner`, with `moveOk = false` when the pointer is
`NULL`; `actuatorCoords` is default-constructed. -/
def callPtToActuator (env : Collaborators K) (pt : AxisFloats K) (curPos : AxisPosition K)
    (axesParams : AxesParams K) (allowOutOfBounds : Bool) : Bool × AxisFloats K :=
  match env._ptToActuatorFn with
  | some f => f pt AxisFloats.zero curPos axesParams allowOutOfBounds
  | none => (false, AxisFloats.zero)

/-- `MotionHelper::addToPlanner`. -/
def addToPlanner (env : Collaborators K) (s : MotionHelper K) (args : RobotCommandArgs K) :
    Bool × MotionHelper K :=
  let s := { s with submittedToPlanner := s.submittedToPlanner ++ [args] }
  -- Convert the move to actuator coordinates
  let conv := callPtToActuator env args.getPointMM s._lastCommandedAxisPos s._axesParams
    (args.getAllowOutOfBounds || s._allowAllOutOfBounds)
  if conv.1 then
    -- Plan the move
    let planned := env.plannerMoveTo args conv.2 s._lastCommandedAxisPos s._axesParams
      s._motionPipeline
    let s := { s with _lastCommandedAxisPos := planned.2.1, _motionPipeline := planned.2.2 }
    if planned.1 then
      -- Update axisMotion
      let s := { s with _lastCommandedAxisPos :=
        { s._lastCommandedAxisPos with _axisPositionMM := args.getPointMM } }
      -- Correct overflows
      match env._correctStepOverflowFn with
      | some g =>
        (true, { s with _lastCommandedAxisPos := g s._lastCommandedAxisPos s._axesParams })
      | none => (true, s)
    else (false, s)
  else (false, s)

/-- The body of the `while` loop of `blocksToAddProcess`, entered when the pipeline
can accept and blocks remain. -/
def blocksToAddStep (env : Collaborators K) (s : MotionHelper K) : MotionHelper K :=
  -- Add to pipeline any blocks that are waiting to be expanded out
  let nextBlockDest : AxisFloats K :=
    s._blocksToAddStartPos.add
      (s._blocksToAddDelta.mulScalar (((s._blocksToAddCurBlock + 1 : Int) : K)))
  -- If last block then just use end point coords
  let nextBlockDest : AxisFloats K :=
    if s._blocksToAddCurBlock + 1 ≥ s._blocksToAddTotal then s._blocksToAddEndPos
    else nextBlockDest
  -- Bump position
  let s := { s with _blocksToAddCurBlock := s._blocksToAddCurBlock + 1 }
  -- Check if done
  let s := if s._blocksToAddCurBlock ≥ s._blocksToAddTotal then
      { s with _blocksToAddTotal := 0 } else s
  -- Add to planner
  let args := (s._blocksToAddCommandArgs.setPointMM nextBlockDest).setMoreMovesComing
    (s._blocksToAddTotal != 0)
  let s := { s with _blocksToAddCommandArgs := args }
  (addToPlanner env s args).2

/-- The `while (_motionPipeline.canAccept())` loop of `blocksToAddProcess`, with a
bound on the number of iterations. -/
def blocksToAddLoop (env : Collaborators K) : Nat → MotionHelper K → MotionHelper K
  | 0, s => s
  | fuel + 1, s =>
    if s._motionPipeline.canAccept then
      -- Check if any blocks remain to be expanded out
      if s._blocksToAddTotal ≤ 0 then s
      else blocksToAddLoop env fuel (blocksToAddStep env s)
    else s

/-- An iteration bound for `blocksToAddProcess`: every iteration but the last
increases `_blocksToAddCurBlock`, and the one that reaches `_blocksToAddTotal` zeroes it. -/
def blocksToAddFuel (s : MotionHelper K) : Nat :=
  (s._blocksToAddTotal - s._blocksToAddCurBlock).toNat + 2

/-- `MotionHelper::blocksToAddProcess`. -/
def blocksToAddProcess (env : Collaborators K) (s : MotionHelper K) : MotionHelper K :=
  blocksToAddLoop env (blocksToAddFuel s) s

/-- The loop of `moveTo` that fills in the destination: axes the command does not
give keep their last commanded position; for the others a relative move adds the
given value to the last commanded position. -/
def moveToDestPos (s : MotionHelper K) (args : RobotCommandArgs K) : AxisFloats K :=
  (List.range MAX_AXES).foldl
    (fun (destPos : AxisFloats K) (i : Nat) =>
      if !args.isValid i then
        destPos.setVal i (s._lastCommandedAxisPos._axisPositionMM.getVal i)
      else
        let moveRelative : Bool :=
          if args.getMoveType ≠ RobotMoveTypeArg.RobotMoveTypeArg_None then
            decide (args.getMoveType = RobotMoveTypeArg.RobotMoveTypeArg_Relative)
          else s._moveRelative
        if moveRelative then
          destPos.setVal i (s._lastCommandedAxisPos._axisPositionMM.getVal i + args.getValMM i)
        else destPos)
    args.getPointMM

/-- The number of blocks `moveTo` computes for a line of length `lineLen`. -/
def moveToNumBlocks (s : MotionHelper K) (args : RobotCommandArgs K) (lineLen : K) : Int :=
  -- Ensure at least one block
  let numBlocks : Int :=
    if s._blockDistanceMM > 1 / 100 ∧ args.getDontSplitMove = false then
      toInt32 (lineLen / s._blockDistanceMM)
    else 1
  if numBlocks = 0 then 1 else numBlocks

/-- The non-stepwise part of `MotionHelper::moveTo` up to and including "Setup for
adding blocks to the pipe": the state just before the call of `blocksToAddProcess`. -/
def moveToSetup (env : Collaborators K) (s : MotionHelper K) (args : RobotCommandArgs K) :
    MotionHelper K :=
  -- Convert coords to MM (in-place conversion)
  let args := match env._convertCoordsFn with
    | some f => f args s._axesParams
    | none => args
  let destPos := moveToDestPos s args
  -- Split up into blocks of maximum length
  let lineLen := env.distanceTo destPos s._lastCommandedAxisPos._axisPositionMM
    (fun i => s._axesParams.isPrimaryAxis i)
  let numBlocks := moveToNumBlocks s args lineLen
  -- Setup for adding blocks to the pipe
  { s with
    _blocksToAddCommandArgs := args
    _blocksToAddStartPos := s._lastCommandedAxisPos._axisPositionMM
    _blocksToAddDelta :=
      (destPos.sub s._lastCommandedAxisPos._axisPositionMM).divScalar ((numBlocks : Int) : K)
    _blocksToAddEndPos := destPos
    _blocksToAddCurBlock := 0
    _blocksToAddTotal := numBlocks }

/-- `MotionHelper::moveTo`: the returned flag and the state it leaves. -/
def moveTo (env : Collaborators K) (s : MotionHelper K) (args : RobotCommandArgs K) :
    Bool × MotionHelper K :=
  -- Handle stepwise motion
  if args.isStepwise then
    let r := env.plannerMoveToStepwise args s._lastCommandedAxisPos s._axesParams
      s._motionPipeline
    (r.1, { s with _lastCommandedAxisPos := r.2.1, _motionPipeline := r.2.2 })
  else
    -- Process anything that can be done immediately
    (true, blocksToAddProcess env (moveToSetup env s args))

/-- The step-emitting interrupt retiring `n` blocks of the pipeline between two
calls of the service loop. -/
def actuatorRetires (s : MotionHelper K) (n : Nat) : MotionHelper K :=
  { s with _motionPipeline := s._motionPipeline.retire n }

/-- A run of drain calls (`blocksToAddProcess` as called by `service`): before
the `i`-th call the actuator has retired `retired[i]` blocks. -/
def drainCalls (env : Collaborators K) : List Nat → MotionHelper K → MotionHelper K
  | [], s => s
  | n :: rest, s => drainCalls env rest (blocksToAddProcess env (actuatorRetires s n))

/-- The waypoint `blocksToAddProcess` computes for sub-block number `k` (counted
from 1) of the split record of `s`, where `total` is the number of sub-blocks
`moveTo` recorded (the loop zeroes `_blocksToAddTotal` on the last one). -/
def splitWaypoint (s : MotionHelper K) (total : Int) (k : Int) : AxisFloats K :=
  if k ≥ total then s._blocksToAddEndPos
  else s._blocksToAddStartPos.add (s._blocksToAddDelta.mulScalar ((k : Int) : K))

end MotionHelper

/-! ## MugBot transforms (`RobotMugBot.h`) -/

namespace RobotMugBot

variable {K : Type} [LinearOrderedField K]

/-- `RobotMugBot::ptToActuator`: the result flag and the output actuator coordinates. -/
def ptToActuator (targetPt outActuator : AxisFloats K) (_curPos : AxisPosition K)
    (axesParams : AxesParams K) (allowOutOfBounds : Bool) : Bool × AxisFloats K :=
  -- Check machine bounds and fix the value if required
  let ptWasValid := axesParams.ptInBounds targetPt (!allowOutOfBounds)
  -- Perform conversion
  let out := (List.range MAX_AXES).foldl
    (fun (out : AxisFloats K) (axisIdx : Nat) =>
      -- Axis val from home point
      let axisValFromHome := targetPt.getVal axisIdx - axesParams.getHomeOffsetVal axisIdx
      -- Convert to steps and add offset to home in steps
      out.setVal axisIdx
        (axisValFromHome * axesParams.getStepsPerUnit axisIdx
          + ((axesParams.gethomeOffSteps axisIdx : Int) : K)))
    outActuator
  (ptWasValid, out)

/-- `RobotMugBot::actuatorToPt`. -/
def actuatorToPt (targetActuator outPt : AxisFloats K) (_curPos : AxisPosition K)
    (axesParams : AxesParams K) : AxisFloats K :=
  (List.range MAX_AXES).foldl
    (fun (outPt : AxisFloats K) (axisIdx : Nat) =>
      let ptVal := targetActuator.getVal axisIdx - ((axesParams.gethomeOffSteps axisIdx : Int) : K)
      let ptVal := ptVal / axesParams.getStepsPerUnit axisIdx + axesParams.getHomeOffsetVal axisIdx
      outPt.setVal axisIdx ptVal)
    outPt

/-- `RobotMugBot::correctStepOverflow`: empty body. -/
def correctStepOverflow (curPos : AxisPosition K) (_axesParams : AxesParams K) : AxisPosition K :=
  curPos

end RobotMugBot

/-! ## A concrete machine for the scenarios -/

namespace Scenario

/-- Modelled from the spec: `AxisFloats::distanceTo(pt, includeDist)` (`AxisValues.h`
is not among the source files): the Euclidean distance over the included axes
(section 4.6, "travel distance restricted to axes flagged primary").  The square
root is `Rat.sqrt`, which is exact whenever the squared distance is the square of
a rational, as it is in every scenario below. -/
def distanceTo (a b : AxisFloats ℚ) (includeDist : Nat → Bool) : ℚ :=
  Rat.sqrt
    ((List.range MAX_AXES).foldl
      (fun (distSum : ℚ) (i : Nat) =>
        if includeDist i then distSum + (a.getVal i - b.getVal i) * (a.getVal i - b.getVal i)
        else distSum)
      0)

/-- Modelled from the spec: `MotionPlanner::moveTo` (not among the source files), as
in section 4.2: fails without mutation if the pipeline cannot accept a new block;
otherwise appends one block ending at the target actuator coordinates and commits
the target as the step position (section 3: after a successful move the step count
is consistent with the transform of the real-world position).  The speed planning
is left out. -/
def plannerMoveTo (args : RobotCommandArgs ℚ) (destActuatorCoords : AxisFloats ℚ)
    (curAxisPositions : AxisPosition ℚ) (_axesParams : AxesParams ℚ) (pipeline : MotionPipeline ℚ) :
    Bool × AxisPosition ℚ × MotionPipeline ℚ :=
  if pipeline.canAccept then
    let block : MotionBlock ℚ :=
      { startActuator :=
          ⟨(curAxisPositions._stepsFromHome.s0 : ℚ), (curAxisPositions._stepsFromHome.s1 : ℚ),
            (curAxisPositions._stepsFromHome.s2 : ℚ)⟩
        endActuator := destActuatorCoords
        moreMovesComing := args.moreMovesComing }
    (true,
      { curAxisPositions with
        _stepsFromHome :=
          ⟨toInt32 destActuatorCoords.p0, toInt32 destActuatorCoords.p1,
            toInt32 destActuatorCoords.p2⟩ },
      (pipeline.tryPush block).2)
  else (false, curAxisPositions, pipeline)

/-- The MugBot bindings of `setTransforms` with the planner and distance above.
MugBot registers no coordinate conversion; step-wise moves are not part of the
scenarios and are refused. -/
def mugBotCollaborators : Collaborators ℚ :=
  { _ptToActuatorFn := some RobotMugBot.ptToActuator
    _correctStepOverflowFn := some RobotMugBot.correctStepOverflow
    _convertCoordsFn := none
    plannerMoveTo := plannerMoveTo
    plannerMoveToStepwise := fun _ cur _ pipeline => (false, cur, pipeline)
    distanceTo := distanceTo }

/-- A linear axis with 10 steps per unit, usable range `[0, 10]`, home at 0. -/
def linearAxis : AxisParams ℚ :=
  { stepsPerRot := 1000, unitsPerRot := 100, stepsPerUnit := 10,
    minValValid := true, minVal := 0, maxValValid := true, maxVal := 10,
    homeOffsetVal := 0, homeOffSteps := 0, isPrimaryAxis := true }

/-- Three such axes. -/
def linearAxes : AxesParams ℚ := ⟨linearAxis, linearAxis, linearAxis⟩

/-- A command that names no axis and sets no flag. -/
def emptyArgs : RobotCommandArgs ℚ :=
  { ptInMM := AxisFloats.zero, valid0 := false, valid1 := false, valid2 := false,
    moveType := RobotMoveTypeArg.RobotMoveTypeArg_None, dontSplitMove := false,
    allowOutOfBounds := false, moreMovesComing := false, stepwise := false,
    ptInSteps := AxisInt32s.zero, pause := false, isHoming := false, hasHomed := false,
    numQueued := 0 }

/-- An absolute move of axis 0 to `x`, out-of-bounds not allowed. -/
def moveXTo (x : ℚ) : RobotCommandArgs ℚ :=
  { emptyArgs with ptInMM := ⟨x, 0, 0⟩, valid0 := true }

/-- The state the constructor and `configure` leave: position cleared, absolute
mode, nothing paused or queued, no split in progress; the pipeline holds up to
`pipelineLen` blocks and `blockDistanceMM` is the configured block distance. -/
def initial (pipelineLen : Nat) (blockDistanceMM : ℚ) : MotionHelper ℚ :=
  { _isPaused := false, _moveRelative := false, _blockDistanceMM := blockDistanceMM,
    _allowAllOutOfBounds := false, _axesParams := linearAxes,
    _lastCommandedAxisPos := ⟨AxisFloats.zero, AxisInt32s.zero⟩,
    _motionPipeline := ⟨pipelineLen, []⟩, totalStepPosition := AxisInt32s.zero,
    homingInProgress := false, _blocksToAddCommandArgs := emptyArgs,
    _blocksToAddStartPos := AxisFloats.zero, _blocksToAddDelta := AxisFloats.zero,
    _blocksToAddEndPos := AxisFloats.zero, _blocksToAddCurBlock := 0, _blocksToAddTotal := 0,
    submittedToPlanner := [] }

/-- A sand-table arm with 4000 steps per rotation and no configured bounds. -/
def sandTableAxis : AxisParams ℚ :=
  { stepsPerRot := 4000, unitsPerRot := 628, stepsPerUnit := 4000 / 628,
    minValValid := false, minVal := 0, maxValValid := false, maxVal := 0,
    homeOffsetVal := 0, homeOffSteps := 0, isPrimaryAxis := true }

/-- The axes of such a sand table. -/
def sandTableAxes : AxesParams ℚ := ⟨sandTableAxis, sandTableAxis, sandTableAxis⟩

/-- A sand-table arm of length 100 (its circle has circumference `200 π`) with 3600
steps per rotation and no configured bounds. -/
noncomputable def scaraArm : AxisParams ℝ :=
  { stepsPerRot := 3600, unitsPerRot := 200 * Real.pi, stepsPerUnit := 3600 / (200 * Real.pi),
    minValValid := false, minVal := 0, maxValValid := false, maxVal := 0,
    homeOffsetVal := 0, homeOffSteps := 0, isPrimaryAxis := true }

/-- The two arms of the sand table; the third axis is unused. -/
noncomputable def scaraArms : AxesParams ℝ := ⟨scaraArm, scaraArm, scaraArm⟩

end Scenario

/-- The sum of the displacements between successive points of `pts`, the first one
measured from `start`. -/
def displacementSum {K : Type} [LinearOrderedField K] (start : AxisFloats K) :
    List (AxisFloats K) → AxisFloats K
  | [] => AxisFloats.zero
  | p :: rest => (p.sub start).add (displacementSum p rest)

/-! ## SandTableScara: the candidates of the normal path -/

namespace RobotSandTableScara

/-- The two step-target candidates `actuator1` and `actuator2` that
`cartesianToActuator` computes on its normal path (the statements from
"Calculate distance from origin to pt" to "Find step possibilities"). -/
noncomputable def candidateActuators (targetPt : AxisFloats ℝ) (axesParams : AxesParams ℝ) :
    AxisFloats ℝ × AxisFloats ℝ :=
  -- Calculate arm lengths
  let shoulderElbowMM := axesParams.getunitsPerRot 0 / Real.pi / 2
  let elbowHandMM := axesParams.getunitsPerRot 1 / Real.pi / 2
  -- Calculate distance from origin to pt
  let thirdSideMM := Real.sqrt (targetPt.p0 ^ 2 + targetPt.p1 ^ 2)
  -- Calculate angle from North to the point
  let delta1 := atan2 targetPt.p0 targetPt.p1
  let delta1 := if delta1 < 0 then delta1 + Real.pi * 2 else delta1
  -- Calculate angle of triangle opposite elbow-hand side
  let delta2 := cosineRule thirdSideMM shoulderElbowMM elbowHandMM
  -- Calculate angle of triangle opposite third side
  let innerAngleOppThird := cosineRule shoulderElbowMM elbowHandMM thirdSideMM
  -- The two pairs of angles that solve these equations
  let alpha1rads := delta1 - delta2
  let beta1rads := alpha1rads - innerAngleOppThird + Real.pi
  let alpha2rads := delta1 + delta2
  let beta2rads := alpha2rads + innerAngleOppThird - Real.pi
  -- Calculate the alpha and beta angles
  let alpha1 := r2d (wrapRadians (alpha1rads + 2 * Real.pi))
  let beta1 := r2d (wrapRadians (beta1rads + 2 * Real.pi))
  let alpha2 := r2d (wrapRadians (alpha2rads + 2 * Real.pi))
  let beta2 := r2d (wrapRadians (beta2rads + 2 * Real.pi))
  -- Find step possibilities
  (rotationToActuator alpha1 beta1 AxisFloats.zero axesParams,
    rotationToActuator alpha2 beta2 AxisFloats.zero axesParams)

/-- The position check of the normal path of `cartesianToActuator` (`posValid`). -/
noncomputable def posValid (targetPt : AxisFloats ℝ) (axesParams : AxesParams ℝ) : Bool :=
  let shoulderElbowMM := axesParams.getunitsPerRot 0 / Real.pi / 2
  let elbowHandMM := axesParams.getunitsPerRot 1 / Real.pi / 2
  let thirdSideMM := Real.sqrt (targetPt.p0 ^ 2 + targetPt.p1 ^ 2)
  -- Check validity of position
  let maxVal := axesParams.getMaxVal 0
  let posValid : Bool := decide (thirdSideMM ≤ shoulderElbowMM + elbowHandMM)
  if maxVal.1 then posValid && decide (thirdSideMM ≤ maxVal.2) else posValid

/-- The step distance of the specification, section 4.1 (c): per axis the
shortest-path wraparound distance `min(|Δ|, stepsPerRotation − |Δ|)` from the
current step count to the candidate's step target, summed over axes 0 and 1. -/
def specStepDistance {K : Type} [LinearOrderedField K] (candidate : AxisFloats K)
    (curAxisPositions : AxisPosition K) (axesParams : AxesParams K) : K :=
  min |candidate.getVal 0 - ((curAxisPositions._stepsFromHome.getVal 0 : Int) : K)|
      (axesParams.getStepsPerRot 0
        - |candidate.getVal 0 - ((curAxisPositions._stepsFromHome.getVal 0 : Int) : K)|)
    + min |candidate.getVal 1 - ((curAxisPositions._stepsFromHome.getVal 1 : Int) : K)|
      (axesParams.getStepsPerRot 1
        - |candidate.getVal 1 - ((curAxisPositions._stepsFromHome.getVal 1 : Int) : K)|)

/-- The conversion of a candidate to the output of `cartesianToActuator`:
`absStepForMove` on axes 0 and 1 of `outActuator`. -/
def candidateToOutput {K : Type} [LinearOrderedField K] (candidate outActuator : AxisFloats K)
    (curAxisPositions : AxisPosition K) (axesParams : AxesParams K) : AxisFloats K :=
  (outActuator.setVal 0
    (absStepForMove (candidate.getVal 0)
      ((curAxisPositions._stepsFromHome.getVal 0 : Int) : K) (axesParams.getStepsPerRot 0))).setVal 1
    (absStepForMove (candidate.getVal 1)
      ((curAxisPositions._stepsFromHome.getVal 1 : Int) : K) (axesParams.getStepsPerRot 1))

/-- A call of `ptToActuator` with the reference parameter `curAxisPositions` as the
call leaves it: result flag, output actuator coordinates, current axis position.
The function and `cartesianToActuator` only read `curAxisPositions`. -/
noncomputable def ptToActuatorCall (targetPt outActuator : AxisFloats ℝ)
    (curAxisPositions : AxisPosition ℝ) (axesParams : AxesParams ℝ) (allowOutOfBounds : Bool) :
    Bool × AxisFloats ℝ × AxisPosition ℝ :=
  let r := ptToActuator targetPt outActuator curAxisPositions axesParams allowOutOfBounds
  (r.1, r.2, curAxisPositions)

end RobotSandTableScara

/-! ## MotionHelper: acceptance, motion parameters and status -/

namespace RobotCommandArgs

variable {K : Type}

/-- `RobotCommandArgs::setPointSteps(steps)`. -/
def setPointSteps (a : RobotCommandArgs K) (steps : AxisInt32s) : RobotCommandArgs K :=
  { a with ptInSteps := steps }

/-- `RobotCommandArgs::setMoveType(moveType)`. -/
def setMoveType (a : RobotCommandArgs K) (moveType : RobotMoveTypeArg) : RobotCommandArgs K :=
  { a with moveType := moveType }

/-- `RobotCommandArgs::setPause(flag)`. -/
def setPause (a : RobotCommandArgs K) (flag : Bool) : RobotCommandArgs K :=
  { a with pause := flag }

/-- `RobotCommandArgs::setIsHoming(flag)`. -/
def setIsHoming (a : RobotCommandArgs K) (flag : Bool) : RobotCommandArgs K :=
  { a with isHoming := flag }

/-- `RobotCommandArgs::setHasHomed(flag)`. -/
def setHasHomed (a : RobotCommandArgs K) (flag : Bool) : RobotCommandArgs K :=
  { a with hasHomed := flag }

/-- `RobotCommandArgs::setNumQueued(n)`. -/
def setNumQueued (a : RobotCommandArgs K) (n : Nat) : RobotCommandArgs K :=
  { a with numQueued := n }

end RobotCommandArgs

namespace MotionHelper

variable {K : Type} [LinearOrderedField K]

/-- `MotionHelper::canAccept`. -/
def canAccept (s : MotionHelper K) : Bool :=
  -- Check if homing in progress
  if s.homingInProgress then false
  -- Check that the motion pipeline can accept new data
  else decide (s._blocksToAddTotal = 0) && s._motionPipeline.canAccept

/-- `MotionHelper::setMotionParams`. -/
def setMotionParams (s : MotionHelper K) (args : RobotCommandArgs K) : MotionHelper K :=
  -- Check for relative movement specified and set accordingly
  if args.getMoveType ≠ RobotMoveTypeArg.RobotMoveTypeArg_None then
    { s with
      _moveRelative := decide (args.getMoveType = RobotMoveTypeArg.RobotMoveTypeArg_Relative) }
  else s

/-- `MotionHelper::getCurStatus`: the filled-in `args`.  `actuatorToPtFn` is the
callback `_actuatorToPtFn` stored by `setTransforms` (`none` is `NULL`) and
`isHomedOk` the flag `_motionHoming._isHomedOk`; the end-stop values read from
`_motionIO` are not part of the embedding. -/
def getCurStatus
    (actuatorToPtFn :
      Option (AxisFloats K → AxisFloats K → AxisPosition K → AxesParams K → AxisFloats K))
    (isHomedOk : Bool) (s : MotionHelper K) (args : RobotCommandArgs K) : RobotCommandArgs K :=
  -- Get current position
  let curActuatorPos := s.totalStepPosition
  let args := args.setPointSteps curActuatorPos
  -- Use reverse to get location
  let curMMPos : AxisFloats K :=
    match actuatorToPtFn with
    | some f =>
      f ⟨(curActuatorPos.s0 : K), (curActuatorPos.s1 : K), (curActuatorPos.s2 : K)⟩
        AxisFloats.zero s._lastCommandedAxisPos s._axesParams
    | none => AxisFloats.zero
  let args := args.setPointMM curMMPos
  -- Absolute/Relative movement
  let args := args.setMoveType
    (if s._moveRelative then RobotMoveTypeArg.RobotMoveTypeArg_Relative
      else RobotMoveTypeArg.RobotMoveTypeArg_Absolute)
  -- flags
  let args := args.setPause s._isPaused
  let args := args.setIsHoming s.homingInProgress
  let args := args.setHasHomed isHomedOk
  -- Queue length
  args.setNumQueued s._motionPipeline.count

/-- The effective mode of a move in the words of the specification (section 4.6,
"per-call override of a sticky mode"): the call's move type when it states one,
relative exactly when that type is relative, and the sticky mode otherwise. -/
def specEffectiveRelative (s : MotionHelper K) (args : RobotCommandArgs K) : Bool :=
  match args.getMoveType with
  | RobotMoveTypeArg.RobotMoveTypeArg_None => s._moveRelative
  | RobotMoveTypeArg.RobotMoveTypeArg_Absolute => false
  | RobotMoveTypeArg.RobotMoveTypeArg_Relative => true

/-- The destination of one axis in the words of the specification (section 4.6): an
axis the command does not give resolves to its last commanded position; a given
value is taken as it is in absolute mode and added to the last commanded
position in relative mode. -/
def specDestAxis (s : MotionHelper K) (args : RobotCommandArgs K) (i : Nat) : K :=
  if args.isValid i then
    if specEffectiveRelative s args then
      s._lastCommandedAxisPos._axisPositionMM.getVal i + args.getValMM i
    else args.getValMM i
  else s._lastCommandedAxisPos._axisPositionMM.getVal i

/-- The command as `moveTo` uses it: after the in-place conversion by
`_convertCoordsFn`, when one is registered. -/
def moveToConvertedArgs (env : Collaborators K) (s : MotionHelper K) (args : RobotCommandArgs K) :
    RobotCommandArgs K :=
  match env._convertCoordsFn with
  | some f => f args s._axesParams
  | none => args

/-- The waypoints of a split move in the words of the specification (section 4.6 and
the background drain): `start + k * (dest - start) / N` for `k = 1 .. N - 1`,
followed by the exact target point `dest`. -/
def specSplitWaypoints (start dest : AxisFloats K) (N : Nat) : List (AxisFloats K) :=
  (List.range (N - 1)).map
      (fun (i : Nat) =>
        start.add (((dest.sub start).mulScalar (((i + 1 : Nat) : K))).divScalar ((N : Nat) : K)))
    ++ [dest]

end MotionHelper

namespace Scenario

/-- A sand-table arm of length 100 with 4000 steps per rotation and no configured
bounds. -/
noncomputable def sandTableArm : AxisParams ℝ :=
  { stepsPerRot := 4000, unitsPerRot := 200 * Real.pi, stepsPerUnit := 4000 / (200 * Real.pi),
    minValValid := false, minVal := 0, maxValValid := false, maxVal := 0,
    homeOffsetVal := 0, homeOffSteps := 0, isPrimaryAxis := true }

/-- The two arms of that sand table; the third axis is unused. -/
noncomputable def sandTableArms : AxesParams ℝ := ⟨sandTableArm, sandTableArm, sandTableArm⟩

/-- A linear axis with 10 steps per unit, range `[0, 10]`, whose home lies at value
2 and step 7. -/
def offsetAxis : AxisParams ℚ :=
  { stepsPerRot := 1000, unitsPerRot := 100, stepsPerUnit := 10,
    minValValid := true, minVal := 0, maxValValid := true, maxVal := 10,
    homeOffsetVal := 2, homeOffSteps := 7, isPrimaryAxis := true }

/-- Three such axes. -/
def offsetAxes : AxesParams ℚ := ⟨offsetAxis, offsetAxis, offsetAxis⟩

/-- A sand-table arm geared to 6000000 steps per rotation, with no configured
bounds. -/
def fineAxis : AxisParams ℚ :=
  { stepsPerRot := 6000000, unitsPerRot := 600, stepsPerUnit := 10000,
    minValValid := false, minVal := 0, maxValValid := false, maxVal := 0,
    homeOffsetVal := 0, homeOffSteps := 0, isPrimaryAxis := true }

/-- The two arms of that sand table; the third axis is unused. -/
def fineAxes : AxesParams ℚ := ⟨fineAxis, fineAxis, fineAxis⟩

end Scenario

/-! ## MotionHelper: pause, stop and homing commit (`MotionHelper.cpp`) -/

namespace MotionHelper

variable {K : Type} [LinearOrderedField K]

/-- Modelled from the spec: `MotionActuator::setTotalStepPosition(axisIdx, stepPos)`
(the actuator is not among the source files), section 4.3: the write access to the
absolute step counter of one axis, used during the homing commit. -/
def setTotalStepPosition (s : MotionHelper K) (axisIdx : Nat) (stepPos : Int) : MotionHelper K :=
  { s with totalStepPosition := s.totalStepPosition.setVal axisIdx stepPos }

/-- `MotionHelper::pause`: `_motionActuator.pause(pauseIt)` changes no member the
embedding holds (section 4.3: no queue mutation occurs). -/
def pause (s : MotionHelper K) (pauseIt : Bool) : MotionHelper K :=
  { s with _isPaused := pauseIt }

/-- `MotionHelper::stop`: clears the pipeline, stops the actuator (section 4.3: the
absolute step counters are not rolled back) and un-pauses. -/
def stop (s : MotionHelper K) : MotionHelper K :=
  let s := { s with _motionPipeline := s._motionPipeline.clear }
  pause s false

/-- `MotionHelper::setCurPositionAsHome`. -/
def setCurPositionAsHome (s : MotionHelper K) (axisIdx : Int) : MotionHelper K :=
  if axisIdx < 0 ∨ axisIdx ≥ (MAX_AXES : Int) then s
  else
    let i : Nat := axisIdx.toNat
    let s := { s with _lastCommandedAxisPos :=
      { s._lastCommandedAxisPos with _axisPositionMM :=
          s._lastCommandedAxisPos._axisPositionMM.setVal i (s._axesParams.getHomeOffsetVal i) } }
    let s := { s with _lastCommandedAxisPos :=
      { s._lastCommandedAxisPos with _stepsFromHome :=
          s._lastCommandedAxisPos._stepsFromHome.setVal i (s._axesParams.gethomeOffSteps i) } }
    setTotalStepPosition s i (s._axesParams.gethomeOffSteps i)

end MotionHelper

namespace RobotSandTableScara

/-- The value `cosineRule` hands to `acos`: the quotient after the two clamping
statements. -/
noncomputable def cosineRuleArg (a b c : ℝ) : ℝ :=
  let val := (a * a + b * b - c * c) / (2 * a * b)
  let val := if val > 1 then 1 else val
  let val := if val < -1 then -1 else val
  val

end RobotSandTableScara

namespace MotionHelper

/-- The more-moves-coming flags of a split of `N` sub-blocks in the words of the
specification: set on every sub-block except the last, cleared on the last. -/
def specMoreMovesFlags (N : Nat) : List Bool :=
  List.replicate (N - 1) true ++ [false]

end MotionHelper

/-! ## The G-code evaluator (`EvaluatorGCode.h`)

Strings are lists of the characters before the terminating zero. -/

namespace EvaluatorGCode

/-- C `isdigit`. -/
def isdigit (c : Char) : Bool := decide (48 ≤ c.toNat ∧ c.toNat ≤ 57)

/-- C `isspace` in the C locale: the space and the control characters from
horizontal tab (9) to carriage return (13). -/
def isspace (c : Char) : Bool := decide (c.toNat = 32 ∨ (9 ≤ c.toNat ∧ c.toNat ≤ 13))

/-- C `toupper` in the C locale. -/
def toupper (c : Char) : Char :=
  if 97 ≤ c.toNat ∧ c.toNat ≤ 122 then Char.ofNat (c.toNat - 32) else c

/-- `LONG_MAX` of the 32-bit targets of the firmware. -/
def LONG_MAX : Int := 2147483647

/-- `LONG_MIN` of the 32-bit targets of the firmware. -/
def LONG_MIN : Int := -2147483648

/-- The digit loop of `strtol`: the value of the leading run of decimal digits,
continuing from `acc`. -/
def strtolDigits : Nat → List Char → Nat
  | acc, [] => acc
  | acc, c :: cs => if isdigit c then strtolDigits (acc * 10 + (c.toNat - 48)) cs else acc

/-- C `strtol(pStr, NULL, 10)`: skips white space, takes an optional sign and the
run of decimal digits, and clamps the value to the range of `long`. -/
def strtol (pStr : List Char) : Int :=
  let s := pStr.dropWhile isspace
  let signed : Bool × List Char :=
    match s with
    | [] => (false, [])
    | c :: t => if c = '-' then (true, t) else if c = '+' then (false, t) else (false, c :: t)
  let v : Int := (strtolDigits 0 signed.2 : Nat)
  let v : Int := if signed.1 then -v else v
  if v > LONG_MAX then LONG_MAX else if v < LONG_MIN then LONG_MIN else v

/-- Arduino `String::trim`: removes the white space at both ends. -/
def trim (s : List Char) : List Char :=
  ((s.dropWhile isspace).reverse.dropWhile isspace).reverse

/-- `EvaluatorGCode::getCmdNumber`: the result and the content of `cmdNum` on
return.  `int` and `long` are both 32 bits wide, so the cast keeps the value. -/
def getCmdNumber (pCmdStr : List Char) (cmdNum : Int) : Bool × Int :=
  match pCmdStr with
  | [] => (false, cmdNum)
  | _ :: pStr =>
    match pStr with
    | [] => (false, cmdNum)
    | c :: _ =>
      if !isdigit c then (false, cmdNum)
      else (true, strtol pStr)

/-- The calls `interpG` makes on the robot controller, with their argument. -/
inductive RobotControllerCall (A : Type) where
  | moveTo (cmdArgs : A)
  | goHome (cmdArgs : A)
  | setMotionParams (cmdArgs : A)
  | setHome (cmdArgs : A)
deriving DecidableEq, Repr

/-- The argument scanner `getGcodeCmdArgs` and the `RobotCommandArgs` members
`interpG` calls on its result, for a command-argument type `A`.  The result flag
of the scanner is stored in `rslt` and not read again. -/
structure GcodeArgOps (A : Type) where
  getGcodeCmdArgs : List Char → A
  setMoveRapid : A → Bool → A
  anyValid : A → Bool
  setAllAxesNeedHoming : A → A
  setMoveType : A → RobotMoveTypeArg → A

/-- The text after the first space (`strstr(pCmdStr, " ")`), empty when there is
no space. -/
def argsStr (pCmdStr : List Char) : List Char :=
  match pCmdStr.dropWhile (fun c => c != ' ') with
  | [] => []
  | _ :: t => t

/-- `EvaluatorGCode::interpG`: the result and the calls made on the robot
controller, in order. -/
def interpG {A : Type} (ops : GcodeArgOps A) (cmdStr : List Char) (takeAction : Bool) :
    Bool × List (RobotControllerCall A) :=
  -- Command number
  let r := getCmdNumber cmdStr 0
  if !r.1 then (false, [])
  else
    let cmdNum := r.2
    -- Get args string (separated from the GXX or MXX by a space)
    let cmdArgs := ops.getGcodeCmdArgs (argsStr cmdStr)
    -- Switch on number
    if cmdNum = 0 ∨ cmdNum = 1 then
      (true,
        if takeAction then
          [RobotControllerCall.moveTo (ops.setMoveRapid cmdArgs (decide (cmdNum = 0)))]
        else [])
    else if cmdNum = 28 then
      (true,
        if takeAction then
          [RobotControllerCall.goHome
            (if !ops.anyValid cmdArgs then ops.setAllAxesNeedHoming cmdArgs else cmdArgs)]
        else [])
    else if cmdNum = 90 then
      (true,
        if takeAction then
          [RobotControllerCall.setMotionParams
            (ops.setMoveType cmdArgs RobotMoveTypeArg.RobotMoveTypeArg_Absolute)]
        else [])
    else if cmdNum = 91 then
      (true,
        if takeAction then
          [RobotControllerCall.setMotionParams
            (ops.setMoveType cmdArgs RobotMoveTypeArg.RobotMoveTypeArg_Relative)]
        else [])
    else if cmdNum = 92 then
      (true, if takeAction then [RobotControllerCall.setHome cmdArgs] else [])
    else (false, [])

/-- `EvaluatorGCode::interpM`. -/
def interpM {A : Type} (_ops : GcodeArgOps A) (_cmdStr : List Char) (_takeAction : Bool) :
    Bool × List (RobotControllerCall A) :=
  (false, [])

/-- `EvaluatorGCode::interpretGcode` on the string of the work item: the result and
the calls made on the robot controller. -/
def interpretGcode {A : Type} (ops : GcodeArgOps A) (workItem : List Char) (takeAction : Bool) :
    Bool × List (RobotControllerCall A) :=
  -- Extract code
  let cmdStr := trim workItem
  match cmdStr with
  | [] => (false, [])
  | c0 :: _ =>
    -- Check for G or M codes
    if toupper c0 = 'G' then interpG ops cmdStr takeAction
    else if toupper c0 = 'M' then interpM ops cmdStr takeAction
    else (false, [])

/-- The decimal number a text starts with, in the words of the specification: the
value in base ten of its leading run of decimal digits. -/
def specDecimalNumber (s : List Char) : Nat :=
  Nat.ofDigits 10 (((s.takeWhile isdigit).map (fun c => c.toNat - 48)).reverse)

/-- The acceptance condition of the specification: the trimmed command starts with
G or g, its second character is a decimal digit, and the decimal number starting
at the second character is one of 0, 1, 28, 90, 91, 92. -/
def specAccepted (workItem : List Char) : Bool :=
  match trim workItem with
  | c0 :: c1 :: rest =>
    decide (c0 = 'G' ∨ c0 = 'g') && isdigit c1 &&
      decide (specDecimalNumber (c1 :: rest) ∈ [0, 1, 28, 90, 91, 92])
  | _ => false

end EvaluatorGCode

/-! ## The command splitter (`WorkManager.cpp`) -/

namespace WorkManager

/-- `MAX_TEMP_CMD_STR_LEN`. -/
def MAX_TEMP_CMD_STR_LEN : Nat := 1000

/-- The `while (true)` loop of `WorkManager::process`, as the list of the strings
`processSingle` is called on, in order.  `seg` holds the characters from `pCurStr`
up to `pCurStrEnd`, the last argument the characters from `pCurStrEnd` on (the end
of the list is the terminating zero); `alloc n` tells whether `new char[n]`
returns a buffer. -/
def processLoop (alloc : Nat → Bool) (cmdIdx : Int) : Int → List Char → List Char →
    List (List Char)
  | curCmdIdx, seg, [] =>
    -- Extract the line
    if seg.length = 0 ∨ seg.length > MAX_TEMP_CMD_STR_LEN then []
    else if !alloc (seg.length + 1) then []
    else if cmdIdx = -1 ∨ cmdIdx = curCmdIdx then [seg] else []
  | curCmdIdx, seg, c :: rest =>
    if c = ';' then
      -- Extract the line
      if seg.length = 0 ∨ seg.length > MAX_TEMP_CMD_STR_LEN then []
      else if !alloc (seg.length + 1) then []
      else
        (if cmdIdx = -1 ∨ cmdIdx = curCmdIdx then [seg] else []) ++
          -- Move on
          processLoop alloc cmdIdx (curCmdIdx + 1) [] rest
    else processLoop alloc cmdIdx curCmdIdx (seg ++ [c]) rest

/-- `WorkManager::process`: the strings `processSingle` is called on, in order. -/
def process (alloc : Nat → Bool) (pCmdStr : List Char) (cmdIdx : Int) : List (List Char) :=
  -- Handle the case of a single string
  if ';' ∉ pCmdStr then [pCmdStr]
  else processLoop alloc cmdIdx 0 [] pCmdStr

/-- The segments of the specification that are run: the pieces between the
semicolons, in order, up to and not including the first one that is empty or
longer than 1000 characters. -/
def specSegmentsRun (pCmdStr : List Char) : List (List Char) :=
  (pCmdStr.splitOn ';').takeWhile (fun seg => decide (seg.length ≠ 0 ∧ seg.length ≤ 1000))

end WorkManager

/-! ## The serial console (`SerialConsole.h`) -/

/-- `SerialConsole::CommandRxState`. -/
inductive CommandRxState where
  | CommandRx_idle
  | CommandRx_newChar
  | CommandRx_waiting
  | CommandRx_complete
deriving DecidableEq, Repr

/-- The members of `SerialConsole` that `service` reads or writes.  Characters are
the `int` codes `getChar` returns; `hasEndpoints` tells whether `_pEndpoints` is
set.  `handledRequests` is a ghost record of the lines passed to
`handleApiRequest`; no source statement reads it. -/
structure SerialConsole where
  _curLine : List Int
  _prevChar : Int
  _cmdRxState : CommandRxState
  hasEndpoints : Bool
  handledRequests : List (List Int)
deriving DecidableEq, Repr

namespace SerialConsole

/-- `ABS_MAX_LINE_LEN`. -/
def ABS_MAX_LINE_LEN : Nat := 1000

/-- The state the constructor leaves, before or after `setup`. -/
def init (hasEndpoints : Bool) : SerialConsole :=
  { _curLine := [], _prevChar := -1, _cmdRxState := CommandRxState.CommandRx_idle,
    hasEndpoints := hasEndpoints, handledRequests := [] }

/-- `SerialConsole::service`, where `ch` is the value `getChar()` returns (-1 when
no character is waiting). -/
def service (s : SerialConsole) (ch : Int) : SerialConsole :=
  -- Check for char
  if ch = -1 then s
  -- Check for line end
  else if ch = 13 ∨ ch = 10 then
    -- Check for terminal sending a CRLF sequence
    if s._prevChar = 13 ∨ s._prevChar = 10 then s
    else
      let s := { s with _prevChar := ch }
      -- Check if empty line - show menu
      if s._curLine.length ≤ 0 ∧ s.hasEndpoints = true then s
      else
        -- Check for immediate instructions
        let s :=
          if s.hasEndpoints then { s with handledRequests := s.handledRequests ++ [s._curLine] }
          else s
        -- Reset line
        { s with _curLine := [], _cmdRxState := CommandRxState.CommandRx_complete }
  else
    -- Store previous char for CRLF checks
    let s := { s with _prevChar := ch }
    -- Check line not too long
    if s._curLine.length ≥ ABS_MAX_LINE_LEN then
      { s with _curLine := [], _cmdRxState := CommandRxState.CommandRx_idle }
    -- Check for backspace
    else if ch = 8 then
      if s._curLine.length > 0 then { s with _curLine := s._curLine.dropLast }
      else s
    else
      -- Add char to line
      { s with _curLine := s._curLine ++ [ch], _cmdRxState := CommandRxState.CommandRx_newChar }

/-- A run of `service` calls, one for each value `getChar()` returns. -/
def serviceAll (s : SerialConsole) (chs : List Int) : SerialConsole :=
  chs.foldl service s

end SerialConsole

/-! # Part II: theorems

## SandTableScara step arithmetic -/

section StepArithmetic

variable {K : Type} [LinearOrderedField K] [FloorRing K]

/-- On a non-negative value the conversion to `int32_t` is the floor. -/
theorem toInt32_of_nonneg {x : K} (hx : 0 ≤ x) : toInt32 x = ⌊x⌋ := by
  simp [toInt32, hx]

/-- Converting an integral value to `int32_t` returns it. -/
theorem toInt32_intCast (n : Int) : toInt32 ((n : Int) : K) = n := by
  unfold toInt32
  split_ifs <;> simp

/-- An `int32_t` product that fits is the product. -/
theorem wrapInt32_of_fits {x : Int} (h0 : -2147483648 ≤ x) (h1 : x < 2147483648) :
    wrapInt32 x = x := by
  unfold wrapInt32
  omega

end StepArithmetic

/-! ## Single-precision arithmetic and the step-overflow correction -/

namespace Binary32

/-- Enough halvings: with at least `n` of them, the count of binary digits of
`n > 0` is the `k` with `2^(k-1) ≤ n < 2^k`. -/
theorem bitLength_spec : ∀ (fuel n : Nat), 0 < n → n ≤ fuel →
    2 ^ (bitLength fuel n - 1) ≤ n ∧ n < 2 ^ bitLength fuel n ∧ 0 < bitLength fuel n := by
  intro fuel
  induction fuel with
  | zero => intro n hn hle; omega
  | succ k ih =>
    intro n hn hle
    unfold bitLength
    rw [if_neg (by omega)]
    by_cases h1 : n / 2 = 0
    · have hn1 : n = 1 := by omega
      subst hn1
      have : bitLength k (1 / 2) = 0 := by
        cases k <;> simp [bitLength]
      rw [this]
      simp
    · obtain ⟨ha, hb, hc⟩ := ih (n / 2) (by omega) (by omega)
      refine ⟨?_, ?_, by omega⟩
      · have : bitLength k (n / 2) + 1 - 1 = (bitLength k (n / 2) - 1) + 1 := by omega
        rw [this, pow_succ]
        omega
      · rw [pow_succ]
        omega

/-- The leading binary digit: `2^(log2 n) ≤ n < 2^(log2 n + 1)` for `n > 0`. -/
theorem log2_spec (n : Nat) (hn : 0 < n) : 2 ^ log2 n ≤ n ∧ n < 2 ^ (log2 n + 1) := by
  obtain ⟨ha, hb, hc⟩ := bitLength_spec n n hn (le_refl _)
  unfold log2
  have : bitLength n n - 1 + 1 = bitLength n n := by omega
  rw [this]
  exact ⟨ha, hb⟩

/-- The binary exponent brackets a non-zero value:
`2^(exponent x) ≤ |x| < 2^(exponent x + 1)`. -/
theorem exponent_spec (x : ℚ) (hx : x ≠ 0) :
    (2 : ℚ) ^ exponent x ≤ |x| ∧ |x| < (2 : ℚ) ^ (exponent x + 1) := by
  have hn : 0 < x.num.natAbs := Int.natAbs_pos.mpr (Rat.num_ne_zero.mpr hx)
  have hd : 0 < x.den := x.den_pos
  obtain ⟨ha1, ha2⟩ := log2_spec _ hn
  obtain ⟨hb1, hb2⟩ := log2_spec _ hd
  have habs : |x| = (x.num.natAbs : ℚ) / (x.den : ℚ) := by
    conv_lhs => rw [← Rat.num_div_den x]
    rw [abs_div, Nat.abs_cast]
    congr 1
    rw [Nat.cast_natAbs, Int.cast_abs]
  have hdq : (0 : ℚ) < (x.den : ℚ) := by exact_mod_cast hd
  have h2a : (0 : ℚ) < (2 : ℚ) ^ (log2 x.num.natAbs) := by positivity
  have h2b : (0 : ℚ) < (2 : ℚ) ^ (log2 x.den) := by positivity
  have hpow : ∀ k : Int, (2 : ℚ) ^ ((log2 x.num.natAbs : Int) - (log2 x.den : Int) + k)
      = (2 : ℚ) ^ (log2 x.num.natAbs) / (2 : ℚ) ^ (log2 x.den) * (2 : ℚ) ^ k := by
    intro k
    rw [zpow_add₀ (by norm_num), zpow_sub₀ (by norm_num), zpow_natCast, zpow_natCast]
  -- the four facts between natural numbers, as rationals
  have qa1 : (2 : ℚ) ^ (log2 x.num.natAbs) ≤ (x.num.natAbs : ℚ) := by exact_mod_cast ha1
  have qa2 : (x.num.natAbs : ℚ) < (2 : ℚ) ^ (log2 x.num.natAbs) * 2 := by
    have : x.num.natAbs < 2 ^ (log2 x.num.natAbs) * 2 := by rw [← pow_succ]; exact ha2
    exact_mod_cast this
  have qb1 : (2 : ℚ) ^ (log2 x.den) ≤ (x.den : ℚ) := by exact_mod_cast hb1
  have qb2 : (x.den : ℚ) < (2 : ℚ) ^ (log2 x.den) * 2 := by
    have : x.den < 2 ^ (log2 x.den) * 2 := by rw [← pow_succ]; exact hb2
    exact_mod_cast this
  unfold exponent
  simp only
  rw [habs]
  split_ifs with hc
  · have qc : (x.den : ℚ) * (2 : ℚ) ^ (log2 x.num.natAbs)
        ≤ (x.num.natAbs : ℚ) * (2 : ℚ) ^ (log2 x.den) := by exact_mod_cast hc
    constructor
    · have := hpow 0
      rw [add_zero, zpow_zero, mul_one] at this
      rw [this, div_le_div_iff₀ h2b hdq]
      linarith
    · have := hpow 1
      rw [zpow_one] at this
      rw [this, div_mul_eq_mul_div, div_lt_div_iff₀ hdq h2b]
      nlinarith
  · have qc : (x.num.natAbs : ℚ) * (2 : ℚ) ^ (log2 x.den)
        < (x.den : ℚ) * (2 : ℚ) ^ (log2 x.num.natAbs) := by
      have := not_le.mp hc
      exact_mod_cast this
    constructor
    · have := hpow (-1)
      have e : (log2 x.num.natAbs : Int) - (log2 x.den : Int) - 1
          = (log2 x.num.natAbs : Int) - (log2 x.den : Int) + (-1) := by ring
      rw [e, this, zpow_neg_one, ← div_eq_mul_inv, div_div, div_le_div_iff₀ (by positivity) hdq]
      nlinarith
    · have e : (log2 x.num.natAbs : Int) - (log2 x.den : Int) - 1 + 1
          = (log2 x.num.natAbs : Int) - (log2 x.den : Int) + 0 := by ring
      have := hpow 0
      rw [zpow_zero, mul_one] at this
      rw [e, this, div_lt_div_iff₀ hdq h2b]
      linarith

/-- An integer is rounded to itself. -/
theorem roundHalfEven_intCast (m : Int) : roundHalfEven (m : ℚ) = m := by
  unfold roundHalfEven
  simp

/-- Every integer of magnitude at most `2^24` is a `float`: its conversion is exact. -/
theorem ofInt_of_small (n : Int) (h : |n| ≤ 16777216) : ofInt n = (n : ℚ) := by
  unfold ofInt round
  by_cases hn : n = 0
  · subst hn; simp
  have hx : (n : ℚ) ≠ 0 := by exact_mod_cast hn
  rw [if_neg hx]
  obtain ⟨he1, he2⟩ := exponent_spec (n : ℚ) hx
  have habs1 : (1 : ℚ) ≤ |(n : ℚ)| := by
    rw [← Int.cast_abs]
    have : (1 : Int) ≤ |n| := Int.one_le_abs hn
    exact_mod_cast this
  have habs2 : |(n : ℚ)| ≤ 16777216 := by
    rw [← Int.cast_abs]
    exact_mod_cast h
  -- the exponent lies between 0 and 24
  have hlo : 0 ≤ exponent (n : ℚ) := by
    by_contra hneg
    have : exponent (n : ℚ) + 1 ≤ 0 := by omega
    have h1 : (2 : ℚ) ^ (exponent (n : ℚ) + 1) ≤ (2 : ℚ) ^ (0 : Int) :=
      zpow_le_zpow_right₀ (by norm_num) this
    rw [zpow_zero] at h1
    linarith
  have hhi : exponent (n : ℚ) ≤ 24 := by
    by_contra hbig
    have : (25 : Int) ≤ exponent (n : ℚ) := by omega
    have h1 : (2 : ℚ) ^ (25 : Int) ≤ (2 : ℚ) ^ exponent (n : ℚ) :=
      zpow_le_zpow_right₀ (by norm_num) this
    norm_num at h1
    linarith
  obtain ⟨e, hee⟩ : ∃ e : Nat, exponent (n : ℚ) = (e : Int) := ⟨_, (Int.toNat_of_nonneg hlo).symm⟩
  rw [hee] at he1 he2 hhi ⊢
  have he24 : e ≤ 24 := by exact_mod_cast hhi
  have hmax : max (e : Int) (-126) = (e : Int) := max_eq_left (by omega)
  simp only [hmax]
  by_cases h24 : e = 24
  · subst h24
    -- |n| = 2^24
    have hpow : |(n : ℚ)| = 16777216 := by
      apply le_antisymm habs2
      have : (2 : ℚ) ^ ((24 : Nat) : Int) = 16777216 := by norm_num
      rw [this] at he1
      exact he1
    have hp : ((24 : Nat) : Int) - 23 = 1 := by norm_num
    rw [hp]
    have hs1 : scale (n : ℚ) (-1) = (n : ℚ) / 2 := by
      simp [scale]
    have hint : ∃ m : Int, (n : ℚ) / 2 = (m : ℚ) := by
      rcases abs_cases (n : ℚ) with ⟨h1, _⟩ | ⟨h1, _⟩
      · exact ⟨8388608, by rw [← h1, hpow]; norm_num⟩
      · refine ⟨-8388608, ?_⟩
        have : (n : ℚ) = -16777216 := by linarith
        rw [this]; norm_num
    obtain ⟨m, hm⟩ := hint
    rw [hs1, hm, roundHalfEven_intCast, ← hm]
    simp [scale]
  · have hlt : e ≤ 23 := by omega
    obtain ⟨k, hk⟩ : ∃ k : Nat, (e : Int) - 23 = -(k : Int) := ⟨23 - e, by omega⟩
    rw [hk, neg_neg]
    have hs1 : scale (n : ℚ) (k : Int) = (((n * 2 ^ k : Int)) : ℚ) := by
      simp [scale]
    rw [hs1, roundHalfEven_intCast]
    unfold scale
    by_cases hk0 : k = 0
    · subst hk0; simp
    · have : ¬ (0 ≤ -(k : Int)) := by omega
      rw [if_neg this]
      simp only [neg_neg, Int.toNat_ofNat]
      push_cast
      field_simp

end Binary32

namespace RobotSandTableScara

/-- The loop of `correctStepOverflow` unrolled: axes 0 and 1 are corrected, axis 2 and
the real-world position are untouched. -/
theorem correctStepOverflow_steps (curPos : AxisPosition ℚ) (axesParams : AxesParams ℚ) :
    correctStepOverflow curPos axesParams =
      { _axisPositionMM := curPos._axisPositionMM,
        _stepsFromHome :=
          { s0 := correctStepOverflowAxis (axesParams.getStepsPerRot 0) curPos._stepsFromHome.s0,
            s1 := correctStepOverflowAxis (axesParams.getStepsPerRot 1) curPos._stepsFromHome.s1,
            s2 := curPos._stepsFromHome.s2 } } := by
  simp [correctStepOverflow, AxisInt32s.setVal, AxisInt32s.getVal]

end RobotSandTableScara


section StepChoice

variable {K : Type} [LinearOrderedField K]

namespace RobotSandTableScara

/-- Claim C9.  With the current count `c` in `[0, S)` and the wrapped target `t` in
`[0, S]`, the absolute target chosen by `absStepForMove` is at most `S / 2` away
from `c`. -/
theorem absStepForMove_within_half (t c S : K) (hc0 : 0 ≤ c) (hcS : c < S)
    (ht0 : 0 ≤ t) (htS : t ≤ S) :
    |absStepForMove t c S - c| ≤ S / 2 := by
  unfold absStepForMove
  split_ifs with h1 h2 h3
  · rw [abs_of_pos (by linarith : 0 < t - c)] at h2
    rw [abs_le]; constructor <;> linarith
  · exact not_lt.mp h2
  · rw [abs_of_nonpos (by linarith : t - c ≤ 0)] at h3
    rw [abs_le]; constructor <;> linarith
  · exact not_lt.mp h3

/-- Claim C10.  For every target `t`, current count `c` and `S > 0`, `absStepForMove`
returns one of `t`, `t - S`, `t + S`, and none of the three is strictly closer to
`c` than the returned one. -/
theorem absStepForMove_nearest (t c S : K) (hS : 0 < S) :
    (absStepForMove t c S = t ∨ absStepForMove t c S = t - S ∨ absStepForMove t c S = t + S) ∧
    |absStepForMove t c S - c| ≤ |t - c| ∧
    |absStepForMove t c S - c| ≤ |t - S - c| ∧
    |absStepForMove t c S - c| ≤ |t + S - c| := by
  unfold absStepForMove
  split_ifs with h1 h2 h3
  · rw [abs_of_pos (by linarith : 0 < t - c)] at h2
    refine ⟨Or.inr (Or.inl rfl), ?_, le_refl _, ?_⟩
    · rw [abs_of_pos (by linarith : 0 < t - c)]
      rw [abs_le]; constructor <;> linarith
    · rw [abs_of_pos (by linarith : 0 < t + S - c)]
      rw [abs_le]; constructor <;> linarith
  · rw [abs_of_pos (by linarith : 0 < t - c)] at h2
    refine ⟨Or.inl rfl, le_refl _, ?_, ?_⟩
    · rw [abs_of_pos (by linarith : 0 < t - c)]
      have := neg_le_abs (t - S - c)
      linarith
    · rw [abs_of_pos (by linarith : 0 < t - c), abs_of_pos (by linarith : 0 < t + S - c)]
      linarith
  · rw [abs_of_nonpos (by linarith : t - c ≤ 0)] at h3
    refine ⟨Or.inr (Or.inr rfl), ?_, ?_, le_refl _⟩
    · rw [abs_of_nonpos (by linarith : t - c ≤ 0)]
      rw [abs_le]; constructor <;> linarith
    · rw [abs_of_nonpos (by linarith : t - S - c ≤ 0)]
      rw [abs_le]; constructor <;> linarith
  · rw [abs_of_nonpos (by linarith : t - c ≤ 0)] at h3
    refine ⟨Or.inl rfl, le_refl _, ?_, ?_⟩
    · rw [abs_of_nonpos (by linarith : t - c ≤ 0), abs_of_nonpos (by linarith : t - S - c ≤ 0)]
      linarith
    · rw [abs_of_nonpos (by linarith : t - c ≤ 0)]
      have := le_abs_self (t + S - c)
      linarith

/-- Claim C9 at a concrete input: target 3900, current count 100, 4000 steps per
rotation (the chosen absolute target is -100). -/
theorem absStepForMove_within_half_witness :
    |absStepForMove (3900 : ℚ) 100 4000 - 100| ≤ 4000 / 2 :=
  absStepForMove_within_half 3900 100 4000 (by norm_num) (by norm_num) (by norm_num)
    (by norm_num)

/-- Claim C10 at a concrete input far outside one rotation: target 9000, current
count 100, 4000 steps per rotation. -/
theorem absStepForMove_nearest_witness :
    (absStepForMove (9000 : ℚ) 100 4000 = 9000 ∨ absStepForMove (9000 : ℚ) 100 4000 = 9000 - 4000 ∨
      absStepForMove (9000 : ℚ) 100 4000 = 9000 + 4000) ∧
    |absStepForMove (9000 : ℚ) 100 4000 - 100| ≤ |(9000 : ℚ) - 100| ∧
    |absStepForMove (9000 : ℚ) 100 4000 - 100| ≤ |(9000 : ℚ) - 4000 - 100| ∧
    |absStepForMove (9000 : ℚ) 100 4000 - 100| ≤ |(9000 : ℚ) + 4000 - 100| :=
  absStepForMove_nearest 9000 100 4000 (by norm_num)

end RobotSandTableScara

end StepChoice

/-! ## MotionHelper: the drain loop -/

section DrainLoop

variable {K : Type} [LinearOrderedField K]

namespace MotionHelper

/-- What `addToPlanner` leaves alone, and what it appends to the ghost record. -/
theorem addToPlanner_frame (env : Collaborators K) (s : MotionHelper K) (args : RobotCommandArgs K) :
    (addToPlanner env s args).2._blocksToAddCommandArgs = s._blocksToAddCommandArgs ∧
    (addToPlanner env s args).2._blocksToAddStartPos = s._blocksToAddStartPos ∧
    (addToPlanner env s args).2._blocksToAddDelta = s._blocksToAddDelta ∧
    (addToPlanner env s args).2._blocksToAddEndPos = s._blocksToAddEndPos ∧
    (addToPlanner env s args).2._blocksToAddCurBlock = s._blocksToAddCurBlock ∧
    (addToPlanner env s args).2._blocksToAddTotal = s._blocksToAddTotal ∧
    (addToPlanner env s args).2._axesParams = s._axesParams ∧
    (addToPlanner env s args).2._allowAllOutOfBounds = s._allowAllOutOfBounds ∧
    (addToPlanner env s args).2.submittedToPlanner = s.submittedToPlanner ++ [args] := by
  unfold addToPlanner
  simp only
  split_ifs
  · cases env._correctStepOverflowFn <;> simp
  · simp
  · simp

/-- A waypoint the transform rejects changes neither position nor pipeline. -/
theorem addToPlanner_rejected (env : Collaborators K) (s : MotionHelper K) (args : RobotCommandArgs K)
    (h : (callPtToActuator env args.getPointMM s._lastCommandedAxisPos s._axesParams
      (args.getAllowOutOfBounds || s._allowAllOutOfBounds)).1 = false) :
    (addToPlanner env s args).1 = false ∧
    (addToPlanner env s args).2._lastCommandedAxisPos = s._lastCommandedAxisPos ∧
    (addToPlanner env s args).2._motionPipeline = s._motionPipeline := by
  unfold addToPlanner
  simp only [h]
  simp

/-- Induction principle for the drain loop. -/
theorem blocksToAddLoop_induct (env : Collaborators K) (P : MotionHelper K → Prop)
    (hstep : ∀ t, P t → t._motionPipeline.canAccept = true → 0 < t._blocksToAddTotal →
      P (blocksToAddStep env t)) :
    ∀ (fuel : Nat) (t : MotionHelper K), P t → P (blocksToAddLoop env fuel t) := by
  intro fuel
  induction fuel with
  | zero => intro t ht; simpa [blocksToAddLoop] using ht
  | succ n ih =>
    intro t ht
    unfold blocksToAddLoop
    split_ifs with hacc htot
    · exact ht
    · exact ih _ (hstep t ht hacc (not_le.mp htot))
    · exact ht

/-- Induction principle for a run of drain calls with the actuator retiring blocks in between. -/
theorem drainCalls_induct (env : Collaborators K) (P : MotionHelper K → Prop)
    (hret : ∀ t n, P t → P (actuatorRetires t n))
    (hstep : ∀ t, P t → t._motionPipeline.canAccept = true → 0 < t._blocksToAddTotal →
      P (blocksToAddStep env t)) :
    ∀ (retired : List Nat) (t : MotionHelper K), P t → P (drainCalls env retired t) := by
  intro retired
  induction retired with
  | nil => intro t ht; simpa [drainCalls] using ht
  | cons n rest ih =>
    intro t ht
    unfold drainCalls
    exact ih _ (blocksToAddLoop_induct env P hstep _ _ (hret t n ht))

/-- One iteration of the drain loop is one `addToPlanner` call on the next waypoint. -/
theorem blocksToAddStep_eq (env : Collaborators K) (t : MotionHelper K) :
    blocksToAddStep env t =
      (addToPlanner env
        { t with
          _blocksToAddCurBlock := t._blocksToAddCurBlock + 1
          _blocksToAddTotal :=
            if t._blocksToAddCurBlock + 1 ≥ t._blocksToAddTotal then 0 else t._blocksToAddTotal
          _blocksToAddCommandArgs :=
            { t._blocksToAddCommandArgs with
              ptInMM := splitWaypoint t t._blocksToAddTotal (t._blocksToAddCurBlock + 1)
              moreMovesComing :=
                ((if t._blocksToAddCurBlock + 1 ≥ t._blocksToAddTotal then 0
                  else t._blocksToAddTotal) != 0) } }
        { t._blocksToAddCommandArgs with
          ptInMM := splitWaypoint t t._blocksToAddTotal (t._blocksToAddCurBlock + 1)
          moreMovesComing :=
            ((if t._blocksToAddCurBlock + 1 ≥ t._blocksToAddTotal then 0
              else t._blocksToAddTotal) != 0) }).2 := by
  unfold blocksToAddStep splitWaypoint RobotCommandArgs.setMoreMovesComing
    RobotCommandArgs.setPointMM
  by_cases h : t._blocksToAddCurBlock + 1 ≥ t._blocksToAddTotal
  · simp only [h, if_true]
  · simp only [h, if_false]

/-- A non-stepwise `moveTo` is the setup followed by one drain call. -/
theorem moveTo_eq_setup_then_drain [FloorRing K] (env : Collaborators K) (s : MotionHelper K)
    (args : RobotCommandArgs K) (hstep : args.isStepwise = false) :
    moveTo env s args = (true, blocksToAddProcess env (moveToSetup env s args)) := by
  unfold moveTo
  simp [hstep]

/-- The split counters after one iteration of the drain loop. -/
theorem blocksToAddStep_counters (env : Collaborators K) (t : MotionHelper K) :
    (blocksToAddStep env t)._blocksToAddCurBlock = t._blocksToAddCurBlock + 1 ∧
    (blocksToAddStep env t)._blocksToAddTotal =
      (if t._blocksToAddCurBlock + 1 ≥ t._blocksToAddTotal then 0 else t._blocksToAddTotal) := by
  rw [blocksToAddStep_eq]
  exact ⟨(addToPlanner_frame env _ _).2.2.2.2.1, (addToPlanner_frame env _ _).2.2.2.2.2.1⟩

/-- With no split in progress the drain loop returns at once, whatever the bound. -/
theorem blocksToAddLoop_idle (env : Collaborators K) (n : Nat) (t : MotionHelper K)
    (h : t._blocksToAddTotal ≤ 0) : blocksToAddLoop env n t = t := by
  cases n with
  | zero => rfl
  | succ k =>
    unfold blocksToAddLoop
    split_ifs <;> rfl

/-- The iteration bound of `blocksToAddProcess` is never what ends the loop: any
two bounds of at least `blocksToAddFuel` give the same state. -/
theorem blocksToAddLoop_fuel_irrelevant (env : Collaborators K) :
    ∀ (n m : Nat) (t : MotionHelper K), blocksToAddFuel t ≤ n → blocksToAddFuel t ≤ m →
      blocksToAddLoop env n t = blocksToAddLoop env m t := by
  intro n
  induction n with
  | zero =>
    intro m t hn _
    unfold blocksToAddFuel at hn
    omega
  | succ k ih =>
    intro m t hn hm
    cases m with
    | zero =>
      unfold blocksToAddFuel at hm
      omega
    | succ j =>
      unfold blocksToAddLoop
      split_ifs with hacc htot
      · rfl
      · obtain ⟨hc, ht⟩ := blocksToAddStep_counters env t
        by_cases hlast : t._blocksToAddCurBlock + 1 ≥ t._blocksToAddTotal
        · rw [if_pos hlast] at ht
          rw [blocksToAddLoop_idle env k _ (le_of_eq ht), blocksToAddLoop_idle env j _ (le_of_eq ht)]
        · rw [if_neg hlast] at ht
          apply ih
          · unfold blocksToAddFuel at hn ⊢
            rw [hc, ht]; omega
          · unfold blocksToAddFuel at hm ⊢
            rw [hc, ht]; omega
      · rfl

/-- `blocksToAddProcess` is the drain loop run with any sufficient bound. -/
theorem blocksToAddProcess_eq_loop (env : Collaborators K) (t : MotionHelper K) (n : Nat)
    (hn : blocksToAddFuel t ≤ n) : blocksToAddProcess env t = blocksToAddLoop env n t :=
  blocksToAddLoop_fuel_irrelevant env _ _ t (le_refl _) hn

omit [LinearOrderedField K] in
/-- Retiring no block leaves the state as it is. -/
theorem actuatorRetires_zero (s : MotionHelper K) : actuatorRetires s 0 = s := by
  simp [actuatorRetires, MotionPipeline.retire]

/-- The drain call inside `moveTo` is a drain call before which nothing was retired. -/
theorem drainCalls_after_process (env : Collaborators K) (retired : List Nat) (s : MotionHelper K) :
    drainCalls env retired (blocksToAddProcess env s) = drainCalls env (0 :: retired) s := by
  simp [drainCalls, actuatorRetires_zero]

/-- While every waypoint of the split record is rejected by the transform, no run
of drain calls changes the last commanded position. -/
theorem drainCalls_rejected_keeps (env : Collaborators K) (t0 : MotionHelper K)
    (hcur : 0 ≤ t0._blocksToAddCurBlock)
    (hrej : ∀ k : Int, 1 ≤ k →
      (callPtToActuator env (splitWaypoint t0 t0._blocksToAddTotal k)
        t0._lastCommandedAxisPos t0._axesParams
        (t0._blocksToAddCommandArgs.getAllowOutOfBounds || t0._allowAllOutOfBounds)).1 = false)
    (retired : List Nat) :
    (drainCalls env retired t0)._lastCommandedAxisPos = t0._lastCommandedAxisPos := by
  have key := drainCalls_induct env
    (fun t =>
      t._lastCommandedAxisPos = t0._lastCommandedAxisPos ∧
      t._axesParams = t0._axesParams ∧
      t._allowAllOutOfBounds = t0._allowAllOutOfBounds ∧
      t._blocksToAddCommandArgs.allowOutOfBounds = t0._blocksToAddCommandArgs.allowOutOfBounds ∧
      t._blocksToAddStartPos = t0._blocksToAddStartPos ∧
      t._blocksToAddDelta = t0._blocksToAddDelta ∧
      t._blocksToAddEndPos = t0._blocksToAddEndPos ∧
      0 ≤ t._blocksToAddCurBlock ∧
      (t._blocksToAddTotal = t0._blocksToAddTotal ∨ t._blocksToAddTotal = 0))
    (by intro t n ht; exact ht)
    (by
      intro t ht _ hpos
      obtain ⟨h1, h2, h3, h4, h5, h6, h7, h8, h9⟩ := ht
      have htot : t._blocksToAddTotal = t0._blocksToAddTotal := by
        rcases h9 with h | h
        · exact h
        · omega
      rw [blocksToAddStep_eq]
      have hw : splitWaypoint t t._blocksToAddTotal (t._blocksToAddCurBlock + 1)
          = splitWaypoint t0 t0._blocksToAddTotal (t._blocksToAddCurBlock + 1) := by
        unfold splitWaypoint
        rw [h5, h6, h7, htot]
      have hr := hrej (t._blocksToAddCurBlock + 1) (by omega)
      have hfr := addToPlanner_frame env
        { t with
          _blocksToAddCurBlock := t._blocksToAddCurBlock + 1
          _blocksToAddTotal :=
            if t._blocksToAddCurBlock + 1 ≥ t._blocksToAddTotal then 0 else t._blocksToAddTotal
          _blocksToAddCommandArgs :=
            { t._blocksToAddCommandArgs with
              ptInMM := splitWaypoint t t._blocksToAddTotal (t._blocksToAddCurBlock + 1)
              moreMovesComing :=
                ((if t._blocksToAddCurBlock + 1 ≥ t._blocksToAddTotal then 0
                  else t._blocksToAddTotal) != 0) } }
        { t._blocksToAddCommandArgs with
          ptInMM := splitWaypoint t t._blocksToAddTotal (t._blocksToAddCurBlock + 1)
          moreMovesComing :=
            ((if t._blocksToAddCurBlock + 1 ≥ t._blocksToAddTotal then 0
              else t._blocksToAddTotal) != 0) }
      have hrj := addToPlanner_rejected env
        { t with
          _blocksToAddCurBlock := t._blocksToAddCurBlock + 1
          _blocksToAddTotal :=
            if t._blocksToAddCurBlock + 1 ≥ t._blocksToAddTotal then 0 else t._blocksToAddTotal
          _blocksToAddCommandArgs :=
            { t._blocksToAddCommandArgs with
              ptInMM := splitWaypoint t t._blocksToAddTotal (t._blocksToAddCurBlock + 1)
              moreMovesComing :=
                ((if t._blocksToAddCurBlock + 1 ≥ t._blocksToAddTotal then 0
                  else t._blocksToAddTotal) != 0) } }
        { t._blocksToAddCommandArgs with
          ptInMM := splitWaypoint t t._blocksToAddTotal (t._blocksToAddCurBlock + 1)
          moreMovesComing :=
            ((if t._blocksToAddCurBlock + 1 ≥ t._blocksToAddTotal then 0
              else t._blocksToAddTotal) != 0) }
        (by
          simp only [RobotCommandArgs.getPointMM, RobotCommandArgs.getAllowOutOfBounds]
          rw [hw, h1, h2, h3, h4]
          exact hr)
      obtain ⟨f1, f2, f3, f4, f5, f6, f7, f8, _⟩ := hfr
      refine ⟨?_, ?_, ?_, ?_, ?_, ?_, ?_, ?_, ?_⟩
      · rw [hrj.2.1]; exact h1
      · rw [f7]; exact h2
      · rw [f8]; exact h3
      · rw [f1]; exact h4
      · rw [f2]; exact h5
      · rw [f3]; exact h6
      · rw [f4]; exact h7
      · rw [f5]; simp only; omega
      · rw [f6]; simp only
        split_ifs
        · right; rfl
        · left; exact htot)
    retired t0
    ⟨rfl, rfl, rfl, rfl, rfl, rfl, rfl, hcur, Or.inl rfl⟩
  exact key.1

end MotionHelper

/-- Consecutive displacements add up. -/
theorem AxisFloats.sub_add_sub (a b c : AxisFloats K) :
    (b.sub a).add (c.sub b) = c.sub a := by
  simp [AxisFloats.sub, AxisFloats.add]

/-- The displacements along a list of points telescope to last minus start. -/
theorem displacementSum_eq (start : AxisFloats K) (pts : List (AxisFloats K)) :
    displacementSum start pts = ((pts.getLast?).getD start).sub start := by
  induction pts generalizing start with
  | nil => simp [displacementSum, AxisFloats.sub, AxisFloats.zero]
  | cons p rest ih =>
    rw [displacementSum, ih p, AxisFloats.sub_add_sub]
    simp [List.getLast?_cons]

namespace MotionHelper

/-- The points handed to the planner by any run of drain calls on a fresh split
record of `N ≥ 1` sub-blocks: the first `c` waypoints while the split is in
progress, all `N` of them once it is marked complete. -/
theorem drainCalls_submitted (env : Collaborators K) (t0 : MotionHelper K) (N : Nat)
    (hN : t0._blocksToAddTotal = (N : Int)) (hN1 : 1 ≤ N) (hcur : t0._blocksToAddCurBlock = 0)
    (retired : List Nat) :
    ((drainCalls env retired t0)._blocksToAddTotal = (N : Int) ∧
      ∃ c : Nat, c < N ∧ (drainCalls env retired t0)._blocksToAddCurBlock = (c : Int) ∧
        (drainCalls env retired t0).submittedToPlanner.map RobotCommandArgs.getPointMM
          = t0.submittedToPlanner.map RobotCommandArgs.getPointMM
            ++ (List.range c).map (fun (i : Nat) => splitWaypoint t0 (N : Int) ((i : Int) + 1))) ∨
    ((drainCalls env retired t0)._blocksToAddTotal = 0 ∧
      (drainCalls env retired t0).submittedToPlanner.map RobotCommandArgs.getPointMM
        = t0.submittedToPlanner.map RobotCommandArgs.getPointMM
          ++ (List.range N).map (fun (i : Nat) => splitWaypoint t0 (N : Int) ((i : Int) + 1))) := by
  have key := drainCalls_induct env
    (fun t =>
      (t._blocksToAddStartPos = t0._blocksToAddStartPos ∧
       t._blocksToAddDelta = t0._blocksToAddDelta ∧
       t._blocksToAddEndPos = t0._blocksToAddEndPos) ∧
      ((t._blocksToAddTotal = (N : Int) ∧
        ∃ c : Nat, c < N ∧ t._blocksToAddCurBlock = (c : Int) ∧
          t.submittedToPlanner.map RobotCommandArgs.getPointMM
            = t0.submittedToPlanner.map RobotCommandArgs.getPointMM
              ++ (List.range c).map (fun (i : Nat) => splitWaypoint t0 (N : Int) ((i : Int) + 1))) ∨
       (t._blocksToAddTotal = 0 ∧
        t.submittedToPlanner.map RobotCommandArgs.getPointMM
          = t0.submittedToPlanner.map RobotCommandArgs.getPointMM
            ++ (List.range N).map (fun (i : Nat) => splitWaypoint t0 (N : Int) ((i : Int) + 1)))))
    (by intro t n ht; exact ht)
    (by
      intro t ht _ hpos
      obtain ⟨⟨h5, h6, h7⟩, hcase⟩ := ht
      rcases hcase with ⟨htot, c, hcN, hc, hlog⟩ | ⟨h0, _⟩
      swap
      · omega
      rw [blocksToAddStep_eq]
      have hw : splitWaypoint t t._blocksToAddTotal (t._blocksToAddCurBlock + 1)
          = splitWaypoint t0 (N : Int) ((c : Int) + 1) := by
        unfold splitWaypoint
        rw [h5, h6, h7, htot, hc]
      have hfr := addToPlanner_frame env
        { t with
          _blocksToAddCurBlock := t._blocksToAddCurBlock + 1
          _blocksToAddTotal :=
            if t._blocksToAddCurBlock + 1 ≥ t._blocksToAddTotal then 0 else t._blocksToAddTotal
          _blocksToAddCommandArgs :=
            { t._blocksToAddCommandArgs with
              ptInMM := splitWaypoint t t._blocksToAddTotal (t._blocksToAddCurBlock + 1)
              moreMovesComing :=
                ((if t._blocksToAddCurBlock + 1 ≥ t._blocksToAddTotal then 0
                  else t._blocksToAddTotal) != 0) } }
        { t._blocksToAddCommandArgs with
          ptInMM := splitWaypoint t t._blocksToAddTotal (t._blocksToAddCurBlock + 1)
          moreMovesComing :=
            ((if t._blocksToAddCurBlock + 1 ≥ t._blocksToAddTotal then 0
              else t._blocksToAddTotal) != 0) }
      obtain ⟨_, f2, f3, f4, f5, f6, _, _, f9⟩ := hfr
      refine ⟨⟨?_, ?_, ?_⟩, ?_⟩
      · rw [f2]; exact h5
      · rw [f3]; exact h6
      · rw [f4]; exact h7
      · have hlog' : ((addToPlanner env
            { t with
              _blocksToAddCurBlock := t._blocksToAddCurBlock + 1
              _blocksToAddTotal :=
                if t._blocksToAddCurBlock + 1 ≥ t._blocksToAddTotal then 0
                else t._blocksToAddTotal
              _blocksToAddCommandArgs :=
                { t._blocksToAddCommandArgs with
                  ptInMM := splitWaypoint t t._blocksToAddTotal (t._blocksToAddCurBlock + 1)
                  moreMovesComing :=
                    ((if t._blocksToAddCurBlock + 1 ≥ t._blocksToAddTotal then 0
                      else t._blocksToAddTotal) != 0) } }
            { t._blocksToAddCommandArgs with
              ptInMM := splitWaypoint t t._blocksToAddTotal (t._blocksToAddCurBlock + 1)
              moreMovesComing :=
                ((if t._blocksToAddCurBlock + 1 ≥ t._blocksToAddTotal then 0
                  else t._blocksToAddTotal) != 0) }).2.submittedToPlanner.map
              RobotCommandArgs.getPointMM)
            = t0.submittedToPlanner.map RobotCommandArgs.getPointMM
              ++ (List.range (c + 1)).map
                  (fun (i : Nat) => splitWaypoint t0 (N : Int) ((i : Int) + 1)) := by
          rw [f9, List.map_append, hlog, List.range_succ, List.map_append, List.append_assoc]
          congr 2
          simp only [List.map_cons, List.map_nil, RobotCommandArgs.getPointMM]
          rw [hw]
        by_cases hlast : t._blocksToAddCurBlock + 1 ≥ t._blocksToAddTotal
        · right
          have hcN' : c + 1 = N := by omega
          refine ⟨?_, ?_⟩
          · rw [f6]; simp [hlast]
          · rw [hlog', hcN']
        · left
          refine ⟨?_, c + 1, ?_, ?_, hlog'⟩
          · rw [f6]; simp only [hlast, if_false]; exact htot
          · omega
          · rw [f5]; simp only; rw [hc]; push_cast; ring)
    retired t0
    ⟨⟨rfl, rfl, rfl⟩, Or.inl ⟨hN, 0, by omega, by simpa using hcur, by simp⟩⟩
  exact key.2

/-- The last of the `N ≥ 1` waypoints of a split record is its end position. -/
theorem splitWaypoints_getLast (t0 : MotionHelper K) (N : Nat) (hN1 : 1 ≤ N) :
    ((List.range N).map (fun (i : Nat) => splitWaypoint t0 (N : Int) ((i : Int) + 1))).getLast?
      = some t0._blocksToAddEndPos := by
  obtain ⟨m, rfl⟩ : ∃ m, N = m + 1 := ⟨N - 1, by omega⟩
  rw [List.range_succ, List.map_append]
  simp [splitWaypoint]

/-- The block count `moveTo` computes when a block distance above 0.01 is configured
and splitting is not suppressed: the quotient truncated, and at least 1. -/
theorem moveToNumBlocks_eq [FloorRing K] (s : MotionHelper K) (args : RobotCommandArgs K)
    (lineLen : K) (hB : s._blockDistanceMM > 1 / 100) (hsplit : args.getDontSplitMove = false)
    (hlen : 0 ≤ lineLen) :
    moveToNumBlocks s args lineLen = max 1 ⌊lineLen / s._blockDistanceMM⌋ := by
  have hBpos : 0 < s._blockDistanceMM := lt_trans (by norm_num) hB
  have hq : 0 ≤ lineLen / s._blockDistanceMM := div_nonneg hlen hBpos.le
  have hfl : 0 ≤ ⌊lineLen / s._blockDistanceMM⌋ := Int.floor_nonneg.mpr hq
  unfold moveToNumBlocks
  simp only [hB, hsplit, and_self, if_true]
  rw [toInt32, if_pos hq]
  split_ifs with h0
  · rw [h0]; rfl
  · rw [max_eq_right (by omega)]

/-- The block count `moveTo` computes when no block distance is configured (0) or
the command suppresses splitting: 1. -/
theorem moveToNumBlocks_unsplit [FloorRing K] (s : MotionHelper K) (args : RobotCommandArgs K)
    (lineLen : K) (h : s._blockDistanceMM = 0 ∨ args.getDontSplitMove = true) :
    moveToNumBlocks s args lineLen = 1 := by
  have hc : ¬ (s._blockDistanceMM > 1 / 100 ∧ args.getDontSplitMove = false) := by
    rintro ⟨h1, h2⟩
    rcases h with h | h
    · rw [h] at h1; norm_num at h1
    · rw [h] at h2; exact Bool.noConfusion h2
  unfold moveToNumBlocks
  simp only [hc, if_false]
  norm_num

end MotionHelper

end DrainLoop

/-! ## MotionHelper: the claims about `moveTo` -/

section MoveTo

variable {K : Type} [LinearOrderedField K] [FloorRing K]

open Scenario

namespace MotionHelper

/-- Claim C1, refuted as stated.  On the MugBot machine with axis range `[0, 10]`, no
block distance and out-of-bounds allowed neither by the command nor machine-wide,
the non-stepwise move to `x = 20` has its target outside the bounds, the
transform refuses it, and `moveTo` still returns `true`. -/
theorem moveTo_outOfBounds_not_refused :
    (moveXTo 20).isStepwise = false ∧
    (moveXTo 20).getAllowOutOfBounds = false ∧
    (initial 8 0)._allowAllOutOfBounds = false ∧
    linearAxes.ptInBounds (moveXTo 20).getPointMM true = false ∧
    (callPtToActuator mugBotCollaborators (moveXTo 20).getPointMM
      (initial 8 0)._lastCommandedAxisPos (initial 8 0)._axesParams false).1 = false ∧
    (moveTo mugBotCollaborators (initial 8 0) (moveXTo 20)).1 = true := by
  decide!

/-- Claim C1, amended.  Every non-stepwise `moveTo` returns `true`, whatever the
target and the bounds: the refusal of an out-of-bounds waypoint is the result of
`addToPlanner`, which `blocksToAddProcess` discards. -/
theorem moveTo_always_reports_success (env : Collaborators K) (s : MotionHelper K)
    (args : RobotCommandArgs K) (hstep : args.isStepwise = false) :
    (moveTo env s args).1 = true := by
  rw [moveTo_eq_setup_then_drain env s args hstep]

/-- Claim C1, amended, at the out-of-bounds move to `x = 20`. -/
theorem moveTo_always_reports_success_witness :
    (moveTo mugBotCollaborators (initial 8 0) (moveXTo 20)).1 = true :=
  moveTo_always_reports_success mugBotCollaborators (initial 8 0) (moveXTo 20) rfl

/-- Claim C2, refuted as stated.  With block distance 5 the out-of-bounds move from
`x = 0` to `x = 20` (range `[0, 10]`, out-of-bounds not allowed) is split into 4
sub-blocks; the waypoints 5 and 10 are inside the bounds and are committed, so
after `moveTo`, and after further drain calls, the last commanded position is
`x = 10` (100 steps), not the position before the call. -/
theorem moveTo_outOfBounds_split_moves_position :
    (moveXTo 20).isStepwise = false ∧
    (moveXTo 20).getAllowOutOfBounds = false ∧
    (initial 8 5)._allowAllOutOfBounds = false ∧
    linearAxes.ptInBounds (moveXTo 20).getPointMM true = false ∧
    (moveToSetup mugBotCollaborators (initial 8 5) (moveXTo 20))._blocksToAddTotal = 4 ∧
    (initial 8 5)._lastCommandedAxisPos = ⟨⟨0, 0, 0⟩, ⟨0, 0, 0⟩⟩ ∧
    (moveTo mugBotCollaborators (initial 8 5) (moveXTo 20)).2._lastCommandedAxisPos
      = ⟨⟨10, 0, 0⟩, ⟨100, 0, 0⟩⟩ ∧
    (drainCalls mugBotCollaborators [1, 2]
        (moveTo mugBotCollaborators (initial 8 5) (moveXTo 20)).2)._lastCommandedAxisPos
      = ⟨⟨10, 0, 0⟩, ⟨100, 0, 0⟩⟩ := by
  decide!

/-- Claim C2, amended.  For every non-stepwise move all of whose waypoints (the
intermediate ones and the target) the transform refuses, as it does for an
out-of-bounds target of a move that is not split, the last commanded axis
position (real-world and steps) after `moveTo` and any subsequent drain calls
equals the position before the call. -/
theorem moveTo_rejected_keeps_position (env : Collaborators K) (s : MotionHelper K)
    (args : RobotCommandArgs K) (retired : List Nat)
    (hstep : args.isStepwise = false)
    (hrej : ∀ k : Int, 1 ≤ k →
      (callPtToActuator env
        (splitWaypoint (moveToSetup env s args) (moveToSetup env s args)._blocksToAddTotal k)
        s._lastCommandedAxisPos s._axesParams
        ((moveToSetup env s args)._blocksToAddCommandArgs.getAllowOutOfBounds
          || s._allowAllOutOfBounds)).1 = false) :
    (drainCalls env retired (moveTo env s args).2)._lastCommandedAxisPos
      = s._lastCommandedAxisPos := by
  rw [moveTo_eq_setup_then_drain env s args hstep]
  simp only
  rw [drainCalls_after_process]
  exact drainCalls_rejected_keeps env (moveToSetup env s args) (le_refl _) hrej (0 :: retired)

/-- Claim C2, amended, at a move split into 4 sub-blocks all of whose waypoints lie
below the axis range: from `x = 0` to `x = -20` with block distance 5. -/
theorem moveTo_rejected_keeps_position_witness :
    (drainCalls mugBotCollaborators [1, 0]
        (moveTo mugBotCollaborators (initial 8 5) (moveXTo (-20))).2)._lastCommandedAxisPos
      = (initial 8 5)._lastCommandedAxisPos :=
  moveTo_rejected_keeps_position mugBotCollaborators (initial 8 5) (moveXTo (-20)) [1, 0] rfl
    (by
      intro k hk
      have hT : (moveToSetup mugBotCollaborators (initial 8 5) (moveXTo (-20)))._blocksToAddTotal
          = 4 := by decide!
      rw [hT]
      by_cases h4 : k < 4
      · interval_cases k <;> decide!
      · unfold splitWaypoint
        rw [if_pos (not_lt.mp h4)]
        decide!)

/-- Claim C3, the code at a failing input.  Block distance 4, splitting not
suppressed, travel distance 6 over the primary axes: `ceil(6 / 4) = 2`, but the
split record holds 1 sub-block. -/
theorem moveTo_numBlocks_truncates :
    (initial 8 4)._blockDistanceMM = 4 ∧
    (moveXTo 6).getDontSplitMove = false ∧
    mugBotCollaborators.distanceTo
        (moveToSetup mugBotCollaborators (initial 8 4) (moveXTo 6))._blocksToAddEndPos
        (initial 8 4)._lastCommandedAxisPos._axisPositionMM
        (fun i => (initial 8 4)._axesParams.isPrimaryAxis i) = 6 ∧
    max 1 ⌈(6 : ℚ) / 4⌉ = 2 ∧
    (moveToSetup mugBotCollaborators (initial 8 4) (moveXTo 6))._blocksToAddTotal = 1 := by
  decide!

/-- Claim C4, the code at a failing input.  Block distance 4, splitting not
suppressed, travel distance 6: the move is handed to the planner as one sub-block
from `x = 0` to `x = 6`, of length 6 > 4. -/
theorem moveTo_subBlock_exceeds_blockDistance :
    (initial 8 4)._blockDistanceMM = 4 ∧
    (moveXTo 6).getDontSplitMove = false ∧
    (moveTo mugBotCollaborators (initial 8 4) (moveXTo 6)).2.submittedToPlanner.map
        RobotCommandArgs.getPointMM = [⟨6, 0, 0⟩] ∧
    (initial 8 4)._lastCommandedAxisPos._axisPositionMM = ⟨0, 0, 0⟩ ∧
    mugBotCollaborators.distanceTo ⟨6, 0, 0⟩ ⟨0, 0, 0⟩
        (fun i => (initial 8 4)._axesParams.isPrimaryAxis i)
      / (((moveToSetup mugBotCollaborators (initial 8 4) (moveXTo 6))._blocksToAddTotal : Int) : ℚ)
      > (initial 8 4)._blockDistanceMM := by
  decide!

/-- Claim C5.  For a move split into `N ≥ 1` sub-blocks whose drain has completed,
over any number of drain calls, the waypoints handed to the planner for it are
`N` in number, the last one is exactly the destination recorded by `moveTo`, and
the displacements between successive waypoints, measured from the position
before the call, sum to destination minus start. -/
theorem split_displacements_sum (env : Collaborators K) (s : MotionHelper K)
    (args : RobotCommandArgs K) (retired : List Nat)
    (hstep : args.isStepwise = false)
    (hN : 1 ≤ (moveToSetup env s args)._blocksToAddTotal)
    (hdone : (drainCalls env retired (moveTo env s args).2)._blocksToAddTotal = 0) :
    (((drainCalls env retired (moveTo env s args).2).submittedToPlanner.drop
        s.submittedToPlanner.length).map RobotCommandArgs.getPointMM).length
      = ((moveToSetup env s args)._blocksToAddTotal).toNat ∧
    (((drainCalls env retired (moveTo env s args).2).submittedToPlanner.drop
        s.submittedToPlanner.length).map RobotCommandArgs.getPointMM).getLast?
      = some (moveToSetup env s args)._blocksToAddEndPos ∧
    displacementSum s._lastCommandedAxisPos._axisPositionMM
        (((drainCalls env retired (moveTo env s args).2).submittedToPlanner.drop
          s.submittedToPlanner.length).map RobotCommandArgs.getPointMM)
      = ((moveToSetup env s args)._blocksToAddEndPos).sub s._lastCommandedAxisPos._axisPositionMM := by
  rw [moveTo_eq_setup_then_drain env s args hstep] at hdone ⊢
  simp only at hdone ⊢
  rw [drainCalls_after_process] at hdone ⊢
  obtain ⟨N, hNat⟩ : ∃ N : Nat, (moveToSetup env s args)._blocksToAddTotal = (N : Int) :=
    ⟨((moveToSetup env s args)._blocksToAddTotal).toNat, by omega⟩
  have hN1 : 1 ≤ N := by omega
  have hsub := drainCalls_submitted env (moveToSetup env s args) N hNat hN1 rfl (0 :: retired)
  rcases hsub with ⟨htot, _⟩ | ⟨_, hlog⟩
  · omega
  have hW : ((drainCalls env (0 :: retired) (moveToSetup env s args)).submittedToPlanner.drop
        s.submittedToPlanner.length).map RobotCommandArgs.getPointMM
      = (List.range N).map
          (fun (i : Nat) => splitWaypoint (moveToSetup env s args) (N : Int) ((i : Int) + 1)) := by
    rw [List.map_drop, hlog]
    have hlen : s.submittedToPlanner.length
        = ((moveToSetup env s args).submittedToPlanner.map RobotCommandArgs.getPointMM).length := by
      simp [moveToSetup]
    rw [hlen, List.drop_left]
  rw [hW]
  refine ⟨?_, splitWaypoints_getLast _ N hN1, ?_⟩
  · simp [hNat]
  · rw [displacementSum_eq, splitWaypoints_getLast _ N hN1]
    rfl

/-- Claim C5 at a move split into 5 sub-blocks and drained over four calls through a
pipeline of two blocks. -/
theorem split_displacements_sum_witness :
    displacementSum (initial 2 2)._lastCommandedAxisPos._axisPositionMM
        (((drainCalls mugBotCollaborators [1, 0, 2]
            (moveTo mugBotCollaborators (initial 2 2) (moveXTo 10)).2).submittedToPlanner.drop
          (initial 2 2).submittedToPlanner.length).map RobotCommandArgs.getPointMM)
      = ((moveToSetup mugBotCollaborators (initial 2 2) (moveXTo 10))._blocksToAddEndPos).sub
          (initial 2 2)._lastCommandedAxisPos._axisPositionMM :=
  (split_displacements_sum mugBotCollaborators (initial 2 2) (moveXTo 10) [1, 0, 2] rfl
    (by decide!) (by decide!)).2.2

end MotionHelper

end MoveTo

/-! ## SandTableScara: the round trip through the transforms -/

section ScaraRoundTrip

open RobotSandTableScara Scenario

/-- Both arms of the scenario have length 100. -/
theorem scaraArms_units (i : Nat) (hi : i < 3) : scaraArms.getunitsPerRot i / Real.pi / 2 = 100 := by
  have hpi : Real.pi ≠ 0 := Real.pi_ne_zero
  interval_cases i <;>
    simp [AxesParams.getunitsPerRot, AxesParams.axis?, scaraArms, scaraArm] <;>
    field_simp <;> ring

/-- Both arms of the scenario have 3600 steps per rotation. -/
theorem scaraArms_steps (i : Nat) (hi : i < 3) : scaraArms.getStepsPerRot i = 3600 := by
  interval_cases i <;> simp [AxesParams.getStepsPerRot, AxesParams.axis?, scaraArms, scaraArm]

/-- `wrapDegrees` of an angle lying `n` turns above `[0, 360)`. -/
theorem wrapDegrees_eval (x y : ℝ) (n : Int) (hx : x = y + 360 * (n : ℝ)) (h0 : 0 ≤ y)
    (h1 : y < 360) : wrapDegrees x = y := by
  have : ⌊x / 360⌋ = n := by
    rw [Int.floor_eq_iff, hx]
    constructor
    · rw [le_div_iff₀ (by norm_num)]; linarith
    · rw [div_lt_iff₀ (by norm_num)]; linarith
  unfold wrapDegrees
  rw [this, hx]; ring

/-- `wrapRadians` of an angle lying `n` turns above `[0, 2π)`. -/
theorem wrapRadians_eval (x y : ℝ) (n : Int) (hx : x = y + (2 * Real.pi) * (n : ℝ)) (h0 : 0 ≤ y)
    (h1 : y < 2 * Real.pi) : wrapRadians x = y := by
  have hpi : (0 : ℝ) < 2 * Real.pi := by positivity
  have : ⌊x / (2 * Real.pi)⌋ = n := by
    rw [Int.floor_eq_iff, hx]
    constructor
    · rw [le_div_iff₀ hpi]; nlinarith
    · rw [div_lt_iff₀ hpi]; nlinarith
  unfold wrapRadians
  rw [this, hx]; ring

/-- The angles of the equilateral triangle of side 100. -/
theorem cosineRule_equilateral : cosineRule 100 100 100 = Real.pi / 3 := by
  have h : ((100 : ℝ) * 100 + 100 * 100 - 100 * 100) / (2 * 100 * 100) = 1 / 2 := by norm_num
  simp only [cosineRule, h]
  norm_num
  rw [show (1 / 2 : ℝ) = Real.cos (Real.pi / 3) by rw [Real.cos_pi_div_three]]
  exact Real.arccos_cos (by positivity) (by linarith [Real.pi_pos])

/-- The target `(0, 100)` lies due North. -/
theorem atan2_north : atan2 0 100 = 0 := by
  unfold atan2
  have : (⟨100, 0⟩ : ℂ) = ((100 : ℝ) : ℂ) := by
    apply Complex.ext <;> simp
  rw [this]
  exact Complex.arg_ofReal_of_nonneg (by norm_num)

/-- `rotationToActuator` on the scenario arms: 10 steps per degree. -/
theorem rotationToActuator_eval (alpha beta w : ℝ) (hw : wrapDegrees (beta - 180) = w) :
    rotationToActuator alpha beta ⟨0, 0, 0⟩ scaraArms = ⟨alpha * 10, 3600 - w * 10, 0⟩ := by
  simp only [rotationToActuator, scaraArms_steps 0 (by norm_num), scaraArms_steps 1 (by norm_num),
    hw]
  congr 1 <;> ring

/-- `cartesianToActuator` at the target `(0, 100)` from step position `(0, 0)`: the
candidates are (300, 60) and (60, 300) degrees, both 1800 steps away; the second
is taken and becomes the step targets 600 and -1200. -/
theorem cartesianToActuator_inside :
    cartesianToActuator ⟨0, 100, 0⟩ ⟨AxisFloats.zero, AxisInt32s.zero⟩ AxisFloats.zero scaraArms
      = (ROTATION_TYPE.ROTATION_NORMAL, ⟨600, -1200, 0⟩) := by
  have hpi := Real.pi_pos
  have hA : isApprox (100 : ℝ) 0 (1 / 2) = false := by
    simp [isApprox]; norm_num
  have hsq : Real.sqrt ((0 : ℝ) ^ 2 + 100 ^ 2) = 100 := by
    rw [zero_pow (by norm_num), zero_add]
    exact Real.sqrt_sq (by norm_num)
  have hmax : scaraArms.getMaxVal 0 = (false, 0) := by
    simp [AxesParams.getMaxVal, AxesParams.axis?, scaraArms, scaraArm]
  -- the four candidate angles, in degrees
  have ha1 : r2d (wrapRadians (0 - Real.pi / 3 + 2 * Real.pi)) = 300 := by
    rw [wrapRadians_eval _ (5 * Real.pi / 3) 0 (by push_cast; ring) (by positivity)
      (by linarith)]
    unfold r2d; field_simp; ring
  have hb1 : r2d (wrapRadians (0 - Real.pi / 3 - Real.pi / 3 + Real.pi + 2 * Real.pi)) = 60 := by
    rw [wrapRadians_eval _ (Real.pi / 3) 1 (by push_cast; ring) (by positivity) (by linarith)]
    unfold r2d; field_simp; ring
  have ha2 : r2d (wrapRadians (0 + Real.pi / 3 + 2 * Real.pi)) = 60 := by
    rw [wrapRadians_eval _ (Real.pi / 3) 1 (by push_cast; ring) (by positivity) (by linarith)]
    unfold r2d; field_simp; ring
  have hb2 : r2d (wrapRadians (0 + Real.pi / 3 + Real.pi / 3 - Real.pi + 2 * Real.pi)) = 300 := by
    rw [wrapRadians_eval _ (5 * Real.pi / 3) 0 (by push_cast; ring) (by positivity)
      (by linarith)]
    unfold r2d; field_simp; ring
  -- their step targets
  have hr1 : rotationToActuator (300 : ℝ) 60 ⟨0, 0, 0⟩ scaraArms = ⟨3000, 1200, 0⟩ := by
    rw [rotationToActuator_eval 300 60 240
      (wrapDegrees_eval _ 240 (-1) (by push_cast; ring) (by norm_num) (by norm_num))]
    norm_num
  have hr2 : rotationToActuator (60 : ℝ) 300 ⟨0, 0, 0⟩ scaraArms = ⟨600, 2400, 0⟩ := by
    rw [rotationToActuator_eval 60 300 120
      (wrapDegrees_eval _ 120 0 (by push_cast; ring) (by norm_num) (by norm_num))]
    norm_num
  have hm1 : minStepsForMove (3000 : ℝ) 0 3600 = 600 := by
    simp only [minStepsForMove]; norm_num
  have hm2 : minStepsForMove (1200 : ℝ) 0 3600 = 1200 := by
    simp only [minStepsForMove]; norm_num
  have hm3 : minStepsForMove (600 : ℝ) 0 3600 = 600 := by
    simp only [minStepsForMove]; norm_num
  have hm4 : minStepsForMove (2400 : ℝ) 0 3600 = 1200 := by
    simp only [minStepsForMove]; norm_num
  have hs1 : absStepForMove (600 : ℝ) 0 3600 = 600 := by
    simp only [absStepForMove]; norm_num
  have hs2 : absStepForMove (2400 : ℝ) 0 3600 = -1200 := by
    simp only [absStepForMove]; norm_num
  simp only [cartesianToActuator, hA, Bool.and_false, scaraArms_units 0 (by norm_num),
    scaraArms_units 1 (by norm_num), hsq, atan2_north, cosineRule_equilateral,
    scaraArms_steps 0 (by norm_num), scaraArms_steps 1 (by norm_num), hmax]
  simp only [lt_irrefl, if_false, ha1, hb1, ha2, hb2, AxisFloats.zero, hr1, hr2,
    AxisFloats.getVal, AxisFloats.setVal, AxisInt32s.getVal, AxisInt32s.zero, Int.cast_zero,
    hm1, hm2, hm3, hm4, hs1, hs2]
  norm_num

/-- `actuatorToPt` at the step targets `(600, -1200)`: the angles read back are 60 and
300 degrees, and `rotationsToPoint` places the hand at `(100 √3, 0)`. -/
theorem actuatorToPt_inside :
    actuatorToPt ⟨600, -1200, 0⟩ AxisFloats.zero ⟨AxisFloats.zero, AxisInt32s.zero⟩ scaraArms
      = ⟨100 * Real.sqrt 3, 0, 0⟩ := by
  have h0 : toInt32 (600 : ℝ) = 600 := by
    have : (600 : ℝ) = ((600 : Int) : ℝ) := by norm_num
    rw [this, toInt32_intCast]
  have h1 : toInt32 (-1200 : ℝ) = -1200 := by
    have : (-1200 : ℝ) = ((-1200 : Int) : ℝ) := by norm_num
    rw [this, toInt32_intCast]
  have h2 : toInt32 (0 : ℝ) = 0 := by simp [toInt32]
  have hrot : actuatorToRotation (⟨600, -1200, 0⟩ : AxisInt32s) scaraArms
      = (⟨60, 300, 0⟩ : AxisFloats ℝ) := by
    simp only [actuatorToRotation, scaraArms_steps 0 (by norm_num), scaraArms_steps 1 (by norm_num),
      AxisInt32s.getVal]
    rw [wrapInt32_of_fits (by norm_num) (by norm_num),
      wrapInt32_of_fits (by norm_num) (by norm_num)]
    rw [wrapDegrees_eval _ 60 0 (by push_cast; ring) (by norm_num) (by norm_num),
      wrapDegrees_eval _ 300 1 (by push_cast; ring) (by norm_num) (by norm_num)]
  have hsin : Real.sin (2 * Real.pi / 3) = Real.sqrt 3 / 2 := by
    rw [show 2 * Real.pi / 3 = Real.pi - Real.pi / 3 by ring, Real.sin_pi_sub,
      Real.sin_pi_div_three]
  have hcos : Real.cos (2 * Real.pi / 3) = -(1 / 2) := by
    rw [show 2 * Real.pi / 3 = Real.pi - Real.pi / 3 by ring, Real.cos_pi_sub,
      Real.cos_pi_div_three]
  simp only [actuatorToPt, AxisFloats.getVal, h0, h1, h2, hrot, rotationsToPoint,
    scaraArms_units 0 (by norm_num), scaraArms_units 1 (by norm_num), AxisFloats.zero]
  rw [wrapDegrees_eval (300 + 180) 120 1 (by push_cast; ring) (by norm_num) (by norm_num)]
  have e4 : d2r 60 = Real.pi / 3 := by unfold d2r; ring
  have e5 : d2r 120 = 2 * Real.pi / 3 := by unfold d2r; ring
  rw [e4, e5, hsin, hcos, Real.sin_pi_div_three, Real.cos_pi_div_three]
  congr 1 <;> ring

/-- Claim C6, the code at a failing input.  Arms of length 100 each, 3600 steps per
rotation, both axes at step 0, target `(0, 100)`: it is not near the centre, lies
inside the reachable envelope (distance 100, reach 200) and `ptToActuator`
accepts it, yet `actuatorToPt` maps the actuator coordinates it produces to
`(100 √3, 0)`, which is more than 100 away from the target in each coordinate. -/
theorem scara_roundTrip_fails_inside_envelope :
    isApprox (100 : ℝ) 0 (1 / 2) = false ∧
    Real.sqrt ((0 : ℝ) ^ 2 + 100 ^ 2)
      ≤ scaraArms.getunitsPerRot 0 / Real.pi / 2 + scaraArms.getunitsPerRot 1 / Real.pi / 2 ∧
    (ptToActuator ⟨0, 100, 0⟩ AxisFloats.zero ⟨AxisFloats.zero, AxisInt32s.zero⟩ scaraArms
      false).1 = true ∧
    actuatorToPt
        (ptToActuator ⟨0, 100, 0⟩ AxisFloats.zero ⟨AxisFloats.zero, AxisInt32s.zero⟩ scaraArms
          false).2
        AxisFloats.zero ⟨AxisFloats.zero, AxisInt32s.zero⟩ scaraArms
      = ⟨100 * Real.sqrt 3, 0, 0⟩ ∧
    (100 : ℝ) < |100 * Real.sqrt 3 - 0| ∧
    (100 : ℝ) ≤ |(0 : ℝ) - 100| := by
  have hpt : ptToActuator ⟨0, 100, 0⟩ AxisFloats.zero ⟨AxisFloats.zero, AxisInt32s.zero⟩
      scaraArms false = (true, ⟨600, -1200, 0⟩) := by
    simp [ptToActuator, cartesianToActuator_inside]
  have h3 : (1 : ℝ) < Real.sqrt 3 := by
    rw [show (1 : ℝ) = Real.sqrt 1 by simp]
    exact Real.sqrt_lt_sqrt (by norm_num) (by norm_num)
  refine ⟨?_, ?_, ?_, ?_, ?_, ?_⟩
  · simp [isApprox]; norm_num
  · rw [scaraArms_units 0 (by norm_num), scaraArms_units 1 (by norm_num), zero_pow (by norm_num),
      zero_add, Real.sqrt_sq (by norm_num)]
    norm_num
  · rw [hpt]
  · rw [hpt]; exact actuatorToPt_inside
  · rw [sub_zero, abs_of_pos (by positivity)]
    linarith
  · norm_num

end ScaraRoundTrip

/-! ## SandTableScara: choice between the two candidates -/

section ScaraSelection

open RobotSandTableScara

namespace RobotSandTableScara

/-- `minStepsForMove` is the wraparound distance `min(|d|, S - |d|)`. -/
theorem minStepsForMove_eq_min {K : Type} [LinearOrderedField K] (t c S : K) :
    minStepsForMove t c S = min |t - c| (S - |t - c|) := by
  unfold minStepsForMove
  simp only
  split_ifs with h
  · rw [min_eq_right]; linarith
  · rw [min_eq_left]; linarith

/-- The normal path of `cartesianToActuator` in terms of its candidates: the rotation
type comes from the position check, the output from the candidate with the
smaller step count, the second candidate on a tie. -/
theorem cartesianToActuator_normal (targetPt : AxisFloats ℝ) (curAxisPositions : AxisPosition ℝ)
    (outActuator : AxisFloats ℝ) (axesParams : AxesParams ℝ)
    (hfar : (isApprox targetPt.p0 0 (1 / 2) && isApprox targetPt.p1 0 (1 / 2)) = false) :
    cartesianToActuator targetPt curAxisPositions outActuator axesParams =
      (if posValid targetPt axesParams then ROTATION_TYPE.ROTATION_NORMAL
        else ROTATION_TYPE.ROTATION_OUT_OF_BOUNDS,
       if minStepsForMove ((candidateActuators targetPt axesParams).1.getVal 0)
              ((curAxisPositions._stepsFromHome.getVal 0 : Int) : ℝ) (axesParams.getStepsPerRot 0)
            + minStepsForMove ((candidateActuators targetPt axesParams).1.getVal 1)
              ((curAxisPositions._stepsFromHome.getVal 1 : Int) : ℝ) (axesParams.getStepsPerRot 1)
          < minStepsForMove ((candidateActuators targetPt axesParams).2.getVal 0)
              ((curAxisPositions._stepsFromHome.getVal 0 : Int) : ℝ) (axesParams.getStepsPerRot 0)
            + minStepsForMove ((candidateActuators targetPt axesParams).2.getVal 1)
              ((curAxisPositions._stepsFromHome.getVal 1 : Int) : ℝ) (axesParams.getStepsPerRot 1)
       then candidateToOutput (candidateActuators targetPt axesParams).1 outActuator
              curAxisPositions axesParams
       else candidateToOutput (candidateActuators targetPt axesParams).2 outActuator
              curAxisPositions axesParams) := by
  unfold cartesianToActuator
  simp only [hfar, Bool.false_eq_true, if_false]
  by_cases hv : posValid targetPt axesParams = true
  · have hv2 := hv
    unfold posValid at hv2
    simp only at hv2
    simp only [hv, hv2, if_true, Bool.not_true, Bool.false_eq_true, if_false]
    rfl
  · have hv2 := hv
    unfold posValid at hv2
    simp only at hv2
    simp only [hv, hv2, if_false, Bool.not_false, if_true]
    rfl

/-- The sum `stepCount` that `cartesianToActuator` compares is the step distance of
the specification. -/
theorem stepCount_eq_specStepDistance (candidate : AxisFloats ℝ)
    (curAxisPositions : AxisPosition ℝ) (axesParams : AxesParams ℝ) :
    minStepsForMove (candidate.getVal 0)
        ((curAxisPositions._stepsFromHome.getVal 0 : Int) : ℝ) (axesParams.getStepsPerRot 0)
      + minStepsForMove (candidate.getVal 1)
        ((curAxisPositions._stepsFromHome.getVal 1 : Int) : ℝ) (axesParams.getStepsPerRot 1)
      = specStepDistance candidate curAxisPositions axesParams := by
  rw [minStepsForMove_eq_min, minStepsForMove_eq_min]
  rfl

/-- Claim C11.  On the normal path of `cartesianToActuator` (target not near the
centre) the output is the conversion of one of the two candidates, and that
candidate minimises, over the two, the summed wraparound step distance
`min(|d|, S - |d|)` of axes 0 and 1; `minStepsForMove` is that `min` formula for
every target, current count and steps per rotation. -/
theorem cartesianToActuator_picks_min_steps (targetPt : AxisFloats ℝ)
    (curAxisPositions : AxisPosition ℝ) (outActuator : AxisFloats ℝ) (axesParams : AxesParams ℝ)
    (hfar : (isApprox targetPt.p0 0 (1 / 2) && isApprox targetPt.p1 0 (1 / 2)) = false) :
    (∃ chosen : AxisFloats ℝ,
      (chosen = (candidateActuators targetPt axesParams).1 ∨
        chosen = (candidateActuators targetPt axesParams).2) ∧
      (cartesianToActuator targetPt curAxisPositions outActuator axesParams).2
        = candidateToOutput chosen outActuator curAxisPositions axesParams ∧
      specStepDistance chosen curAxisPositions axesParams
        ≤ specStepDistance (candidateActuators targetPt axesParams).1 curAxisPositions axesParams ∧
      specStepDistance chosen curAxisPositions axesParams
        ≤ specStepDistance (candidateActuators targetPt axesParams).2 curAxisPositions axesParams) ∧
    (∀ t c S : ℝ, minStepsForMove t c S = min |t - c| (S - |t - c|)) := by
  refine ⟨?_, fun t c S => minStepsForMove_eq_min t c S⟩
  rw [cartesianToActuator_normal targetPt curAxisPositions outActuator axesParams hfar]
  rw [stepCount_eq_specStepDistance, stepCount_eq_specStepDistance]
  by_cases hlt : specStepDistance (candidateActuators targetPt axesParams).1 curAxisPositions
      axesParams
    < specStepDistance (candidateActuators targetPt axesParams).2 curAxisPositions axesParams
  · exact ⟨(candidateActuators targetPt axesParams).1, Or.inl rfl, by simp only [hlt, if_true],
      le_refl _, le_of_lt hlt⟩
  · exact ⟨(candidateActuators targetPt axesParams).2, Or.inr rfl, by simp only [hlt, if_false],
      not_lt.mp hlt, le_refl _⟩

/-- Claim C11 at the target `(0, 100)` with both axes at step 0 on the arms of length
100 with 3600 steps per rotation. -/
theorem cartesianToActuator_picks_min_steps_witness :
    ∃ chosen : AxisFloats ℝ,
      (chosen = (candidateActuators ⟨0, 100, 0⟩ Scenario.scaraArms).1 ∨
        chosen = (candidateActuators ⟨0, 100, 0⟩ Scenario.scaraArms).2) ∧
      (cartesianToActuator ⟨0, 100, 0⟩ ⟨AxisFloats.zero, AxisInt32s.zero⟩ AxisFloats.zero
          Scenario.scaraArms).2
        = candidateToOutput chosen AxisFloats.zero ⟨AxisFloats.zero, AxisInt32s.zero⟩
            Scenario.scaraArms ∧
      specStepDistance chosen ⟨AxisFloats.zero, AxisInt32s.zero⟩ Scenario.scaraArms
        ≤ specStepDistance (candidateActuators ⟨0, 100, 0⟩ Scenario.scaraArms).1
            ⟨AxisFloats.zero, AxisInt32s.zero⟩ Scenario.scaraArms ∧
      specStepDistance chosen ⟨AxisFloats.zero, AxisInt32s.zero⟩ Scenario.scaraArms
        ≤ specStepDistance (candidateActuators ⟨0, 100, 0⟩ Scenario.scaraArms).2
            ⟨AxisFloats.zero, AxisInt32s.zero⟩ Scenario.scaraArms :=
  (cartesianToActuator_picks_min_steps ⟨0, 100, 0⟩ ⟨AxisFloats.zero, AxisInt32s.zero⟩
    AxisFloats.zero Scenario.scaraArms (by simp [isApprox]; norm_num)).1

end RobotSandTableScara

end ScaraSelection

/-! ## SandTableScara: bounds check of the normal path -/

section ScaraBounds

open RobotSandTableScara Scenario

namespace RobotSandTableScara

/-- The position check fails exactly when the distance from the centre exceeds the
reach of the two arms or, with a valid maximum on axis 0, that maximum. -/
theorem posValid_eq_false_iff (targetPt : AxisFloats ℝ) (axesParams : AxesParams ℝ) :
    posValid targetPt axesParams = false ↔
      (axesParams.getunitsPerRot 0 / Real.pi / 2 + axesParams.getunitsPerRot 1 / Real.pi / 2
          < Real.sqrt (targetPt.p0 ^ 2 + targetPt.p1 ^ 2) ∨
        ((axesParams.getMaxVal 0).1 = true ∧
          (axesParams.getMaxVal 0).2 < Real.sqrt (targetPt.p0 ^ 2 + targetPt.p1 ^ 2))) := by
  unfold posValid
  simp only
  by_cases hm : (axesParams.getMaxVal 0).1 = true
  · simp only [hm, if_true, Bool.and_eq_false_iff, decide_eq_false_iff_not, not_le, true_and]
  · simp only [hm, if_false, decide_eq_false_iff_not, not_le, false_and, or_false,
      Bool.false_eq_true]

/-- Claim C14.  For every target that is not in the near-centre case `ptToActuator`
returns false if and only if `allowOutOfBounds` is false and the distance of the
target from the centre exceeds the sum of the two arm lengths or, when axis 0 has
a valid maximum, that maximum; the call leaves the current axis position as it
was. -/
theorem ptToActuator_false_iff (targetPt outActuator : AxisFloats ℝ)
    (curAxisPositions : AxisPosition ℝ) (axesParams : AxesParams ℝ) (allowOutOfBounds : Bool)
    (hfar : (isApprox targetPt.p0 0 (1 / 2) && isApprox targetPt.p1 0 (1 / 2)) = false) :
    ((ptToActuator targetPt outActuator curAxisPositions axesParams allowOutOfBounds).1 = false ↔
      (allowOutOfBounds = false ∧
        (axesParams.getunitsPerRot 0 / Real.pi / 2 + axesParams.getunitsPerRot 1 / Real.pi / 2
            < Real.sqrt (targetPt.p0 ^ 2 + targetPt.p1 ^ 2) ∨
          ((axesParams.getMaxVal 0).1 = true ∧
            (axesParams.getMaxVal 0).2 < Real.sqrt (targetPt.p0 ^ 2 + targetPt.p1 ^ 2))))) ∧
    (ptToActuatorCall targetPt outActuator curAxisPositions axesParams allowOutOfBounds).2.2
      = curAxisPositions := by
  refine ⟨?_, rfl⟩
  rw [← posValid_eq_false_iff]
  unfold ptToActuator
  simp only [cartesianToActuator_normal targetPt curAxisPositions outActuator axesParams hfar]
  by_cases hv : posValid targetPt axesParams = true
  · simp [hv]
  · have hv2 : posValid targetPt axesParams = false := by simpa using hv
    cases allowOutOfBounds <;> simp [hv2]

/-- Claim C14 at the target `(0, 300)`, beyond the reach 200 of the two arms of
length 100, with out-of-bounds not allowed: the call returns false. -/
theorem ptToActuator_false_iff_witness :
    (ptToActuator ⟨0, 300, 0⟩ AxisFloats.zero ⟨AxisFloats.zero, AxisInt32s.zero⟩ scaraArms
      false).1 = false :=
  (ptToActuator_false_iff ⟨0, 300, 0⟩ AxisFloats.zero ⟨AxisFloats.zero, AxisInt32s.zero⟩ scaraArms
    false (by simp [isApprox]; norm_num)).1.mpr
    ⟨rfl, Or.inl (by
      rw [scaraArms_units 0 (by norm_num), scaraArms_units 1 (by norm_num),
        zero_pow (by norm_num), zero_add, Real.sqrt_sq (by norm_num)]
      norm_num)⟩

end RobotSandTableScara

end ScaraBounds

/-! ## SandTableScara: the near-centre case -/

section ScaraNearCentre

open RobotSandTableScara Scenario

namespace RobotSandTableScara

/-- A target at distance less than 0.5 from the centre passes the near-centre test of
`cartesianToActuator`, whose region is the square `|x| < 0.5`, `|y| < 0.5`. -/
theorem nearCentre_of_within_radius (targetPt : AxisFloats ℝ)
    (hnear : targetPt.p0 ^ 2 + targetPt.p1 ^ 2 < (1 / 2) ^ 2) :
    (isApprox targetPt.p0 0 (1 / 2) && isApprox targetPt.p1 0 (1 / 2)) = true := by
  have hx : |targetPt.p0 - 0| < 1 / 2 := by
    rw [sub_zero, abs_lt]; constructor <;> nlinarith [sq_nonneg targetPt.p1, sq_nonneg targetPt.p0]
  have hy : |targetPt.p1 - 0| < 1 / 2 := by
    rw [sub_zero, abs_lt]; constructor <;> nlinarith [sq_nonneg targetPt.p1, sq_nonneg targetPt.p0]
  simp only [isApprox, hx, hy, decide_True, Bool.and_self]

/-- The near-centre branch of `cartesianToActuator`. -/
theorem cartesianToActuator_nearCentre (targetPt : AxisFloats ℝ) (curAxisPositions : AxisPosition ℝ)
    (outActuator : AxisFloats ℝ) (axesParams : AxesParams ℝ)
    (hnear : (isApprox targetPt.p0 0 (1 / 2) && isApprox targetPt.p1 0 (1 / 2)) = true) :
    cartesianToActuator targetPt curAxisPositions outActuator axesParams =
      (ROTATION_TYPE.ROTATION_IS_NEAR_CENTRE,
        (outActuator.setVal 0 ((curAxisPositions._stepsFromHome.getVal 0 : Int) : ℝ)).setVal 1
          (wrapDegrees (((curAxisPositions._stepsFromHome.getVal 1 + 180 : Int) : ℝ)))) := by
  unfold cartesianToActuator
  simp only [hnear, if_true]

/-- Claim C12.  For every target within the 0.5-unit radius of the rotation centre
`ptToActuator` takes the near-centre case: it reports the move valid whatever
`allowOutOfBounds` is, and the axis-0 actuator output is axis 0's current step
count. -/
theorem ptToActuator_near_centre (targetPt outActuator : AxisFloats ℝ)
    (curAxisPositions : AxisPosition ℝ) (axesParams : AxesParams ℝ) (allowOutOfBounds : Bool)
    (hnear : targetPt.p0 ^ 2 + targetPt.p1 ^ 2 < (1 / 2) ^ 2) :
    (cartesianToActuator targetPt curAxisPositions outActuator axesParams).1
        = ROTATION_TYPE.ROTATION_IS_NEAR_CENTRE ∧
    (ptToActuator targetPt outActuator curAxisPositions axesParams allowOutOfBounds).1 = true ∧
    (ptToActuator targetPt outActuator curAxisPositions axesParams allowOutOfBounds).2.getVal 0
        = ((curAxisPositions._stepsFromHome.getVal 0 : Int) : ℝ) := by
  have h := cartesianToActuator_nearCentre targetPt curAxisPositions outActuator axesParams
    (nearCentre_of_within_radius targetPt hnear)
  unfold ptToActuator
  simp only [h]
  simp [AxisFloats.getVal, AxisFloats.setVal]

/-- Claim C12 at the target `(0.3, 0.3)` with 4000 steps per rotation on each axis,
current step counts 1234 and 77, out-of-bounds not allowed. -/
theorem ptToActuator_near_centre_witness :
    (cartesianToActuator ⟨3 / 10, 3 / 10, 0⟩ ⟨AxisFloats.zero, ⟨1234, 77, 0⟩⟩ AxisFloats.zero
        sandTableArms).1 = ROTATION_TYPE.ROTATION_IS_NEAR_CENTRE ∧
    (ptToActuator ⟨3 / 10, 3 / 10, 0⟩ AxisFloats.zero ⟨AxisFloats.zero, ⟨1234, 77, 0⟩⟩
        sandTableArms false).1 = true ∧
    (ptToActuator ⟨3 / 10, 3 / 10, 0⟩ AxisFloats.zero ⟨AxisFloats.zero, ⟨1234, 77, 0⟩⟩
        sandTableArms false).2.getVal 0
      = (((⟨1234, 77, 0⟩ : AxisInt32s).getVal 0 : Int) : ℝ) :=
  ptToActuator_near_centre ⟨3 / 10, 3 / 10, 0⟩ AxisFloats.zero ⟨AxisFloats.zero, ⟨1234, 77, 0⟩⟩
    sandTableArms false (by norm_num)

/-- The arms of the 4000-step scenario have 4000 steps per rotation. -/
theorem sandTableArms_steps (i : Nat) (hi : i < 3) : sandTableArms.getStepsPerRot i = 4000 := by
  interval_cases i <;>
    simp [AxesParams.getStepsPerRot, AxesParams.axis?, sandTableArms, sandTableArm]

/-- Claim C13, the code at a failing input.  4000 steps per rotation on each axis,
current step counts `(1000, 0)` (axis 0 at 90 degrees), target `(0.3, 0.3)`:
the near-centre case sets the axis-1 output to `wrapDegrees(0 + 180) = 180`
steps, from axis 1's step count; read back with `actuatorToRotation` that is
beta = 163.8 degrees, not `wrapDegrees(90 + 180) = 270`. -/
theorem nearCentre_beta_not_alpha_plus_180 :
    cartesianToActuator ⟨3 / 10, 3 / 10, 0⟩ ⟨AxisFloats.zero, ⟨1000, 0, 0⟩⟩ AxisFloats.zero
        sandTableArms = (ROTATION_TYPE.ROTATION_IS_NEAR_CENTRE, ⟨1000, 180, 0⟩) ∧
    (⟨toInt32 (1000 : ℝ), toInt32 (180 : ℝ), toInt32 (0 : ℝ)⟩ : AxisInt32s) = ⟨1000, 180, 0⟩ ∧
    actuatorToRotation (⟨1000, 180, 0⟩ : AxisInt32s) sandTableArms
        = (⟨90, 819 / 5, 0⟩ : AxisFloats ℝ) ∧
    wrapDegrees ((90 : ℝ) + 180) = 270 ∧
    (819 / 5 : ℝ) ≠ 270 := by
  refine ⟨?_, ?_, ?_, ?_, ?_⟩
  · rw [cartesianToActuator_nearCentre _ _ _ _
      (nearCentre_of_within_radius _ (by norm_num))]
    simp only [AxisInt32s.getVal, AxisFloats.setVal, AxisFloats.zero]
    rw [wrapDegrees_eval _ 180 0 (by push_cast; ring) (by norm_num) (by norm_num)]
    norm_num
  · have h1 : toInt32 (1000 : ℝ) = 1000 := by
      have : (1000 : ℝ) = ((1000 : Int) : ℝ) := by norm_num
      rw [this, toInt32_intCast]
    have h2 : toInt32 (180 : ℝ) = 180 := by
      have : (180 : ℝ) = ((180 : Int) : ℝ) := by norm_num
      rw [this, toInt32_intCast]
    have h3 : toInt32 (0 : ℝ) = 0 := by simp [toInt32]
    rw [h1, h2, h3]
  · simp only [actuatorToRotation, sandTableArms_steps 0 (by norm_num),
      sandTableArms_steps 1 (by norm_num), AxisInt32s.getVal]
    rw [wrapInt32_of_fits (by norm_num) (by norm_num),
      wrapInt32_of_fits (by norm_num) (by norm_num)]
    rw [wrapDegrees_eval _ 90 0 (by push_cast; ring) (by norm_num) (by norm_num),
      wrapDegrees_eval _ (819 / 5) 1 (by push_cast; ring) (by norm_num) (by norm_num)]
  · exact wrapDegrees_eval _ 270 0 (by push_cast; ring) (by norm_num) (by norm_num)
  · norm_num

end RobotSandTableScara

end ScaraNearCentre

/-! ## MugBot: bounds flag and round trip -/

section MugBot

variable {K : Type} [LinearOrderedField K]

namespace RobotMugBot

/-- The conversion loop of `RobotMugBot::ptToActuator`, axis by axis. -/
theorem ptToActuator_out (targetPt outActuator : AxisFloats K) (curPos : AxisPosition K)
    (axesParams : AxesParams K) (allowOutOfBounds : Bool) :
    (ptToActuator targetPt outActuator curPos axesParams allowOutOfBounds).2 =
      ⟨(targetPt.p0 - axesParams.getHomeOffsetVal 0) * axesParams.getStepsPerUnit 0
          + ((axesParams.gethomeOffSteps 0 : Int) : K),
        (targetPt.p1 - axesParams.getHomeOffsetVal 1) * axesParams.getStepsPerUnit 1
          + ((axesParams.gethomeOffSteps 1 : Int) : K),
        (targetPt.p2 - axesParams.getHomeOffsetVal 2) * axesParams.getStepsPerUnit 2
          + ((axesParams.gethomeOffSteps 2 : Int) : K)⟩ := by
  simp [ptToActuator, MAX_AXES, List.range_succ, AxisFloats.setVal, AxisFloats.getVal]

/-- The conversion loop of `RobotMugBot::actuatorToPt`, axis by axis. -/
theorem actuatorToPt_out (targetActuator outPt : AxisFloats K) (curPos : AxisPosition K)
    (axesParams : AxesParams K) :
    actuatorToPt targetActuator outPt curPos axesParams =
      ⟨(targetActuator.p0 - ((axesParams.gethomeOffSteps 0 : Int) : K))
          / axesParams.getStepsPerUnit 0 + axesParams.getHomeOffsetVal 0,
        (targetActuator.p1 - ((axesParams.gethomeOffSteps 1 : Int) : K))
          / axesParams.getStepsPerUnit 1 + axesParams.getHomeOffsetVal 1,
        (targetActuator.p2 - ((axesParams.gethomeOffSteps 2 : Int) : K))
          / axesParams.getStepsPerUnit 2 + axesParams.getHomeOffsetVal 2⟩ := by
  simp [actuatorToPt, MAX_AXES, List.range_succ, AxisFloats.setVal, AxisFloats.getVal]

/-- Claim C15.  With `allowOutOfBounds = true` MugBot `ptToActuator` returns true for
every target point; with `allowOutOfBounds = false` it returns the result of the
bounds check, so a target outside the bounds is rejected without the flag and
accepted with it. -/
theorem ptToActuator_allowed_accepts (targetPt outActuator : AxisFloats K)
    (curPos : AxisPosition K) (axesParams : AxesParams K) :
    (ptToActuator targetPt outActuator curPos axesParams true).1 = true ∧
    (ptToActuator targetPt outActuator curPos axesParams false).1
      = axesParams.ptInBounds targetPt true := by
  simp [ptToActuator, AxesParams.ptInBounds]

/-- Claim C20.  For the MugBot geometry with non-zero steps per unit on every axis and
every in-bounds point, `actuatorToPt` applied to the actuator coordinates that
`ptToActuator` produces returns the point, on every axis, for any home offset
value and home offset steps. -/
theorem actuatorToPt_ptToActuator (targetPt outActuator outPt : AxisFloats K)
    (curPos : AxisPosition K) (axesParams : AxesParams K) (allowOutOfBounds : Bool)
    (h0 : axesParams.getStepsPerUnit 0 ≠ 0) (h1 : axesParams.getStepsPerUnit 1 ≠ 0)
    (h2 : axesParams.getStepsPerUnit 2 ≠ 0)
    (hin : axesParams.ptInBounds targetPt true = true) :
    (ptToActuator targetPt outActuator curPos axesParams allowOutOfBounds).1 = true ∧
    actuatorToPt (ptToActuator targetPt outActuator curPos axesParams allowOutOfBounds).2
        outPt curPos axesParams = targetPt := by
  constructor
  · cases allowOutOfBounds
    · rw [(ptToActuator_allowed_accepts targetPt outActuator curPos axesParams).2]; exact hin
    · exact (ptToActuator_allowed_accepts targetPt outActuator curPos axesParams).1
  · rw [actuatorToPt_out, ptToActuator_out]
    simp only
    cases targetPt with
    | mk a b c =>
      simp only [AxisFloats.mk.injEq]
      refine ⟨?_, ?_, ?_⟩ <;> field_simp

/-- Claim C20 at the point `(3, 4, 5)` of a machine with 10 steps per unit whose home
lies at value 2 and step 7 on every axis. -/
theorem actuatorToPt_ptToActuator_witness :
    (ptToActuator (⟨3, 4, 5⟩ : AxisFloats ℚ) AxisFloats.zero
        ⟨AxisFloats.zero, AxisInt32s.zero⟩ Scenario.offsetAxes false).1 = true ∧
    actuatorToPt
        (ptToActuator (⟨3, 4, 5⟩ : AxisFloats ℚ) AxisFloats.zero
          ⟨AxisFloats.zero, AxisInt32s.zero⟩ Scenario.offsetAxes false).2
        AxisFloats.zero ⟨AxisFloats.zero, AxisInt32s.zero⟩ Scenario.offsetAxes
      = ⟨3, 4, 5⟩ :=
  actuatorToPt_ptToActuator ⟨3, 4, 5⟩ AxisFloats.zero AxisFloats.zero
    ⟨AxisFloats.zero, AxisInt32s.zero⟩ Scenario.offsetAxes false
    (by decide!) (by decide!) (by decide!) (by decide!)

end RobotMugBot

end MugBot

/-- The out-of-bounds move to `x = 20` on the MugBot machine with range `[0, 10]`: it
is not committed without the allow-out-of-bounds flag and is committed with it,
set on the command or machine-wide. -/
theorem MotionHelper.moveTo_outOfBounds_allowed_is_committed :
    (MotionHelper.moveTo Scenario.mugBotCollaborators (Scenario.initial 8 0)
        (Scenario.moveXTo 20)).2._lastCommandedAxisPos = ⟨⟨0, 0, 0⟩, ⟨0, 0, 0⟩⟩ ∧
    (MotionHelper.moveTo Scenario.mugBotCollaborators (Scenario.initial 8 0)
        { Scenario.moveXTo 20 with allowOutOfBounds := true }).2._lastCommandedAxisPos
      = ⟨⟨20, 0, 0⟩, ⟨200, 0, 0⟩⟩ ∧
    (MotionHelper.moveTo Scenario.mugBotCollaborators
        { Scenario.initial 8 0 with _allowAllOutOfBounds := true }
        (Scenario.moveXTo 20)).2._lastCommandedAxisPos
      = ⟨⟨20, 0, 0⟩, ⟨200, 0, 0⟩⟩ := by
  decide!

/-! ## MotionHelper: acceptance, destination and sticky mode -/

section Orchestrator

variable {K : Type} [LinearOrderedField K]

open Scenario

namespace MotionHelper

omit [LinearOrderedField K] in
/-- Claim C16.  `canAccept` returns true if and only if no homing operation is in
progress, no split is in progress (`_blocksToAddTotal` is 0) and the pipeline
can accept a block. -/
theorem canAccept_iff (s : MotionHelper K) :
    canAccept s = true ↔
      (s.homingInProgress = false ∧ s._blocksToAddTotal = 0 ∧
        s._motionPipeline.canAccept = true) := by
  unfold canAccept
  cases hh : s.homingInProgress <;> simp

/-- The destination loop of `moveTo`, axis by axis. -/
theorem moveToDestPos_eq (s : MotionHelper K) (args : RobotCommandArgs K) :
    moveToDestPos s args = ⟨specDestAxis s args 0, specDestAxis s args 1, specDestAxis s args 2⟩ := by
  have hrel : (if args.getMoveType ≠ RobotMoveTypeArg.RobotMoveTypeArg_None then
        decide (args.getMoveType = RobotMoveTypeArg.RobotMoveTypeArg_Relative)
      else s._moveRelative) = specEffectiveRelative s args := by
    unfold specEffectiveRelative
    cases args.getMoveType <;> simp
  unfold moveToDestPos
  simp only [hrel, MAX_AXES, List.range_succ, List.range_zero, List.nil_append, List.cons_append,
    List.foldl_cons, List.foldl_nil, specDestAxis, RobotCommandArgs.getValMM,
    RobotCommandArgs.getPointMM, RobotCommandArgs.isValid]
  cases args.valid0 <;> cases args.valid1 <;> cases args.valid2 <;>
    cases specEffectiveRelative s args <;>
    simp [AxisFloats.setVal, AxisFloats.getVal]

/-- What `addToPlanner` leaves alone, continued: the sticky mode and the flags. -/
theorem addToPlanner_frame_mode (env : Collaborators K) (s : MotionHelper K)
    (args : RobotCommandArgs K) :
    (addToPlanner env s args).2._moveRelative = s._moveRelative ∧
    (addToPlanner env s args).2._isPaused = s._isPaused ∧
    (addToPlanner env s args).2.homingInProgress = s.homingInProgress ∧
    (addToPlanner env s args).2.totalStepPosition = s.totalStepPosition ∧
    (addToPlanner env s args).2._blockDistanceMM = s._blockDistanceMM := by
  unfold addToPlanner
  simp only
  split_ifs
  · cases env._correctStepOverflowFn <;> simp
  · simp
  · simp

/-- No run of drain calls changes the sticky mode or the recorded end position. -/
theorem drainCalls_frame (env : Collaborators K) (retired : List Nat) (s : MotionHelper K) :
    (drainCalls env retired s)._moveRelative = s._moveRelative ∧
    (drainCalls env retired s)._blocksToAddEndPos = s._blocksToAddEndPos := by
  apply drainCalls_induct env
    (fun t => t._moveRelative = s._moveRelative ∧ t._blocksToAddEndPos = s._blocksToAddEndPos)
  · intro t n ht; exact ht
  · intro t ht _ _
    rw [blocksToAddStep_eq]
    exact ⟨((addToPlanner_frame_mode env _ _).1).trans ht.1,
      ((addToPlanner_frame env _ _).2.2.2.1).trans ht.2⟩
  · exact ⟨rfl, rfl⟩

end MotionHelper

end Orchestrator

section Orchestrator2

variable {K : Type} [LinearOrderedField K] [FloorRing K]

open Scenario

namespace MotionHelper

/-- Claim C17.  For a non-stepwise `moveTo` the destination recorded for each axis is
the last commanded position when the axis is not flagged valid; otherwise the
given value in absolute mode and the last commanded position plus the given value
in relative mode, the mode being the call's move type when it states one and the
sticky mode otherwise. -/
theorem moveTo_records_destination (env : Collaborators K) (s : MotionHelper K)
    (args : RobotCommandArgs K) (hstep : args.isStepwise = false) :
    (moveTo env s args).2._blocksToAddEndPos =
      ⟨specDestAxis s (moveToConvertedArgs env s args) 0,
        specDestAxis s (moveToConvertedArgs env s args) 1,
        specDestAxis s (moveToConvertedArgs env s args) 2⟩ := by
  rw [moveTo_eq_setup_then_drain env s args hstep]
  have h := (drainCalls_frame env [0] (moveToSetup env s args)).2
  simp only [drainCalls, actuatorRetires_zero] at h
  simp only
  rw [h, ← moveToDestPos_eq]
  rfl

/-- Claim C17 at a relative command for axis 0 alone: sticky mode relative, last
commanded position `(3, 4, 5)`, given value 2, no move type stated; the recorded
destination is `(5, 4, 5)`. -/
theorem moveTo_records_destination_witness :
    (moveTo mugBotCollaborators
        { initial 8 0 with
          _moveRelative := true
          _lastCommandedAxisPos := ⟨⟨3, 4, 5⟩, ⟨30, 40, 50⟩⟩ }
        (moveXTo 2)).2._blocksToAddEndPos = ⟨5, 4, 5⟩ :=
  (moveTo_records_destination mugBotCollaborators
    { initial 8 0 with
      _moveRelative := true
      _lastCommandedAxisPos := ⟨⟨3, 4, 5⟩, ⟨30, 40, 50⟩⟩ }
    (moveXTo 2) rfl).trans (by decide!)

/-- Claim C18.  `setMotionParams` with a move type other than none makes the sticky
mode relative exactly when the type is relative; with type none it leaves it as
it is, and so do every `moveTo`, whatever move type the call states, and every
run of drain calls; `getCurStatus` reports relative exactly when the sticky mode
is relative. -/
theorem stickyMode_set_only_by_setMotionParams (env : Collaborators K) (s : MotionHelper K)
    (args : RobotCommandArgs K) (retired : List Nat)
    (actuatorToPtFn :
      Option (AxisFloats K → AxisFloats K → AxisPosition K → AxesParams K → AxisFloats K))
    (isHomedOk : Bool) :
    (setMotionParams s args)._moveRelative =
      (match args.getMoveType with
        | RobotMoveTypeArg.RobotMoveTypeArg_None => s._moveRelative
        | RobotMoveTypeArg.RobotMoveTypeArg_Absolute => false
        | RobotMoveTypeArg.RobotMoveTypeArg_Relative => true) ∧
    (moveTo env s args).2._moveRelative = s._moveRelative ∧
    (drainCalls env retired s)._moveRelative = s._moveRelative ∧
    (getCurStatus actuatorToPtFn isHomedOk (moveTo env s args).2 args).getMoveType
      = (getCurStatus actuatorToPtFn isHomedOk s args).getMoveType ∧
    (getCurStatus actuatorToPtFn isHomedOk s args).getMoveType =
      (if s._moveRelative then RobotMoveTypeArg.RobotMoveTypeArg_Relative
        else RobotMoveTypeArg.RobotMoveTypeArg_Absolute) := by
  have hmove : (moveTo env s args).2._moveRelative = s._moveRelative := by
    unfold moveTo
    split_ifs with hst
    · rfl
    · have h := (drainCalls_frame env [0] (moveToSetup env s args)).1
      simp only [drainCalls, actuatorRetires_zero] at h
      simp only
      rw [h]
      rfl
  have hstat : ∀ t : MotionHelper K,
      (getCurStatus actuatorToPtFn isHomedOk t args).getMoveType =
        (if t._moveRelative then RobotMoveTypeArg.RobotMoveTypeArg_Relative
          else RobotMoveTypeArg.RobotMoveTypeArg_Absolute) := by
    intro t
    simp [getCurStatus, RobotCommandArgs.getMoveType, RobotCommandArgs.setNumQueued,
      RobotCommandArgs.setHasHomed, RobotCommandArgs.setIsHoming, RobotCommandArgs.setPause,
      RobotCommandArgs.setMoveType]
  refine ⟨?_, hmove, (drainCalls_frame env retired s).1, ?_, hstat s⟩
  · unfold setMotionParams
    cases hmt : args.getMoveType <;> simp
  · rw [hstat, hstat, hmove]

end MotionHelper

end Orchestrator2

/-! ## MotionHelper: the sequence of waypoints of a split move -/

section SplitSequence

variable {K : Type} [LinearOrderedField K]

open Scenario

namespace MotionHelper

/-- The waypoints the drain loop computes from a split record whose delta is
`(end - start) / N` are the waypoints of the specification. -/
theorem splitWaypoints_eq_spec (t0 : MotionHelper K) (N : Nat) (hN1 : 1 ≤ N)
    (hdelta : t0._blocksToAddDelta
      = (t0._blocksToAddEndPos.sub t0._blocksToAddStartPos).divScalar ((N : Nat) : K)) :
    (List.range N).map (fun (i : Nat) => splitWaypoint t0 (N : Int) ((i : Int) + 1))
      = specSplitWaypoints t0._blocksToAddStartPos t0._blocksToAddEndPos N := by
  obtain ⟨m, rfl⟩ : ∃ m, N = m + 1 := ⟨N - 1, by omega⟩
  unfold specSplitWaypoints
  rw [List.range_succ, List.map_append, Nat.add_sub_cancel]
  congr 1
  · apply List.map_congr_left
    intro i hi
    have hi2 : i < m := List.mem_range.mp hi
    have hlt : ¬ ((i : Int) + 1 ≥ ((m + 1 : Nat) : Int)) := by push_cast; omega
    unfold splitWaypoint
    rw [if_neg hlt, hdelta]
    simp only [AxisFloats.add, AxisFloats.sub, AxisFloats.mulScalar, AxisFloats.divScalar,
      AxisFloats.mk.injEq]
    push_cast
    refine ⟨?_, ?_, ?_⟩ <;> rw [div_mul_eq_mul_div]
  · simp [splitWaypoint]

end MotionHelper

end SplitSequence

section SplitSequence2

variable {K : Type} [LinearOrderedField K] [FloorRing K]

open Scenario

namespace MotionHelper

/-- Claim C19.  For a move split into `N ≥ 1` sub-blocks and any pattern of drain
calls, the waypoints handed to the planner for it are, in order and each once,
the first `c` of `start + k (dest - start) / N` for `k = 1 .. N - 1` followed by
the destination, for some `c ≤ N`; the split is marked complete exactly when all
`N` have been handed over, so every pattern that completes submits the sequence
of a single drain call. -/
theorem drainCalls_submit_spec_waypoints (env : Collaborators K) (s : MotionHelper K)
    (args : RobotCommandArgs K) (retired : List Nat)
    (hstep : args.isStepwise = false)
    (hN : 1 ≤ (moveToSetup env s args)._blocksToAddTotal) :
    (∃ c : Nat, c ≤ ((moveToSetup env s args)._blocksToAddTotal).toNat ∧
      ((drainCalls env retired (moveTo env s args).2).submittedToPlanner.drop
          s.submittedToPlanner.length).map RobotCommandArgs.getPointMM
        = (specSplitWaypoints s._lastCommandedAxisPos._axisPositionMM
            (moveToSetup env s args)._blocksToAddEndPos
            ((moveToSetup env s args)._blocksToAddTotal).toNat).take c) ∧
    ((drainCalls env retired (moveTo env s args).2)._blocksToAddTotal = 0 ↔
      ((drainCalls env retired (moveTo env s args).2).submittedToPlanner.drop
          s.submittedToPlanner.length).map RobotCommandArgs.getPointMM
        = specSplitWaypoints s._lastCommandedAxisPos._axisPositionMM
            (moveToSetup env s args)._blocksToAddEndPos
            ((moveToSetup env s args)._blocksToAddTotal).toNat) := by
  rw [moveTo_eq_setup_then_drain env s args hstep]
  simp only
  rw [drainCalls_after_process]
  obtain ⟨N, hNat⟩ : ∃ N : Nat, (moveToSetup env s args)._blocksToAddTotal = (N : Int) :=
    ⟨((moveToSetup env s args)._blocksToAddTotal).toNat, by omega⟩
  have hN1 : 1 ≤ N := by omega
  have hd : (moveToSetup env s args)._blocksToAddDelta
      = ((moveToSetup env s args)._blocksToAddEndPos.sub
          (moveToSetup env s args)._blocksToAddStartPos).divScalar
          ((((moveToSetup env s args)._blocksToAddTotal : Int)) : K) := rfl
  rw [hNat, Int.cast_natCast] at hd
  have hspec := splitWaypoints_eq_spec (moveToSetup env s args) N hN1 hd
  have hstart : (moveToSetup env s args)._blocksToAddStartPos
      = s._lastCommandedAxisPos._axisPositionMM := rfl
  rw [hstart] at hspec
  have hlen : s.submittedToPlanner.length
      = ((moveToSetup env s args).submittedToPlanner.map RobotCommandArgs.getPointMM).length := by
    simp [moveToSetup]
  have hspeclen : (specSplitWaypoints s._lastCommandedAxisPos._axisPositionMM
      (moveToSetup env s args)._blocksToAddEndPos N).length = N := by
    rw [← hspec]; simp
  rw [hNat, Int.toNat_ofNat]
  rcases drainCalls_submitted env (moveToSetup env s args) N hNat hN1 rfl (0 :: retired) with
    ⟨htot, c, hcN, _, hlog⟩ | ⟨htot, hlog⟩
  · have hW : ((drainCalls env (0 :: retired) (moveToSetup env s args)).submittedToPlanner.drop
          s.submittedToPlanner.length).map RobotCommandArgs.getPointMM
        = (specSplitWaypoints s._lastCommandedAxisPos._axisPositionMM
            (moveToSetup env s args)._blocksToAddEndPos N).take c := by
      rw [List.map_drop, hlog, hlen, List.drop_left, ← hspec, ← List.map_take, List.take_range,
        min_eq_left (le_of_lt hcN)]
    refine ⟨⟨c, le_of_lt hcN, hW⟩, ?_⟩
    constructor
    · intro h0; omega
    · intro hfull
      have := congrArg List.length (hW.symm.trans hfull)
      rw [List.length_take, hspeclen] at this
      omega
  · have hW : ((drainCalls env (0 :: retired) (moveToSetup env s args)).submittedToPlanner.drop
          s.submittedToPlanner.length).map RobotCommandArgs.getPointMM
        = specSplitWaypoints s._lastCommandedAxisPos._axisPositionMM
            (moveToSetup env s args)._blocksToAddEndPos N := by
      rw [List.map_drop, hlog, hlen, List.drop_left, hspec]
    refine ⟨⟨N, le_refl _, ?_⟩, ?_⟩
    · rw [hW, List.take_of_length_le (le_of_eq hspeclen)]
    · exact ⟨fun _ => hW, fun _ => htot⟩

/-- Claim C19 at a move split into 5 sub-blocks and drained over four calls through a
pipeline of two blocks: the submitted sequence is that of the specification. -/
theorem drainCalls_submit_spec_waypoints_witness :
    ((drainCalls mugBotCollaborators [1, 0, 2]
          (moveTo mugBotCollaborators (initial 2 2) (moveXTo 10)).2).submittedToPlanner.drop
        (initial 2 2).submittedToPlanner.length).map RobotCommandArgs.getPointMM
      = specSplitWaypoints (initial 2 2)._lastCommandedAxisPos._axisPositionMM
          (moveToSetup mugBotCollaborators (initial 2 2) (moveXTo 10))._blocksToAddEndPos
          ((moveToSetup mugBotCollaborators (initial 2 2) (moveXTo 10))._blocksToAddTotal).toNat :=
  (drainCalls_submit_spec_waypoints mugBotCollaborators (initial 2 2) (moveXTo 10) [1, 0, 2] rfl
    (by decide!)).2.mp (by decide!)

end MotionHelper

end SplitSequence2

namespace MotionHelper

section HomeCommit
variable {K : Type} [LinearOrderedField K]

/-- C21: `setCurPositionAsHome(a)` with `0 ≤ a < MAX_AXES` sets the last commanded
real-world position of axis `a` to its configured home offset value, and both its
last commanded step count and the total step position of the actuator to its
configured home offset steps; every other axis keeps its three values and no other
member of the state changes.  With an index outside that range the state is
unchanged. -/
theorem setCurPositionAsHome_commits_home (s : MotionHelper K) (axisIdx : Int) :
    ((0 ≤ axisIdx ∧ axisIdx < (MAX_AXES : Int)) →
      ((setCurPositionAsHome s axisIdx)._lastCommandedAxisPos._axisPositionMM.getVal axisIdx.toNat
          = s._axesParams.getHomeOffsetVal axisIdx.toNat
        ∧ (setCurPositionAsHome s axisIdx)._lastCommandedAxisPos._stepsFromHome.getVal axisIdx.toNat
          = s._axesParams.gethomeOffSteps axisIdx.toNat
        ∧ (setCurPositionAsHome s axisIdx).totalStepPosition.getVal axisIdx.toNat
          = s._axesParams.gethomeOffSteps axisIdx.toNat
        ∧ (∀ j : Nat, j ≠ axisIdx.toNat →
            (setCurPositionAsHome s axisIdx)._lastCommandedAxisPos._axisPositionMM.getVal j
              = s._lastCommandedAxisPos._axisPositionMM.getVal j
            ∧ (setCurPositionAsHome s axisIdx)._lastCommandedAxisPos._stepsFromHome.getVal j
              = s._lastCommandedAxisPos._stepsFromHome.getVal j
            ∧ (setCurPositionAsHome s axisIdx).totalStepPosition.getVal j
              = s.totalStepPosition.getVal j)
        ∧ setCurPositionAsHome s axisIdx =
            { s with
              _lastCommandedAxisPos := (setCurPositionAsHome s axisIdx)._lastCommandedAxisPos
              totalStepPosition := (setCurPositionAsHome s axisIdx).totalStepPosition }))
    ∧ ((axisIdx < 0 ∨ (MAX_AXES : Int) ≤ axisIdx) → setCurPositionAsHome s axisIdx = s) := by
  constructor
  · rintro ⟨h0, h1⟩
    have hn : ¬ (axisIdx < 0 ∨ axisIdx ≥ (MAX_AXES : Int)) := by
      simp only [ge_iff_le, not_or, not_lt, not_le]; exact ⟨h0, h1⟩
    obtain ⟨n, rfl⟩ : ∃ n : Nat, axisIdx = (n : Int) := ⟨axisIdx.toNat, (Int.toNat_of_nonneg h0).symm⟩
    have hn3 : n < 3 := by
      have : (n : Int) < 3 := h1
      exact_mod_cast this
    simp only [Int.toNat_ofNat]
    unfold setCurPositionAsHome
    simp only [if_neg hn, setTotalStepPosition, Int.toNat_ofNat]
    refine ⟨?_, ?_, ?_, ?_, trivial⟩
    · interval_cases n <;> rfl
    · interval_cases n <;> rfl
    · interval_cases n <;> rfl
    · intro j hj
      interval_cases n
      · rcases j with _ | _ | _ | j
        · exact absurd rfl hj
        all_goals exact ⟨rfl, rfl, rfl⟩
      · rcases j with _ | _ | _ | j
        · exact ⟨rfl, rfl, rfl⟩
        · exact absurd rfl hj
        all_goals exact ⟨rfl, rfl, rfl⟩
      · rcases j with _ | _ | _ | j
        · exact ⟨rfl, rfl, rfl⟩
        · exact ⟨rfl, rfl, rfl⟩
        · exact absurd rfl hj
        all_goals exact ⟨rfl, rfl, rfl⟩
  · intro h
    unfold setCurPositionAsHome
    rw [if_pos]
    exact h

end HomeCommit

open Scenario in
/-- Claim C21 on a machine whose axes have their home at value 2 and step 7, last
commanded at `(3, 4, 5)` and steps `(30, 40, 50)`: committing axis 1 gives
`(3, 2, 5)`, steps `(30, 7, 50)` and actuator counters `(0, 7, 0)`; committing
axis 3 changes nothing. -/
theorem setCurPositionAsHome_commits_home_witness :
    (setCurPositionAsHome
        { initial 8 0 with
          _axesParams := offsetAxes
          _lastCommandedAxisPos := ⟨⟨3, 4, 5⟩, ⟨30, 40, 50⟩⟩ } 1)._lastCommandedAxisPos
        = ⟨⟨3, 2, 5⟩, ⟨30, 7, 50⟩⟩
    ∧ (setCurPositionAsHome
        { initial 8 0 with
          _axesParams := offsetAxes
          _lastCommandedAxisPos := ⟨⟨3, 4, 5⟩, ⟨30, 40, 50⟩⟩ } 1).totalStepPosition.getVal 1 = 7
    ∧ setCurPositionAsHome
        { initial 8 0 with
          _axesParams := offsetAxes
          _lastCommandedAxisPos := ⟨⟨3, 4, 5⟩, ⟨30, 40, 50⟩⟩ } 3
        = { initial 8 0 with
            _axesParams := offsetAxes
            _lastCommandedAxisPos := ⟨⟨3, 4, 5⟩, ⟨30, 40, 50⟩⟩ } :=
  ⟨by decide!,
    ((setCurPositionAsHome_commits_home
      { initial 8 0 with
        _axesParams := offsetAxes
        _lastCommandedAxisPos := ⟨⟨3, 4, 5⟩, ⟨30, 40, 50⟩⟩ } 1).1 (by decide)).2.2.1,
    (setCurPositionAsHome_commits_home
      { initial 8 0 with
        _axesParams := offsetAxes
        _lastCommandedAxisPos := ⟨⟨3, 4, 5⟩, ⟨30, 40, 50⟩⟩ } 3).2 (by decide)⟩

end MotionHelper

section StopAndDrain

variable {K : Type} [LinearOrderedField K] [FloorRing K]

namespace MotionHelper

omit [LinearOrderedField K] [FloorRing K] in
/-- Immediately after `stop()` the pipeline is empty and the orchestrator is not
paused; the split record is as it was. -/
theorem stop_immediate (s : MotionHelper K) :
    (stop s)._motionPipeline.count = 0 ∧ (stop s)._isPaused = false ∧
    (stop s)._blocksToAddTotal = s._blocksToAddTotal ∧
    (stop s)._blocksToAddCurBlock = s._blocksToAddCurBlock :=
  ⟨rfl, rfl, rfl, rfl⟩

omit [FloorRing K] in
/-- When no split is in progress at the time of `stop()`, the pipeline stays empty
over every run of drain calls. -/
theorem stop_idle_stays_empty (env : Collaborators K) (s : MotionHelper K)
    (h : s._blocksToAddTotal ≤ 0) (retired : List Nat) :
    (drainCalls env retired (stop s))._motionPipeline.count = 0 := by
  have key := drainCalls_induct env
    (fun t => t._blocksToAddTotal ≤ 0 ∧ t._motionPipeline.count = 0)
    (fun t n ht => ⟨ht.1, by
      have h0 : t._motionPipeline.blocks = [] := List.length_eq_zero.mp ht.2
      simp [actuatorRetires, MotionPipeline.retire, MotionPipeline.count, h0]⟩)
    (fun t ht _ hpos => absurd hpos (not_lt.mpr ht.1))
    retired (stop s) ⟨h, rfl⟩
  exact key.2

open Scenario in
/-- C22: `stop()` empties the pipeline and un-pauses, and leaves the split record as
it is, so the next drain call refills the pipeline.  On the MugBot machine with a
pipeline of 2 blocks and block distance 2, the move to X = 10 is split into 5
sub-blocks of which `moveTo` queues 2; after `stop()` the pipeline is empty and not
paused, 3 sub-blocks remain recorded, and one service call without any new move
puts 2 blocks into the pipeline again: the sub-blocks ending at X = 6 and X = 8. -/
theorem stop_then_drain_refills_pipeline :
    (moveTo mugBotCollaborators (initial 2 2) (moveXTo 10)).2._blocksToAddTotal = 5
    ∧ (moveTo mugBotCollaborators (initial 2 2) (moveXTo 10)).2._blocksToAddCurBlock = 2
    ∧ (stop (moveTo mugBotCollaborators (initial 2 2) (moveXTo 10)).2)._motionPipeline.count = 0
    ∧ (stop (moveTo mugBotCollaborators (initial 2 2) (moveXTo 10)).2)._isPaused = false
    ∧ (drainCalls mugBotCollaborators [0]
        (stop (moveTo mugBotCollaborators (initial 2 2) (moveXTo 10)).2))._motionPipeline.count = 2
    ∧ (drainCalls mugBotCollaborators [0]
        (stop (moveTo mugBotCollaborators (initial 2 2) (moveXTo 10)).2))._motionPipeline.blocks.map
          (fun b => b.endActuator)
        = [⟨60, 0, 0⟩, ⟨80, 0, 0⟩] := by
  decide!

end MotionHelper

end StopAndDrain

section DrainTermination

variable {K : Type} [LinearOrderedField K]

namespace MotionHelper

/-- One iteration of the drain loop makes exactly one planner submission. -/
theorem blocksToAddStep_submits_one (env : Collaborators K) (t : MotionHelper K) :
    (blocksToAddStep env t).submittedToPlanner.length = t.submittedToPlanner.length + 1 := by
  rw [blocksToAddStep_eq, (addToPlanner_frame env _ _).2.2.2.2.2.2.2.2]
  simp

/-- The drain loop under any bound of more than `total - current` iterations:
at most `total - current` submissions, it ends with no split in progress or with a
pipeline that cannot accept, and the split record stays well formed. -/
theorem blocksToAddLoop_bounded (env : Collaborators K) :
    ∀ (n : Nat) (t : MotionHelper K),
      (0 < t._blocksToAddTotal → t._blocksToAddCurBlock < t._blocksToAddTotal) →
      (t._blocksToAddTotal - t._blocksToAddCurBlock).toNat + 1 ≤ n →
      (blocksToAddLoop env n t).submittedToPlanner.length
          ≤ t.submittedToPlanner.length + (t._blocksToAddTotal - t._blocksToAddCurBlock).toNat
        ∧ ((blocksToAddLoop env n t)._blocksToAddTotal ≤ 0
            ∨ (blocksToAddLoop env n t)._motionPipeline.canAccept = false)
        ∧ (0 < (blocksToAddLoop env n t)._blocksToAddTotal →
            (blocksToAddLoop env n t)._blocksToAddCurBlock
              < (blocksToAddLoop env n t)._blocksToAddTotal) := by
  intro n
  induction n with
  | zero => intro t _ hn; omega
  | succ k ih =>
    intro t hwf hn
    unfold blocksToAddLoop
    split_ifs with hacc htot
    · exact ⟨Nat.le_add_right _ _, Or.inl htot, hwf⟩
    · have hpos : 0 < t._blocksToAddTotal := not_le.mp htot
      have hlt := hwf hpos
      obtain ⟨hc, ht⟩ := blocksToAddStep_counters env t
      have hlen := blocksToAddStep_submits_one env t
      by_cases hlast : t._blocksToAddCurBlock + 1 ≥ t._blocksToAddTotal
      · rw [if_pos hlast] at ht
        rw [blocksToAddLoop_idle env k _ (le_of_eq ht)]
        refine ⟨?_, Or.inl (le_of_eq ht), ?_⟩
        · rw [hlen]; omega
        · intro h; rw [ht] at h; exact absurd h (lt_irrefl _)
      · rw [if_neg hlast] at ht
        have hwf2 : 0 < (blocksToAddStep env t)._blocksToAddTotal →
            (blocksToAddStep env t)._blocksToAddCurBlock
              < (blocksToAddStep env t)._blocksToAddTotal := by
          intro _; rw [hc, ht]; omega
        have hfuel : ((blocksToAddStep env t)._blocksToAddTotal
            - (blocksToAddStep env t)._blocksToAddCurBlock).toNat + 1 ≤ k := by
          rw [hc, ht]; omega
        obtain ⟨h1, h2, h3⟩ := ih (blocksToAddStep env t) hwf2 hfuel
        refine ⟨?_, h2, h3⟩
        rw [hlen, hc, ht] at h1
        omega
    · exact ⟨Nat.le_add_right _ _, Or.inr (by simpa using hacc), hwf⟩

/-- C23: `blocksToAddProcess` terminates: the loop ends by its own conditions under
every iteration bound of at least `total - current + 2`, with the same state.  On a
split record whose index is below its total, one call makes at most
`total - current` planner submissions; every iteration increases the sub-block
index by one, whatever the transform or the planner answers; on return either no
split is in progress or the pipeline cannot accept a block, and the index is still
below the total when a split remains in progress. -/
theorem blocksToAddProcess_terminates_bounded (env : Collaborators K) (s : MotionHelper K)
    (hwf : 0 < s._blocksToAddTotal → s._blocksToAddCurBlock < s._blocksToAddTotal) :
    (∀ n : Nat, (s._blocksToAddTotal - s._blocksToAddCurBlock).toNat + 2 ≤ n →
        blocksToAddLoop env n s = blocksToAddProcess env s)
    ∧ (blocksToAddProcess env s).submittedToPlanner.length
        ≤ s.submittedToPlanner.length + (s._blocksToAddTotal - s._blocksToAddCurBlock).toNat
    ∧ (∀ t : MotionHelper K,
        (blocksToAddStep env t)._blocksToAddCurBlock = t._blocksToAddCurBlock + 1
        ∧ (blocksToAddStep env t).submittedToPlanner.length = t.submittedToPlanner.length + 1)
    ∧ ((blocksToAddProcess env s)._blocksToAddTotal ≤ 0
        ∨ (blocksToAddProcess env s)._motionPipeline.canAccept = false)
    ∧ (0 < (blocksToAddProcess env s)._blocksToAddTotal →
        (blocksToAddProcess env s)._blocksToAddCurBlock
          < (blocksToAddProcess env s)._blocksToAddTotal) := by
  have hb := blocksToAddLoop_bounded env (blocksToAddFuel s) s hwf
    (by unfold blocksToAddFuel; omega)
  refine ⟨fun n hn => (blocksToAddProcess_eq_loop env s n hn).symm, hb.1,
    fun t => ⟨(blocksToAddStep_counters env t).1, blocksToAddStep_submits_one env t⟩,
    hb.2.1, hb.2.2⟩

open Scenario in
/-- Claim C23 on the MugBot machine with a pipeline of 2 blocks, for the split
record of the move to X = 10 in 5 sub-blocks: the first drain call makes at most 5
submissions and returns. -/
theorem blocksToAddProcess_terminates_bounded_witness :
    (blocksToAddProcess mugBotCollaborators
        (moveToSetup mugBotCollaborators (initial 2 2) (moveXTo 10))).submittedToPlanner.length
      ≤ 0 + 5
    ∧ (blocksToAddProcess mugBotCollaborators
        (moveToSetup mugBotCollaborators (initial 2 2) (moveXTo 10)))._motionPipeline.canAccept
      = false :=
  ⟨(blocksToAddProcess_terminates_bounded mugBotCollaborators
      (moveToSetup mugBotCollaborators (initial 2 2) (moveXTo 10)) (by decide!)).2.1.trans
      (by decide!),
    by decide!⟩

end MotionHelper

end DrainTermination

section RotationRoundTrip

variable {K : Type} [LinearOrderedField K] [FloorRing K]

namespace RobotSandTableScara

/-- `wrapDegrees` is the identity on `[0, 360)`. -/
theorem wrapDegrees_of_mem (x : K) (h0 : 0 ≤ x) (h1 : x < 360) : wrapDegrees x = x := by
  have hf : ⌊x / 360⌋ = 0 := by
    rw [Int.floor_eq_iff]
    constructor
    · simp only [Int.cast_zero]; positivity
    · simp only [Int.cast_zero, zero_add]
      rw [div_lt_one (by norm_num)]
      exact h1
  unfold wrapDegrees
  rw [hf]
  simp

/-- `wrapDegrees` has period 360. -/
theorem wrapDegrees_add_turns (x : K) (k : Int) :
    wrapDegrees (x + 360 * (k : K)) = wrapDegrees x := by
  have hf : ⌊(x + 360 * (k : K)) / 360⌋ = ⌊x / 360⌋ + k := by
    have : (x + 360 * (k : K)) / 360 = x / 360 + (k : K) := by field_simp; ring
    rw [this, Int.floor_add_int]
  unfold wrapDegrees
  rw [hf]
  push_cast
  ring

/-- The round trip through `rotationToActuator` and `actuatorToRotation` in exact
arithmetic, as long as the `int32_t` products fit: for angles alpha and beta in
`[0, 360)` whose step targets are the whole numbers `n0` and `n1`, positive steps
per rotation, and `n0 * 360`, `n1 * 360` within `[-2^31, 2^31)`, the angles come
back. -/
theorem actuatorToRotation_rotationToActuator_fits (axesParams : AxesParams K) (alpha beta : K)
    (actuatorCoords : AxisFloats K) (n0 n1 : Int)
    (hS0 : 0 < axesParams.getStepsPerRot 0) (hS1 : 0 < axesParams.getStepsPerRot 1)
    (ha0 : 0 ≤ alpha) (ha1 : alpha < 360) (hb0 : 0 ≤ beta) (hb1 : beta < 360)
    (h0 : (rotationToActuator alpha beta actuatorCoords axesParams).p0 = (n0 : K))
    (h1 : (rotationToActuator alpha beta actuatorCoords axesParams).p1 = (n1 : K))
    (hf0 : -2147483648 ≤ n0 * 360 ∧ n0 * 360 < 2147483648)
    (hf1 : -2147483648 ≤ n1 * 360 ∧ n1 * 360 < 2147483648) :
    actuatorToRotation
        ⟨toInt32 (rotationToActuator alpha beta actuatorCoords axesParams).p0,
          toInt32 (rotationToActuator alpha beta actuatorCoords axesParams).p1,
          toInt32 (rotationToActuator alpha beta actuatorCoords axesParams).p2⟩ axesParams
      = ⟨alpha, beta, 0⟩ := by
  rw [h0, h1, toInt32_intCast, toInt32_intCast]
  have e0 : (n0 : K) = alpha * axesParams.getStepsPerRot 0 / 360 := h0.symm
  have e1 : (n1 : K) = axesParams.getStepsPerRot 1
      - wrapDegrees (beta - 180) * axesParams.getStepsPerRot 1 / 360 := h1.symm
  have hS0' : axesParams.getStepsPerRot 0 ≠ 0 := ne_of_gt hS0
  have hS1' : axesParams.getStepsPerRot 1 ≠ 0 := ne_of_gt hS1
  unfold actuatorToRotation
  simp only [AxisInt32s.getVal]
  rw [wrapInt32_of_fits hf0.1 hf0.2, wrapInt32_of_fits hf1.1 hf1.2]
  have hA : ((n0 * 360 : Int) : K) / axesParams.getStepsPerRot 0 = alpha := by
    push_cast
    rw [e0]
    field_simp
  have hB : 540 - ((n1 * 360 : Int) : K) / axesParams.getStepsPerRot 1
      = beta + 360 * (((-⌊(beta - 180) / 360⌋ : Int)) : K) := by
    push_cast
    rw [e1]
    unfold wrapDegrees
    field_simp
    ring
  rw [hA, hB, wrapDegrees_add_turns, wrapDegrees_of_mem alpha ha0 ha1,
    wrapDegrees_of_mem beta hb0 hb1]

end RobotSandTableScara

end RotationRoundTrip

namespace RobotSandTableScara

open Scenario in
/-- Claim C24 fails when the `int32_t` product `steps * 360` overflows.  With
6000000 steps per rotation, alpha = 359.7 and beta = 179.7 degrees have the whole
step targets 5995000 and 5000.  The product `5995000 * 360 = 2158200000` exceeds
`2^31 - 1` and wraps to `-2136767296`, so `actuatorToRotation` returns
`363011 / 93750` (about 3.87) degrees for alpha; beta, whose product fits, comes
back as 179.7.  With 4000 steps per rotation, alpha = 90 and beta = 45 (step
targets 1000 and 1500) come back. -/
theorem actuatorToRotation_int32_product_overflows :
    0 < fineAxes.getStepsPerRot 0 ∧ 0 < fineAxes.getStepsPerRot 1
    ∧ rotationToActuator (3597 / 10 : ℚ) (1797 / 10) AxisFloats.zero fineAxes
        = ⟨5995000, 5000, 0⟩
    ∧ wrapInt32 (5995000 * 360) = -2136767296
    ∧ actuatorToRotation
        ⟨toInt32 (rotationToActuator (3597 / 10 : ℚ) (1797 / 10) AxisFloats.zero fineAxes).p0,
          toInt32 (rotationToActuator (3597 / 10 : ℚ) (1797 / 10) AxisFloats.zero fineAxes).p1,
          toInt32 (rotationToActuator (3597 / 10 : ℚ) (1797 / 10) AxisFloats.zero fineAxes).p2⟩
        fineAxes
      = ⟨363011 / 93750, 1797 / 10, 0⟩
    ∧ (363011 / 93750 : ℚ) ≠ 3597 / 10
    ∧ actuatorToRotation
        ⟨toInt32 (rotationToActuator (90 : ℚ) 45 AxisFloats.zero sandTableAxes).p0,
          toInt32 (rotationToActuator (90 : ℚ) 45 AxisFloats.zero sandTableAxes).p1,
          toInt32 (rotationToActuator (90 : ℚ) 45 AxisFloats.zero sandTableAxes).p2⟩ sandTableAxes
      = ⟨90, 45, 0⟩ := by
  decide!

end RobotSandTableScara

section SplitFlags

variable {K : Type} [LinearOrderedField K] [FloorRing K]

open Scenario

namespace MotionHelper

omit [FloorRing K] in
/-- The more-moves-coming flag and the counters of one iteration of the drain loop:
the submitted flag tells whether the sub-block is not the last. -/
theorem blocksToAddStep_flag (env : Collaborators K) (t : MotionHelper K) :
    (blocksToAddStep env t).submittedToPlanner.map (fun a => a.moreMovesComing)
      = t.submittedToPlanner.map (fun a => a.moreMovesComing)
        ++ [((if t._blocksToAddCurBlock + 1 ≥ t._blocksToAddTotal then 0
              else t._blocksToAddTotal) != 0)] := by
  rw [blocksToAddStep_eq, (addToPlanner_frame env _ _).2.2.2.2.2.2.2.2]
  simp

omit [FloorRing K] in
/-- The flags submitted for a split of `N` sub-blocks after any run of drain calls:
while the split is in progress, `c < N` sub-blocks have gone out, all flagged; when
it is complete, `N - 1` flagged ones and an unflagged one. -/
theorem drainCalls_flags (env : Collaborators K) (t0 : MotionHelper K) (N : Nat)
    (hN : t0._blocksToAddTotal = (N : Int)) (hN1 : 1 ≤ N) (hcur : t0._blocksToAddCurBlock = 0)
    (retired : List Nat) :
    ((drainCalls env retired t0)._blocksToAddTotal = (N : Int) ∧
      ∃ c : Nat, c < N ∧ (drainCalls env retired t0)._blocksToAddCurBlock = (c : Int) ∧
        (drainCalls env retired t0).submittedToPlanner.map (fun a => a.moreMovesComing)
          = t0.submittedToPlanner.map (fun a => a.moreMovesComing) ++ List.replicate c true) ∨
    ((drainCalls env retired t0)._blocksToAddTotal = 0 ∧
      (drainCalls env retired t0).submittedToPlanner.map (fun a => a.moreMovesComing)
        = t0.submittedToPlanner.map (fun a => a.moreMovesComing)
          ++ (List.replicate (N - 1) true ++ [false])) := by
  apply drainCalls_induct env
    (fun t =>
      (t._blocksToAddTotal = (N : Int) ∧
        ∃ c : Nat, c < N ∧ t._blocksToAddCurBlock = (c : Int) ∧
          t.submittedToPlanner.map (fun a => a.moreMovesComing)
            = t0.submittedToPlanner.map (fun a => a.moreMovesComing) ++ List.replicate c true) ∨
      (t._blocksToAddTotal = 0 ∧
        t.submittedToPlanner.map (fun a => a.moreMovesComing)
          = t0.submittedToPlanner.map (fun a => a.moreMovesComing)
            ++ (List.replicate (N - 1) true ++ [false])))
  · intro t n ht; exact ht
  · intro t ht _ hpos
    rcases ht with ⟨htot, c, hcN, hc, hlog⟩ | ⟨h0, _⟩
    swap
    · omega
    obtain ⟨hc', ht'⟩ := blocksToAddStep_counters env t
    have hf := blocksToAddStep_flag env t
    by_cases hlast : t._blocksToAddCurBlock + 1 ≥ t._blocksToAddTotal
    · right
      rw [if_pos hlast] at ht' hf
      refine ⟨ht', ?_⟩
      have hcN1 : c = N - 1 := by rw [htot, hc] at hlast; omega
      rw [hf, hlog, hcN1, List.append_assoc]
      rfl
    · left
      rw [if_neg hlast] at ht' hf
      refine ⟨ht'.trans htot, c + 1, ?_, ?_, ?_⟩
      · rw [htot, hc] at hlast; omega
      · rw [hc', hc]; push_cast; rfl
      · have hne : (t._blocksToAddTotal != 0) = true := by
          simp only [bne_iff_ne, ne_eq]; omega
        rw [hf, hlog, hne, List.append_assoc, List.replicate_succ']
  · left
    exact ⟨hN, 0, by omega, hcur, by simp⟩

omit [LinearOrderedField K] [FloorRing K] in
/-- The flag list of the specification has one entry for each sub-block. -/
theorem specMoreMovesFlags_length (N : Nat) (hN1 : 1 ≤ N) : (specMoreMovesFlags N).length = N := by
  unfold specMoreMovesFlags
  simp
  omega

/-- C26: for a move split into `N ≥ 1` sub-blocks and any pattern of drain calls,
whatever more-moves-coming value the command of the caller carries, the flags of
the sub-blocks handed to the planner are, in order, the first `c` of: set on each
of the first `N - 1` sub-blocks, cleared on the last (the only one when `N = 1`),
for some `c ≤ N`; and they are all of them exactly when the split is complete. -/
theorem drainCalls_submit_spec_flags (env : Collaborators K) (s : MotionHelper K)
    (args : RobotCommandArgs K) (retired : List Nat)
    (hstep : args.isStepwise = false)
    (hN : 1 ≤ (moveToSetup env s args)._blocksToAddTotal) :
    (∃ c : Nat, c ≤ ((moveToSetup env s args)._blocksToAddTotal).toNat ∧
      ((drainCalls env retired (moveTo env s args).2).submittedToPlanner.drop
          s.submittedToPlanner.length).map (fun a => a.moreMovesComing)
        = (specMoreMovesFlags ((moveToSetup env s args)._blocksToAddTotal).toNat).take c) ∧
    ((drainCalls env retired (moveTo env s args).2)._blocksToAddTotal = 0 ↔
      ((drainCalls env retired (moveTo env s args).2).submittedToPlanner.drop
          s.submittedToPlanner.length).map (fun a => a.moreMovesComing)
        = specMoreMovesFlags ((moveToSetup env s args)._blocksToAddTotal).toNat) := by
  rw [moveTo_eq_setup_then_drain env s args hstep]
  simp only
  rw [drainCalls_after_process]
  obtain ⟨N, hNat⟩ : ∃ N : Nat, (moveToSetup env s args)._blocksToAddTotal = (N : Int) :=
    ⟨((moveToSetup env s args)._blocksToAddTotal).toNat, by omega⟩
  have hN1 : 1 ≤ N := by omega
  have hlen : s.submittedToPlanner.length
      = ((moveToSetup env s args).submittedToPlanner.map (fun a => a.moreMovesComing)).length := by
    simp [moveToSetup]
  have hspeclen := specMoreMovesFlags_length N hN1
  rw [hNat, Int.toNat_ofNat]
  rcases drainCalls_flags env (moveToSetup env s args) N hNat hN1 rfl (0 :: retired) with
    ⟨htot, c, hcN, _, hlog⟩ | ⟨htot, hlog⟩
  · have hW : ((drainCalls env (0 :: retired) (moveToSetup env s args)).submittedToPlanner.drop
          s.submittedToPlanner.length).map (fun a => a.moreMovesComing)
        = (specMoreMovesFlags N).take c := by
      rw [List.map_drop, hlog, hlen, List.drop_left]
      unfold specMoreMovesFlags
      rw [List.take_append_of_le_length (by simp; omega), List.take_replicate,
        min_eq_left (by omega)]
    refine ⟨⟨c, le_of_lt hcN, hW⟩, ?_⟩
    constructor
    · intro h0; omega
    · intro hfull
      have := congrArg List.length (hW.symm.trans hfull)
      rw [List.length_take, hspeclen] at this
      omega
  · have hW : ((drainCalls env (0 :: retired) (moveToSetup env s args)).submittedToPlanner.drop
          s.submittedToPlanner.length).map (fun a => a.moreMovesComing)
        = specMoreMovesFlags N := by
      rw [List.map_drop, hlog, hlen, List.drop_left]
      rfl
    refine ⟨⟨N, le_refl _, ?_⟩, ?_⟩
    · rw [hW, List.take_of_length_le (le_of_eq hspeclen)]
    · exact ⟨fun _ => hW, fun _ => htot⟩

/-- Claim C26 at a move split into 5 sub-blocks whose command arrives with
more-moves-coming cleared, drained over four calls through a pipeline of two
blocks: the flags are set on the first four sub-blocks and cleared on the fifth. -/
theorem drainCalls_submit_spec_flags_witness :
    ((drainCalls mugBotCollaborators [1, 0, 2]
          (moveTo mugBotCollaborators (initial 2 2) (moveXTo 10)).2).submittedToPlanner.drop
        (initial 2 2).submittedToPlanner.length).map (fun a => a.moreMovesComing)
      = [true, true, true, true, false] :=
  ((drainCalls_submit_spec_flags mugBotCollaborators (initial 2 2) (moveXTo 10) [1, 0, 2] rfl
    (by decide!)).2.mp (by decide!)).trans (by decide!)

end MotionHelper

end SplitFlags

namespace RobotSandTableScara

/-- `cosineRule` is `acos` of the clamped quotient. -/
theorem cosineRule_eq_arccos (a b c : ℝ) : cosineRule a b c = Real.arccos (cosineRuleArg a b c) :=
  rfl

/-- The value `cosineRule` hands to `acos` lies in `[-1, 1]`, whatever the sides. -/
theorem cosineRuleArg_mem (a b c : ℝ) : -1 ≤ cosineRuleArg a b c ∧ cosineRuleArg a b c ≤ 1 := by
  unfold cosineRuleArg
  simp only
  split_ifs <;> constructor <;> linarith

/-- Off the near-centre case the distance from the origin to the target is at
least one half. -/
theorem thirdSide_ge_half (x y : ℝ)
    (hfar : (isApprox x 0 (1 / 2) && isApprox y 0 (1 / 2)) = false) :
    1 / 2 ≤ Real.sqrt (x ^ 2 + y ^ 2) := by
  have h : ¬ (|x| < 1 / 2 ∧ |y| < 1 / 2) := by
    intro hh
    simp [isApprox] at hfar
    have h1 : |x| < 2⁻¹ := by simpa using hh.1
    have h2 : |y| < 2⁻¹ := by simpa using hh.2
    exact absurd (hfar h1) (not_le.mpr h2)
  have hsq : (1 / 2 : ℝ) ^ 2 ≤ x ^ 2 + y ^ 2 := by
    by_cases hx : |x| < 1 / 2
    · have hy : 1 / 2 ≤ |y| := not_lt.mp (fun hy => h ⟨hx, hy⟩)
      have : (1 / 2 : ℝ) ^ 2 ≤ |y| ^ 2 := pow_le_pow_left₀ (by norm_num) hy 2
      rw [sq_abs] at this
      nlinarith [sq_nonneg x]
    · have hx' : 1 / 2 ≤ |x| := not_lt.mp hx
      have : (1 / 2 : ℝ) ^ 2 ≤ |x| ^ 2 := pow_le_pow_left₀ (by norm_num) hx' 2
      rw [sq_abs] at this
      nlinarith [sq_nonneg y]
  exact Real.le_sqrt_of_sq_le hsq

/-- C27: on the normal (non-near-centre) path of `cartesianToActuator`, with
positive arm lengths, the distance to the target is at least 0.5; the divisor
`2 a b` of either `cosineRule` call is non-zero; the value either call hands to
`acos` lies in `[-1, 1]`, so both angles lie in `[0, π]`; and the function returns
the two-candidate result with rotation type normal or out of bounds, for every
target, reachable or not. -/
theorem cartesianToActuator_cosineRule_defined (targetPt : AxisFloats ℝ)
    (curAxisPositions : AxisPosition ℝ) (outActuator : AxisFloats ℝ) (axesParams : AxesParams ℝ)
    (hfar : (isApprox targetPt.p0 0 (1 / 2) && isApprox targetPt.p1 0 (1 / 2)) = false)
    (hL0 : 0 < axesParams.getunitsPerRot 0 / Real.pi / 2)
    (hL1 : 0 < axesParams.getunitsPerRot 1 / Real.pi / 2) :
    1 / 2 ≤ Real.sqrt (targetPt.p0 ^ 2 + targetPt.p1 ^ 2)
    ∧ 2 * Real.sqrt (targetPt.p0 ^ 2 + targetPt.p1 ^ 2)
        * (axesParams.getunitsPerRot 0 / Real.pi / 2) ≠ 0
    ∧ 2 * (axesParams.getunitsPerRot 0 / Real.pi / 2)
        * (axesParams.getunitsPerRot 1 / Real.pi / 2) ≠ 0
    ∧ (-1 ≤ cosineRuleArg (Real.sqrt (targetPt.p0 ^ 2 + targetPt.p1 ^ 2))
          (axesParams.getunitsPerRot 0 / Real.pi / 2) (axesParams.getunitsPerRot 1 / Real.pi / 2)
        ∧ cosineRuleArg (Real.sqrt (targetPt.p0 ^ 2 + targetPt.p1 ^ 2))
          (axesParams.getunitsPerRot 0 / Real.pi / 2) (axesParams.getunitsPerRot 1 / Real.pi / 2)
          ≤ 1)
    ∧ (-1 ≤ cosineRuleArg (axesParams.getunitsPerRot 0 / Real.pi / 2)
          (axesParams.getunitsPerRot 1 / Real.pi / 2)
          (Real.sqrt (targetPt.p0 ^ 2 + targetPt.p1 ^ 2))
        ∧ cosineRuleArg (axesParams.getunitsPerRot 0 / Real.pi / 2)
          (axesParams.getunitsPerRot 1 / Real.pi / 2)
          (Real.sqrt (targetPt.p0 ^ 2 + targetPt.p1 ^ 2)) ≤ 1)
    ∧ (0 ≤ cosineRule (Real.sqrt (targetPt.p0 ^ 2 + targetPt.p1 ^ 2))
          (axesParams.getunitsPerRot 0 / Real.pi / 2) (axesParams.getunitsPerRot 1 / Real.pi / 2)
        ∧ cosineRule (Real.sqrt (targetPt.p0 ^ 2 + targetPt.p1 ^ 2))
          (axesParams.getunitsPerRot 0 / Real.pi / 2) (axesParams.getunitsPerRot 1 / Real.pi / 2)
          ≤ Real.pi)
    ∧ (0 ≤ cosineRule (axesParams.getunitsPerRot 0 / Real.pi / 2)
          (axesParams.getunitsPerRot 1 / Real.pi / 2)
          (Real.sqrt (targetPt.p0 ^ 2 + targetPt.p1 ^ 2))
        ∧ cosineRule (axesParams.getunitsPerRot 0 / Real.pi / 2)
          (axesParams.getunitsPerRot 1 / Real.pi / 2)
          (Real.sqrt (targetPt.p0 ^ 2 + targetPt.p1 ^ 2)) ≤ Real.pi)
    ∧ (cartesianToActuator targetPt curAxisPositions outActuator axesParams).1
        ≠ ROTATION_TYPE.ROTATION_IS_NEAR_CENTRE := by
  have hthird := thirdSide_ge_half targetPt.p0 targetPt.p1 hfar
  have hpos : 0 < Real.sqrt (targetPt.p0 ^ 2 + targetPt.p1 ^ 2) := by linarith
  refine ⟨hthird, ?_, ?_, cosineRuleArg_mem _ _ _, cosineRuleArg_mem _ _ _, ?_, ?_, ?_⟩
  · exact ne_of_gt (by positivity)
  · exact ne_of_gt (by positivity)
  · rw [cosineRule_eq_arccos]; exact ⟨Real.arccos_nonneg _, Real.arccos_le_pi _⟩
  · rw [cosineRule_eq_arccos]; exact ⟨Real.arccos_nonneg _, Real.arccos_le_pi _⟩
  · rw [cartesianToActuator_normal targetPt curAxisPositions outActuator axesParams hfar]
    simp only
    split_ifs <;> simp

open Scenario in
/-- Claim C27 on the sand table with arms of length 100, at the unreachable target
`(300, 400)`, 500 from the centre. -/
theorem cartesianToActuator_cosineRule_defined_witness :
    (-1 ≤ cosineRuleArg (Real.sqrt ((300 : ℝ) ^ 2 + (400 : ℝ) ^ 2))
          (sandTableArms.getunitsPerRot 0 / Real.pi / 2)
          (sandTableArms.getunitsPerRot 1 / Real.pi / 2)
        ∧ cosineRuleArg (Real.sqrt ((300 : ℝ) ^ 2 + (400 : ℝ) ^ 2))
          (sandTableArms.getunitsPerRot 0 / Real.pi / 2)
          (sandTableArms.getunitsPerRot 1 / Real.pi / 2) ≤ 1)
    ∧ (cartesianToActuator ⟨300, 400, 0⟩ ⟨AxisFloats.zero, AxisInt32s.zero⟩ AxisFloats.zero
        sandTableArms).1 ≠ ROTATION_TYPE.ROTATION_IS_NEAR_CENTRE :=
  have h := cartesianToActuator_cosineRule_defined ⟨300, 400, 0⟩
    ⟨AxisFloats.zero, AxisInt32s.zero⟩ AxisFloats.zero sandTableArms
    (by simp [isApprox]; intro _; norm_num)
    (by
      have : sandTableArms.getunitsPerRot 0 = 200 * Real.pi := rfl
      rw [this]; positivity)
    (by
      have : sandTableArms.getunitsPerRot 1 = 200 * Real.pi := rfl
      rw [this]; positivity)
  ⟨h.2.2.2.1, h.2.2.2.2.2.2.2⟩

end RobotSandTableScara

namespace EvaluatorGCode

/-- A character is determined by its code. -/
theorem char_eq_of_toNat {a b : Char} (h : a.toNat = b.toNat) : a = b := by
  apply Char.ext
  apply UInt32.ext
  exact h

/-- `toupper` gives `G` on `G` and `g` only. -/
theorem toupper_eq_G (c : Char) : toupper c = 'G' ↔ (c = 'G' ∨ c = 'g') := by
  unfold toupper
  split_ifs with h
  · obtain ⟨n, hn⟩ : ∃ n, c.toNat = n := ⟨_, rfl⟩
    have hc : c = Char.ofNat n := by rw [← hn, Char.ofNat_toNat]
    rw [hn] at h ⊢
    obtain ⟨h1, h2⟩ := h
    subst hc
    interval_cases n <;> decide
  · constructor
    · intro hc; exact Or.inl hc
    · rintro (hc | hc)
      · exact hc
      · exfalso; apply h; rw [hc]; decide

/-- `toupper` gives `M` on `M` and `m` only. -/
theorem toupper_eq_M (c : Char) : toupper c = 'M' ↔ (c = 'M' ∨ c = 'm') := by
  unfold toupper
  split_ifs with h
  · obtain ⟨n, hn⟩ : ∃ n, c.toNat = n := ⟨_, rfl⟩
    have hc : c = Char.ofNat n := by rw [← hn, Char.ofNat_toNat]
    rw [hn] at h ⊢
    obtain ⟨h1, h2⟩ := h
    subst hc
    interval_cases n <;> decide
  · constructor
    · intro hc; exact Or.inl hc
    · rintro (hc | hc)
      · exact hc
      · exfalso; apply h; rw [hc]; decide

/-- The digit loop of `strtol` computes the base-ten value of the leading digits. -/
theorem strtolDigits_eq (s : List Char) : ∀ acc : Nat,
    strtolDigits acc s
      = acc * 10 ^ (s.takeWhile isdigit).length + specDecimalNumber s := by
  induction s with
  | nil => intro acc; simp [strtolDigits, specDecimalNumber]
  | cons c cs ih =>
    intro acc
    unfold strtolDigits
    by_cases hd : isdigit c = true
    · rw [if_pos hd, ih]
      unfold specDecimalNumber
      rw [List.takeWhile_cons_of_pos hd]
      simp only [List.map_cons, List.reverse_cons, List.length_cons, Nat.ofDigits_append,
        List.length_reverse, List.length_map, Nat.ofDigits_singleton]
      ring
    · rw [if_neg hd]
      unfold specDecimalNumber
      rw [List.takeWhile_cons_of_neg hd]
      simp

/-- On a text that starts with a digit `strtol` returns the decimal number the text
starts with, clamped to `LONG_MAX`. -/
theorem strtol_of_digit (c : Char) (rest : List Char) (hd : isdigit c = true) :
    strtol (c :: rest)
      = if ((specDecimalNumber (c :: rest) : Nat) : Int) > LONG_MAX then LONG_MAX
        else ((specDecimalNumber (c :: rest) : Nat) : Int) := by
  have hrange : 48 ≤ c.toNat ∧ c.toNat ≤ 57 := by simpa [isdigit] using hd
  have hsp : isspace c = false := by
    simp only [isspace, decide_eq_false_iff_not]
    omega
  have hm : c ≠ '-' := by
    intro h; rw [h] at hrange; revert hrange; decide
  have hp : c ≠ '+' := by
    intro h; rw [h] at hrange; revert hrange; decide
  unfold strtol
  have hdw : List.dropWhile isspace (c :: rest) = c :: rest := by
    rw [List.dropWhile_cons_of_neg (by simp [hsp])]
  simp only [hdw, if_neg hm, if_neg hp, Bool.false_eq_true, if_false]
  rw [strtolDigits_eq]
  simp only [zero_mul, zero_add]
  split_ifs with h1 h2
  · rfl
  · exfalso
    have : (0 : Int) ≤ ((specDecimalNumber (c :: rest) : Nat) : Int) := Int.natCast_nonneg _
    unfold LONG_MIN at h2
    omega
  · rfl

/-- The command number `strtol` returns is one of the six handled ones exactly when
the decimal number in the text is. -/
theorem strtol_handled_iff (c : Char) (rest : List Char) (hd : isdigit c = true) :
    (strtol (c :: rest) = 0 ∨ strtol (c :: rest) = 1 ∨ strtol (c :: rest) = 28 ∨
      strtol (c :: rest) = 90 ∨ strtol (c :: rest) = 91 ∨ strtol (c :: rest) = 92)
      ↔ specDecimalNumber (c :: rest) ∈ [0, 1, 28, 90, 91, 92] := by
  rw [strtol_of_digit c rest hd]
  simp only [List.mem_cons, List.mem_singleton, List.not_mem_nil, or_false]
  unfold LONG_MAX
  split_ifs with h <;> omega

/-- The result of `interpG` and its independence of `takeAction`. -/
theorem interpG_result {A : Type} (ops : GcodeArgOps A) (cmdStr : List Char) (takeAction : Bool) :
    (interpG ops cmdStr takeAction).1
      = ((getCmdNumber cmdStr 0).1 &&
          decide ((getCmdNumber cmdStr 0).2 = 0 ∨ (getCmdNumber cmdStr 0).2 = 1 ∨
            (getCmdNumber cmdStr 0).2 = 28 ∨ (getCmdNumber cmdStr 0).2 = 90 ∨
            (getCmdNumber cmdStr 0).2 = 91 ∨ (getCmdNumber cmdStr 0).2 = 92)) := by
  unfold interpG
  simp only
  by_cases hr : (getCmdNumber cmdStr 0).1 = true
  · simp only [hr, Bool.not_true, Bool.false_eq_true, if_false, Bool.true_and]
    generalize (getCmdNumber cmdStr 0).2 = n
    by_cases h1 : n = 0 ∨ n = 1
    · rw [if_pos h1]; exact (decide_eq_true (by omega)).symm
    rw [if_neg h1]
    by_cases h2 : n = 28
    · rw [if_pos h2]; exact (decide_eq_true (by omega)).symm
    rw [if_neg h2]
    by_cases h3 : n = 90
    · rw [if_pos h3]; exact (decide_eq_true (by omega)).symm
    rw [if_neg h3]
    by_cases h4 : n = 91
    · rw [if_pos h4]; exact (decide_eq_true (by omega)).symm
    rw [if_neg h4]
    by_cases h5 : n = 92
    · rw [if_pos h5]; exact (decide_eq_true (by omega)).symm
    rw [if_neg h5]
    exact (decide_eq_false (by omega)).symm
  · simp [hr]

/-- Without `takeAction`, `interpG` makes no call on the robot controller. -/
theorem interpG_no_action {A : Type} (ops : GcodeArgOps A) (cmdStr : List Char) :
    (interpG ops cmdStr false).2 = [] := by
  unfold interpG
  simp only [Bool.false_eq_true, if_false]
  split_ifs <;> rfl

/-- C28: `interpretGcode` returns true exactly when the trimmed command starts with
G or g, its second character is a decimal digit, and the decimal number starting
at the second character is one of 0, 1, 28, 90, 91, 92; a trimmed command that
starts with M or m, or is empty, returns false; the result is the same with and
without `takeAction`, and with `takeAction` false no call is made on the robot
controller. -/
theorem interpretGcode_true_iff {A : Type} (ops : GcodeArgOps A) (workItem : List Char)
    (takeAction : Bool) :
    (interpretGcode ops workItem takeAction).1 = specAccepted workItem
    ∧ (∀ (c : Char) (rest : List Char), trim workItem = c :: rest → (c = 'M' ∨ c = 'm') →
        (interpretGcode ops workItem takeAction).1 = false)
    ∧ (trim workItem = [] → (interpretGcode ops workItem takeAction).1 = false)
    ∧ (interpretGcode ops workItem true).1 = (interpretGcode ops workItem false).1
    ∧ (interpretGcode ops workItem false).2 = [] := by
  have main : ∀ b : Bool, (interpretGcode ops workItem b).1 = specAccepted workItem := by
    intro b
    unfold interpretGcode specAccepted
    simp only
    rcases htrim : trim workItem with _ | ⟨c0, tl⟩
    · rfl
    · simp only
      by_cases hG : toupper c0 = 'G'
      · rw [if_pos hG, interpG_result]
        have hG2 := (toupper_eq_G c0).mp hG
        rcases tl with _ | ⟨c1, rest⟩
        · simp [getCmdNumber]
        · by_cases hd : isdigit c1 = true
          · have hnum : getCmdNumber (c0 :: c1 :: rest) 0 = (true, strtol (c1 :: rest)) := by
              simp [getCmdNumber, hd]
            rw [hnum]
            simp only [Bool.true_and, hd, Bool.and_true, decide_eq_true hG2]
            rw [Bool.eq_iff_iff]
            simp only [decide_eq_true_eq]
            exact strtol_handled_iff c1 rest hd
          · have hnum : (getCmdNumber (c0 :: c1 :: rest) 0).1 = false := by
              simp [getCmdNumber, hd]
            rw [hnum]
            simp [hd]
      · rw [if_neg hG]
        have hG2 : ¬ (c0 = 'G' ∨ c0 = 'g') := fun h => hG ((toupper_eq_G c0).mpr h)
        have hres : (if toupper c0 = 'M' then interpM ops (c0 :: tl) b else (false, [])).1 = false := by
          split_ifs <;> rfl
        rw [hres]
        rcases tl with _ | ⟨c1, rest⟩
        · rfl
        · simp [hG2]
  refine ⟨main takeAction, ?_, ?_, ?_, ?_⟩
  · intro c rest htrim hM
    unfold interpretGcode
    simp only [htrim]
    have hnG : toupper c ≠ 'G' := by
      intro h
      rcases (toupper_eq_G c).mp h with h1 | h1 <;> rcases hM with h2 | h2 <;>
        (rw [h1] at h2; revert h2; decide)
    rw [if_neg hnG]
    split_ifs <;> rfl
  · intro htrim
    unfold interpretGcode
    simp only [htrim]
  · rw [main true, main false]
  · unfold interpretGcode
    simp only
    rcases trim workItem with _ | ⟨c0, tl⟩
    · rfl
    · simp only
      split_ifs
      · exact interpG_no_action ops _
      · rfl
      · rfl

/-- Claim C28 on concrete commands, with an argument scanner that keeps the
argument text: the trimmed command `m5` and the blank command return false, and
`g28 X` with surrounding blanks returns true and calls `goHome` only when
`takeAction` is set. -/
theorem interpretGcode_true_iff_witness :
    (interpretGcode
        (⟨fun a => a, fun a _ => a, fun _ => false, fun a => a, fun a _ => a⟩ :
          GcodeArgOps (List Char))
        [' ', 'm', '5', ' '] true).1 = false
    ∧ (interpretGcode
        (⟨fun a => a, fun a _ => a, fun _ => false, fun a => a, fun a _ => a⟩ :
          GcodeArgOps (List Char))
        [' ', ' '] true).1 = false
    ∧ interpretGcode
        (⟨fun a => a, fun a _ => a, fun _ => false, fun a => a, fun a _ => a⟩ :
          GcodeArgOps (List Char))
        [' ', 'g', '2', '8', ' ', 'X', ' '] true
        = (true, [RobotControllerCall.goHome ['X']])
    ∧ interpretGcode
        (⟨fun a => a, fun a _ => a, fun _ => false, fun a => a, fun a _ => a⟩ :
          GcodeArgOps (List Char))
        [' ', 'g', '2', '8', ' ', 'X', ' '] false
        = (true, []) :=
  ⟨(interpretGcode_true_iff
      (⟨fun a => a, fun a _ => a, fun _ => false, fun a => a, fun a _ => a⟩ :
        GcodeArgOps (List Char))
      [' ', 'm', '5', ' '] true).2.1 'm' ['5'] (by decide) (Or.inr rfl),
    (interpretGcode_true_iff
      (⟨fun a => a, fun a _ => a, fun _ => false, fun a => a, fun a _ => a⟩ :
        GcodeArgOps (List Char))
      [' ', ' '] true).2.2.1 (by decide),
    by decide, by decide⟩

end EvaluatorGCode

namespace WorkManager

/-- The loop of `process` with `cmdIdx = -1` runs every segment up to the first one
that is empty or too long. -/
theorem processLoop_all (alloc : Nat → Bool) (halloc : ∀ n, alloc n = true) :
    ∀ (rest seg : List Char) (curCmdIdx : Int),
      processLoop alloc (-1) curCmdIdx seg rest
        = (List.splitOnP.go (fun x => x == ';') rest seg.reverse).takeWhile
            (fun seg => decide (seg.length ≠ 0 ∧ seg.length ≤ 1000)) := by
  intro rest
  induction rest with
  | nil =>
    intro seg idx
    simp only [processLoop, List.splitOnP.go, List.reverse_reverse, halloc, Bool.not_true,
      Bool.false_eq_true, if_false, true_or, if_true, MAX_TEMP_CMD_STR_LEN]
    by_cases hbad : seg.length = 0 ∨ seg.length > 1000
    · rw [if_pos hbad, List.takeWhile_cons_of_neg]
      simp only [decide_eq_true_eq]; omega
    · rw [if_neg hbad, List.takeWhile_cons_of_pos]
      · rfl
      · simp only [decide_eq_true_eq]; omega
  | cons c rest ih =>
    intro seg idx
    unfold processLoop
    by_cases hc : c = ';'
    · subst hc
      simp only [if_true, List.splitOnP.go, beq_self_eq_true, List.reverse_reverse, halloc,
        Bool.not_true, Bool.false_eq_true, if_false, true_or, MAX_TEMP_CMD_STR_LEN]
      by_cases hbad : seg.length = 0 ∨ seg.length > 1000
      · rw [if_pos hbad, List.takeWhile_cons_of_neg]
        simp only [decide_eq_true_eq]; omega
      · rw [if_neg hbad, List.takeWhile_cons_of_pos]
        · rw [ih [] (idx + 1)]
          rfl
        · simp only [decide_eq_true_eq]; omega
    · have hb : (c == ';') = false := by simpa using hc
      simp only [if_neg hc, List.splitOnP.go, hb, Bool.false_eq_true, if_false]
      rw [ih (seg ++ [c]) idx]
      simp

/-- Once the segment counter has passed a non-negative `cmdIdx`, the loop of
`process` runs nothing more. -/
theorem processLoop_past (alloc : Nat → Bool) (k : Nat) :
    ∀ (rest seg : List Char) (curCmdIdx : Int), (k : Int) < curCmdIdx →
      processLoop alloc (k : Int) curCmdIdx seg rest = [] := by
  intro rest
  induction rest with
  | nil =>
    intro seg idx hlt
    have h1 : ¬ ((k : Int) = -1 ∨ (k : Int) = idx) := by omega
    simp only [processLoop, if_neg h1]
    split_ifs <;> rfl
  | cons c rest ih =>
    intro seg idx hlt
    have h1 : ¬ ((k : Int) = -1 ∨ (k : Int) = idx) := by omega
    unfold processLoop
    simp only [if_neg h1, List.nil_append]
    split_ifs
    · rfl
    · rfl
    · exact ih [] (idx + 1) (by omega)
    · exact ih _ idx hlt

/-- The loop of `process` with `cmdIdx = k ≥ 0` runs the segment that the counter
numbers `k`, if the run reaches it. -/
theorem processLoop_nth (alloc : Nat → Bool) (halloc : ∀ n, alloc n = true) (k : Nat) :
    ∀ (rest seg : List Char) (j : Nat), j ≤ k →
      processLoop alloc (k : Int) (j : Int) seg rest
        = (((List.splitOnP.go (fun x => x == ';') rest seg.reverse).takeWhile
            (fun seg => decide (seg.length ≠ 0 ∧ seg.length ≤ 1000)))[k - j]?).toList := by
  intro rest
  induction rest with
  | nil =>
    intro seg j hj
    simp only [processLoop, List.splitOnP.go, List.reverse_reverse, halloc, Bool.not_true,
      Bool.false_eq_true, if_false, MAX_TEMP_CMD_STR_LEN]
    by_cases hbad : seg.length = 0 ∨ seg.length > 1000
    · rw [if_pos hbad, List.takeWhile_cons_of_neg]
      · rfl
      · simp only [decide_eq_true_eq]; omega
    · rw [if_neg hbad, List.takeWhile_cons_of_pos]
      · by_cases hjk : j = k
        · subst hjk
          simp
        · have h1 : ¬ ((k : Int) = -1 ∨ (k : Int) = (j : Int)) := by omega
          rw [if_neg h1]
          obtain ⟨d, hd⟩ : ∃ d, k - j = d + 1 := ⟨k - j - 1, by omega⟩
          rw [hd]
          simp
      · simp only [decide_eq_true_eq]; omega
  | cons c rest ih =>
    intro seg j hj
    unfold processLoop
    by_cases hc : c = ';'
    · subst hc
      simp only [if_true, List.splitOnP.go, beq_self_eq_true, List.reverse_reverse, halloc,
        Bool.not_true, Bool.false_eq_true, if_false, MAX_TEMP_CMD_STR_LEN]
      by_cases hbad : seg.length = 0 ∨ seg.length > 1000
      · rw [if_pos hbad, List.takeWhile_cons_of_neg]
        · rfl
        · simp only [decide_eq_true_eq]; omega
      · rw [if_neg hbad, List.takeWhile_cons_of_pos]
        · by_cases hjk : j = k
          · subst hjk
            rw [processLoop_past alloc j rest [] ((j : Int) + 1) (by omega)]
            simp
          · have h1 : ¬ ((k : Int) = -1 ∨ (k : Int) = (j : Int)) := by omega
            rw [if_neg h1]
            obtain ⟨d, hd⟩ : ∃ d, k - j = d + 1 := ⟨k - j - 1, by omega⟩
            have ih2 := ih [] (j + 1) (by omega)
            have hd2 : k - (j + 1) = d := by omega
            rw [hd2] at ih2
            push_cast at ih2
            rw [hd, List.nil_append, ih2]
            simp
        · simp only [decide_eq_true_eq]; omega
    · have hb : (c == ';') = false := by simpa using hc
      simp only [if_neg hc, List.splitOnP.go, hb, Bool.false_eq_true, if_false]
      rw [ih (seg ++ [c]) j hj]
      simp

/-- C29: `WorkManager::process` is a structural recursion over the command string,
so it returns on every string.  When every allocation succeeds and the string
contains `;`: with `cmdIdx = -1` it runs `processSingle` on the `;`-separated
segments in order, up to and not including the first segment that is empty or
longer than 1000 characters; with `cmdIdx = k ≥ 0` it runs `processSingle` on
segment number `k` (counted from 0) of those and on nothing else, on nothing at
all when there is no such segment.  A string without `;` is passed whole to
`processSingle`, whatever `cmdIdx`. -/
theorem process_runs_segments (alloc : Nat → Bool) (halloc : ∀ n, alloc n = true)
    (pCmdStr : List Char) :
    (';' ∈ pCmdStr → process alloc pCmdStr (-1) = specSegmentsRun pCmdStr)
    ∧ (';' ∈ pCmdStr → ∀ k : Nat,
        process alloc pCmdStr (k : Int) = ((specSegmentsRun pCmdStr)[k]?).toList)
    ∧ (';' ∉ pCmdStr → ∀ cmdIdx : Int, process alloc pCmdStr cmdIdx = [pCmdStr]) := by
  refine ⟨?_, ?_, ?_⟩
  · intro h
    unfold process specSegmentsRun
    rw [if_neg (not_not.mpr h), processLoop_all alloc halloc]
    rfl
  · intro h k
    unfold process specSegmentsRun
    have := processLoop_nth alloc halloc k pCmdStr [] 0 (Nat.zero_le _)
    rw [if_neg (not_not.mpr h)]
    simpa using this
  · intro h cmdIdx
    unfold process
    rw [if_pos h]

/-- Claim C29 on the string `a;bc;;d`, whose third segment is empty: with
`cmdIdx = -1` the segments `a` and `bc` are run, with `cmdIdx = 1` the segment
`bc` alone, and `ab` without a semicolon is passed whole. -/
theorem process_runs_segments_witness :
    process (fun _ => true) ['a', ';', 'b', 'c', ';', ';', 'd'] (-1) = [['a'], ['b', 'c']]
    ∧ process (fun _ => true) ['a', ';', 'b', 'c', ';', ';', 'd'] 1 = [['b', 'c']]
    ∧ process (fun _ => true) ['a', 'b'] 7 = [['a', 'b']] :=
  ⟨((process_runs_segments (fun _ => true) (fun _ => rfl)
      ['a', ';', 'b', 'c', ';', ';', 'd']).1 (by decide)).trans (by decide),
    ((process_runs_segments (fun _ => true) (fun _ => rfl)
      ['a', ';', 'b', 'c', ';', ';', 'd']).2.1 (by decide) 1).trans (by decide),
    (process_runs_segments (fun _ => true) (fun _ => rfl) ['a', 'b']).2.2 (by decide) 7⟩

end WorkManager

namespace SerialConsole

/-- One `service` call keeps the line within `ABS_MAX_LINE_LEN`. -/
theorem service_length_le (s : SerialConsole) (ch : Int)
    (h : s._curLine.length ≤ ABS_MAX_LINE_LEN) :
    (service s ch)._curLine.length ≤ ABS_MAX_LINE_LEN := by
  unfold service
  simp only [ABS_MAX_LINE_LEN] at h ⊢
  split_ifs <;>
    first
    | omega
    | (simp only [List.length_nil, List.length_dropLast, List.length_append,
        List.length_singleton]
       omega)

/-- Every run of `service` calls keeps the line within `ABS_MAX_LINE_LEN`. -/
theorem serviceAll_length_le (chs : List Int) :
    ∀ s : SerialConsole, s._curLine.length ≤ ABS_MAX_LINE_LEN →
      (serviceAll s chs)._curLine.length ≤ ABS_MAX_LINE_LEN := by
  induction chs with
  | nil => intro s h; exact h
  | cons ch rest ih =>
    intro s h
    exact ih (service s ch) (service_length_le s ch h)

/-- Receiving `n ≤ 1000` letters `a` after construction leaves them in the line. -/
theorem serviceAll_fill (e : Bool) (n : Nat) (hn : n + 1 ≤ ABS_MAX_LINE_LEN) :
    serviceAll (init e) (List.replicate (n + 1) 97)
      = { init e with
          _curLine := List.replicate (n + 1) 97
          _prevChar := 97
          _cmdRxState := CommandRxState.CommandRx_newChar } := by
  induction n with
  | zero => rfl
  | succ m ih =>
    have ih2 := ih (by omega)
    unfold serviceAll at ih2 ⊢
    rw [List.replicate_succ' (m + 1), List.foldl_append, ih2]
    have hlen : ¬ ((List.replicate (m + 1) (97 : Int)).length ≥ ABS_MAX_LINE_LEN) := by
      rw [List.length_replicate]; omega
    simp only [List.foldl_cons, List.foldl_nil, service]
    rw [if_neg (by decide), if_neg (by decide)]
    simp only [if_neg hlen]
    rw [if_neg (by decide)]

/-- C30, amended: after any sequence of `service` calls on any input, started from
a line of at most `ABS_MAX_LINE_LEN` (1000) characters, and so from the state the
constructor leaves, the current line holds at most 1000 characters; a character
other than carriage return and line feed that arrives when the line already holds
1000 characters discards the line and returns the receive state to idle instead of
being appended. -/
theorem serviceAll_line_bounded (s : SerialConsole) (chs : List Int) (ch : Int) (e : Bool) :
    (s._curLine.length ≤ ABS_MAX_LINE_LEN →
      (serviceAll s chs)._curLine.length ≤ ABS_MAX_LINE_LEN)
    ∧ (serviceAll (init e) chs)._curLine.length ≤ ABS_MAX_LINE_LEN
    ∧ (ch ≠ -1 → ch ≠ 13 → ch ≠ 10 → ABS_MAX_LINE_LEN ≤ s._curLine.length →
        (service s ch)._curLine = []
        ∧ (service s ch)._cmdRxState = CommandRxState.CommandRx_idle) := by
  refine ⟨serviceAll_length_le chs s, serviceAll_length_le chs (init e) (Nat.zero_le _), ?_⟩
  intro h1 h2 h3 hlen
  have h23 : ¬ (ch = 13 ∨ ch = 10) := by omega
  unfold service
  simp only [if_neg h1, if_neg h23, ge_iff_le, if_pos hlen, and_self]

/-- A line feed that ends a non-empty line, with endpoints set, hands the line to
`handleApiRequest`, clears it and sets the state complete. -/
theorem service_lineFeed (s : SerialConsole) (hp : ¬ (s._prevChar = 13 ∨ s._prevChar = 10))
    (hlen : 0 < s._curLine.length) (he : s.hasEndpoints = true) :
    service s 10
      = { s with
          _prevChar := 10
          handledRequests := s.handledRequests ++ [s._curLine]
          _curLine := []
          _cmdRxState := CommandRxState.CommandRx_complete } := by
  have hne : ¬ (s._curLine.length ≤ 0 ∧ True) := by omega
  unfold service
  rw [if_neg (by decide), if_pos (by decide), if_neg hp]
  simp only [he, if_true]
  rw [if_neg hne]

/-- Claim C30, amended, after 1000 letters `a`: the line holds 1000 characters, and
one more `a` discards it and leaves the idle state. -/
theorem serviceAll_line_bounded_witness :
    (serviceAll (init true) (List.replicate 1000 97))._curLine.length = 1000
    ∧ (service (serviceAll (init true) (List.replicate 1000 97)) 97)._curLine = []
    ∧ (service (serviceAll (init true) (List.replicate 1000 97)) 97)._cmdRxState
        = CommandRxState.CommandRx_idle :=
  ⟨by rw [serviceAll_fill true 999 (by decide)]; exact List.length_replicate _ _,
    (serviceAll_line_bounded (serviceAll (init true) (List.replicate 1000 97)) [] 97 true).2.2
      (by decide) (by decide) (by decide)
      (by
        rw [serviceAll_fill true 999 (by decide)]
        exact le_of_eq (List.length_replicate _ _).symm)⟩

/-- C30 fails for a line end: after 1000 letters `a` received from the constructed
state with endpoints set, the line holds 1000 characters; a line feed arriving
then is not appended either, but the line is not discarded: it is passed to
`handleApiRequest` as a command, and the receive state is complete, not idle. -/
theorem service_lineEnd_at_limit_completes :
    (serviceAll (init true) (List.replicate 1000 97))._curLine.length = ABS_MAX_LINE_LEN
    ∧ (service (serviceAll (init true) (List.replicate 1000 97)) 10)._cmdRxState
        = CommandRxState.CommandRx_complete
    ∧ (service (serviceAll (init true) (List.replicate 1000 97)) 10)._cmdRxState
        ≠ CommandRxState.CommandRx_idle
    ∧ (service (serviceAll (init true) (List.replicate 1000 97)) 10).handledRequests
        = [List.replicate 1000 97] := by
  have hs := serviceAll_fill true 999 (by decide)
  have h1000 : (999 : Nat) + 1 = 1000 := rfl
  rw [h1000] at hs
  rw [hs, service_lineFeed _ (by decide)
    (lt_of_lt_of_eq (by decide) (List.length_replicate 1000 (97 : Int)).symm) rfl]
  refine ⟨List.length_replicate _ _, rfl, by decide, rfl⟩

end SerialConsole

end RBot
